import Mathlib

/-!
# AudioProcessing: ring buffer, stage worker and pipeline supervisor

A shallow embedding of `src/audio_engine/audio_ring_buffer.h` and
`src/audio_engine/audio_pipeline.h`.

Conventions of the embedding

* A `sample` is the 32-bit pattern of a `float`; a `sample_state` is a byte. Both are
  natural numbers; the only operations the engine performs on them are copies and
  equality tests.
* The two arrays of a ring buffer (`m_sample_states`, `m_sample_blocks`) are maps from an
  index to a value; the indices below `m_block_count` (states) and below
  `m_block_count * sample_block_size` (samples) are the ones the buffer owns. The
  allocation is taken to be 16-byte aligned, as `std::allocator` returns it: the state
  array then starts at the first byte of the allocation and the samples follow it.
* `uint32_t` arithmetic wraps around `2 ^ 32`, `size_t` and `uintptr_t` subtraction and
  address arithmetic wrap around `2 ^ 64` (`uint32_sub`, `size_t_sub`, `uintptr_add`).
  Sizes and counters of 64 bits that only grow by addition
  (`m_block_count * sample_block_size`, the flush counters) are natural numbers.
  Addresses are element offsets from the base of the array they point into.
* The constructor of a ring buffer asks the allocator for its storage and fails when the
  allocator does (`allocate`, `audio_ring_buffer.construct`). The other functions work on
  buffers that exist; the scratch storage of `copy_slice_to` is taken to be available.
* An `int` is an integer of Lean between `-2 ^ 31` and `2 ^ 31 - 1`. A sum of two `int`
  values is `int_add`: the two's-complement sum the x86 `add` produces, that is the sum
  wrapped around `2 ^ 32`. (The language leaves a sum outside the range undefined; the
  theorems that bound the block count by `2 ^ 31` are about runs in which no sum leaves the
  range, and hold for any reading of the overflow.)
-/

namespace audio_engine

/-! ## audio_types.h -/

/-- The 32-bit pattern of a `float` sample. -/
abbrev sample := Nat

/-- One byte per sample block. -/
abbrev sample_state := Nat

def sample_block_size : Nat := 480

def sample_rate : Nat := 48000

/-! ## audio_ring_buffer.h -/

def sample_block_state_error : sample_state := 0xFD

def sample_block_state_processing : sample_state := 0xFE

def sample_block_state_processed : sample_state := 0xFF

def sample_block_state_default : sample_state := 0x0

/-- The exceptions of the engine, one per `throw`: the two `std::domain_error` of the
storage constructor, the `std::domain_error` of `copy_slice_to`, and the
`std::runtime_error` of the pipeline constructor; and the `std::bad_alloc` of the allocator
the storage constructor calls. -/
inductive exception where
  | block_count_zero
  | block_count_not_multiple_of_16
  | samples_range_too_large
  | no_output_stage
  | bad_alloc
  deriving DecidableEq, Repr

/-- What a call can end in: a normal return with the memory it leaves, a C++ exception
together with the memory at the moment it was thrown, or no defined behaviour at all
(a division by zero, an access outside an array). -/
inductive outcome (σ : Type) where
  | ok : σ → outcome σ
  | thrown : exception → σ → outcome σ
  | undefined : outcome σ

/-- The buffer seen through `get_block_states()` and `get_blocks()`: `states i` is the
byte `get_block_states()[i]`, `samples j` is the `j`-th `float` counted from
`get_blocks()`. -/
structure audio_ring_buffer where
  m_block_count : Nat
  states : Nat → sample_state
  samples : Nat → sample

/-- The byte count `15 + block_count + block_count * sizeof(sample_block)` the storage
constructor passes to `allocate`. -/
def allocation_size (block_count : Nat) : Nat :=
  15 + block_count + block_count * (sample_block_size * 4)

/-- A buffer that exists: its block count passed the two checks of the
`audio_ring_buffer_storage` constructor, and the byte count of its allocation is a
`size_t`. -/
def audio_ring_buffer.valid (b : audio_ring_buffer) : Prop :=
  b.m_block_count ≠ 0 ∧ b.m_block_count % 16 = 0 ∧ allocation_size b.m_block_count < 2 ^ 64

instance (b : audio_ring_buffer) : Decidable b.valid := by
  unfold audio_ring_buffer.valid; infer_instance

/-- The `__m128i` read at `&states[i]`: sixteen consecutive bytes, byte `k` of the
register being `states[i + k]`. -/
def load_m128i (states : Nat → sample_state) (i : Nat) : Nat → Nat :=
  fun k => states (i + k)

/-- Every byte of the register is `state`. -/
def _mm_set1_epi8 (state : sample_state) : Nat → Nat :=
  fun _ => state

/-- Byte-wise equality: `0xFF` where the bytes agree, `0x00` elsewhere. -/
def _mm_cmpeq_epi8 (a b : Nat → Nat) : Nat → Nat :=
  fun k => if a k = b k then 0xFF else 0x00

/-- Bits `k, k+1, .., k+n-1` of the byte mask, bit `k` lowest: each is the most
significant bit of the corresponding byte. -/
def movemask_from (v : Nat → Nat) : Nat → Nat → Nat
  | _, 0 => 0
  | k, n + 1 => v k / 128 % 2 + 2 * movemask_from v (k + 1) n

/-- The 16-bit mask of the most significant bits of the sixteen bytes. -/
def _mm_movemask_epi8 (v : Nat → Nat) : Nat :=
  movemask_from v 0 16

/-- Count of trailing zero bits among the lowest `width` bits; `width` when all are zero. -/
def tzcnt_bits : Nat → Nat → Nat
  | 0, _ => 0
  | width + 1, x => if x % 2 = 1 then 0 else 1 + tzcnt_bits width (x / 2)

/-- Trailing zero count of a 32-bit operand: 32 for the operand zero. -/
def _tzcnt_u32 (x : Nat) : Nat :=
  tzcnt_bits 32 (x % 2 ^ 32)

def byte_index (array target : Nat → Nat) : Nat :=
  let cmp := _mm_cmpeq_epi8 array target
  let mask := _mm_movemask_epi8 cmp
  let res := _tzcnt_u32 mask
  res

/-- The operand is `~mask`: the `int` complement, read as an `unsigned` by the count. -/
def byte_index_inverse (array target : Nat → Nat) : Nat :=
  let cmp := _mm_cmpeq_epi8 array target
  let mask := _mm_movemask_epi8 cmp
  let res := _tzcnt_u32 (2 ^ 32 - 1 - mask)
  res

/-- Difference of two `uint32_t` values: it wraps around `2 ^ 32` when `a < b`. -/
def uint32_sub (a b : Nat) : Nat :=
  if b ≤ a then a - b else a + 2 ^ 32 - b

/-- Difference of two `size_t` (or `uintptr_t`) values: it wraps around `2 ^ 64` when
`a < b`. -/
def size_t_sub (a b : Nat) : Nat :=
  if b ≤ a then a - b else a + 2 ^ 64 - b

/-- Sum of two `uintptr_t` values: it wraps around `2 ^ 64`. -/
def uintptr_add (a b : Nat) : Nat :=
  if a + b < 2 ^ 64 then a + b else a + b - 2 ^ 64

/-- Sum of two `int` values: the two's-complement sum, between `-2 ^ 31` and `2 ^ 31 - 1`. -/
def int_add (a b : Int) : Int :=
  (a + b + 2 ^ 31) % 2 ^ 32 - 2 ^ 31

/-- The conversion of an `int` to `size_t` (or `uint64_t`): a negative value wraps
around `2 ^ 64`. -/
def size_t_of_int (x : Int) : Nat :=
  if x < 0 then (x + 2 ^ 64).toNat else x.toNat

/-- The conversion of a `uint64_t` to `int`: the low 32 bits, read as two's complement. -/
def int_of_uint64 (x : Nat) : Int :=
  if x % 2 ^ 32 < 2 ^ 31 then ((x % 2 ^ 32 : Nat) : Int) else ((x % 2 ^ 32 : Nat) : Int) - 2 ^ 32

/-- The elements `d, .., d+n-1` of `dst` replaced by the elements `s, .., s+n-1` of `src`. -/
def copy_range {α : Type} (dst : Nat → α) (d : Nat) (src : Nat → α) (s n : Nat) : Nat → α :=
  fun i => if d ≤ i ∧ i < d + n then src (s + (i - d)) else dst i

/-- The call `memcpy(dst + d, src + s, n)` in elements of the two arrays, which hold
`dst_size` and `src_size` elements; `none` when the call reaches outside either array. -/
def memcpy {α : Type} (dst : Nat → α) (dst_size d : Nat) (src : Nat → α) (src_size s n : Nat) :
    Option (Nat → α) :=
  if d + n ≤ dst_size ∧ s + n ≤ src_size then some (copy_range dst d src s n) else none

/-- The largest object of the x86-64 target, `PTRDIFF_MAX` bytes. -/
def ptrdiff_max : Nat := 2 ^ 63 - 1

/-- The call `byte_allocator_t().allocate(n)` when the largest block the heap can hand out
has `heap` bytes: `true` when it returns storage, `false` when it throws `std::bad_alloc`.
No heap hands out an object of more than `PTRDIFF_MAX` bytes. -/
def allocate (heap n : Nat) : Bool :=
  decide (n ≤ heap ∧ n ≤ ptrdiff_max)

/-- The checks of the `audio_ring_buffer_storage` constructor: the exception it throws for
`block_count`, if any. -/
def audio_ring_buffer_storage (block_count : Nat) : Option exception :=
  if block_count = 0 then some exception.block_count_zero
  else if block_count % 16 ≠ 0 then some exception.block_count_not_multiple_of_16
  else none

namespace audio_ring_buffer

/-- The loop of `get_first_match_idx` from the value `i` of its `int` counter on, `idx`
still being `-1`; the first argument bounds the number of lanes still to visit. The test
`i < m_block_count` compares as `size_t`; `&states[i]` is the lane at offset `i`, which is
not negative whenever the test passes for a block count up to `2 ^ 64 - 2 ^ 31`. -/
def get_first_match_idx_loop (b : audio_ring_buffer) (state : sample_state) : Nat → Int → Int
  | 0, _ => -1
  | lanes + 1, i =>
    if size_t_of_int i < b.m_block_count then
      let local_idx := byte_index (load_m128i b.states i.toNat) (_mm_set1_epi8 state)
      if local_idx < 16 then int_add (local_idx : Int) i
      else get_first_match_idx_loop b state lanes (int_add i 16)
    else -1

/-- Index of the first block whose state is `state`, or `-1`. -/
def get_first_match_idx (b : audio_ring_buffer) (state : sample_state) : Int :=
  get_first_match_idx_loop b state b.m_block_count 0

/-- The loop of `get_first_nonmatch_idx` from the value `i` of its `int` counter on. -/
def get_first_nonmatch_idx_loop (b : audio_ring_buffer) (state : sample_state) :
    Nat → Int → Int
  | 0, _ => -1
  | lanes + 1, i =>
    if size_t_of_int i < b.m_block_count then
      let local_idx := byte_index_inverse (load_m128i b.states i.toNat) (_mm_set1_epi8 state)
      if local_idx < 16 then int_add (local_idx : Int) i
      else get_first_nonmatch_idx_loop b state lanes (int_add i 16)
    else -1

/-- Index of the first block whose state is not `state`, or `-1`. -/
def get_first_nonmatch_idx (b : audio_ring_buffer) (state : sample_state) : Int :=
  get_first_nonmatch_idx_loop b state b.m_block_count 0

/-- The index `idx % m_block_count` of `get_block_state` and `get_block`: the `int`
argument is converted to `size_t` before the remainder is taken. -/
def block_index (b : audio_ring_buffer) (idx : Int) : Nat :=
  size_t_of_int idx % b.m_block_count

/-- The byte behind `get_block_state(idx)`. -/
def get_block_state (b : audio_ring_buffer) (idx : Int) : sample_state :=
  b.states (b.block_index idx)

/-- The assignment through the reference `get_block_state(idx)`. -/
def store_block_state (b : audio_ring_buffer) (idx : Int) (state : sample_state) :
    audio_ring_buffer :=
  { b with states := fun i => if i = b.block_index idx then state else b.states i }

/-- The 480 samples behind `get_block(idx)`. -/
def get_block (b : audio_ring_buffer) (idx : Int) : Nat → sample :=
  fun j => b.samples (b.block_index idx * sample_block_size + j)

/-- The buffer after the 480 samples behind `get_block(idx)` have been overwritten. -/
def store_block (b : audio_ring_buffer) (idx : Int) (block : Nat → sample) :
    audio_ring_buffer :=
  { b with samples := fun j =>
      if b.block_index idx * sample_block_size ≤ j ∧
          j < b.block_index idx * sample_block_size + sample_block_size
      then block (j - b.block_index idx * sample_block_size) else b.samples j }

def set_state (b : audio_ring_buffer) (block_idx : Nat) (state : sample_state) :
    audio_ring_buffer :=
  { b with states := fun i => if i = block_idx then state else b.states i }

/-- The `memset` over the allocation: `m_block_count` state bytes followed by
`m_block_count * sample_block_size` samples. -/
def clear (b : audio_ring_buffer) : audio_ring_buffer :=
  { b with
    states := fun i => if i < b.m_block_count then 0 else b.states i
    samples := fun j => if j < b.m_block_count * sample_block_size then 0 else b.samples j }

/-- The call `memset(get_block_states(), state, m_block_count)` of the supervisor. -/
def memset_states (b : audio_ring_buffer) (state : sample_state) : audio_ring_buffer :=
  { b with states := fun i => if i < b.m_block_count then state else b.states i }

/-- Flat sample and state arrays of the scratch storage, `block_count` blocks, zeroed. -/
def intermediate_buffer (block_count : Nat) : audio_ring_buffer :=
  { m_block_count := block_count, states := fun _ => 0, samples := fun _ => 0 }

/-- The three index arguments are the `uint32_t` values the caller passes. The source is
`const`; the outcome carries the destination. The scratch storage is local. -/
def copy_slice_to (self dest : audio_ring_buffer)
    (sample_idx_from sample_idx_to samples_range : Nat) : outcome audio_ring_buffer :=
  let block_count := self.m_block_count
  let dest_block_count := dest.m_block_count
  let from_buffer_size := block_count * sample_block_size
  let to_buffer_size := dest_block_count * sample_block_size
  let min_buffer_size := min from_buffer_size to_buffer_size
  if samples_range > min_buffer_size then
    outcome.thrown exception.samples_range_too_large dest
  else
  match audio_ring_buffer_storage block_count with
  | some e => outcome.thrown e dest
  | none =>
  let tmp := intermediate_buffer block_count
  if to_buffer_size = 0 ∨ size_t_sub from_buffer_size sample_idx_from = 0 ∨
      size_t_sub to_buffer_size sample_idx_to = 0 then
    outcome.undefined
  else
  let wrapped_to := sample_idx_to % to_buffer_size
  -- element offsets of `from_samples`, `from_state`, `to_samples`, `to_state`
  let from_samples := sample_idx_from
  let from_state := sample_idx_from / sample_block_size
  let to_samples := wrapped_to
  let to_state := wrapped_to / sample_block_size
  let tmp_unwrap_size :=
    (uint32_sub samples_range 1 % size_t_sub from_buffer_size sample_idx_from + 1) % 2 ^ 32
  let tmp_wrap_size := uint32_sub samples_range tmp_unwrap_size
  let to_unwrap_size :=
    (uint32_sub samples_range 1 % size_t_sub to_buffer_size sample_idx_to + 1) % 2 ^ 32
  let to_wrap_size := uint32_sub samples_range to_unwrap_size
  let from_unwrap_state := from_state
  let from_wrap_state := size_t_sub from_unwrap_state (sample_idx_from / sample_block_size)
  let slice_block_count := samples_range / sample_block_size
  let tmp_wrap_size_state := tmp_wrap_size / sample_block_size
  let tmp_unwrap_size_state := uint32_sub slice_block_count tmp_wrap_size_state
  let to_wrap_size_state := to_wrap_size / sample_block_size
  let to_unwrap_size_state := uint32_sub slice_block_count to_wrap_size_state
  let copied : Option audio_ring_buffer := do
    let tmp_samples ← memcpy tmp.samples from_buffer_size 0
      self.samples from_buffer_size
      (uintptr_add from_samples
        (size_t_sub (size_t_sub from_buffer_size tmp_unwrap_size) sample_idx_from))
      tmp_unwrap_size
    let tmp_samples ← memcpy tmp_samples from_buffer_size tmp_unwrap_size
      self.samples from_buffer_size (size_t_sub from_samples sample_idx_from)
      tmp_wrap_size
    let tmp_state ← memcpy tmp.states block_count 0
      self.states block_count from_unwrap_state
      tmp_unwrap_size_state
    let tmp_state ← memcpy tmp_state block_count tmp_unwrap_size_state
      self.states block_count from_wrap_state
      tmp_wrap_size_state
    let dest_samples ← memcpy dest.samples to_buffer_size to_samples
      tmp_samples from_buffer_size 0
      to_unwrap_size
    let dest_samples ← memcpy dest_samples to_buffer_size 0
      tmp_samples from_buffer_size to_unwrap_size
      to_wrap_size
    let dest_states ← memcpy dest.states dest_block_count to_state
      tmp_state block_count 0
      to_unwrap_size_state
    let dest_states ← memcpy dest_states dest_block_count 0
      tmp_state block_count to_unwrap_size_state
      to_wrap_size_state
    pure { dest with states := dest_states, samples := dest_samples }
  match copied with
  | some d => outcome.ok d
  | none => outcome.undefined

/-- The scratch samples of `copy_slice_to` after its first two `memcpy`. -/
def scratch_samples (self : audio_ring_buffer) (u w : Nat) : Nat → sample :=
  copy_range (copy_range (fun _ => 0) 0 self.samples (self.m_block_count * 480 - u) u)
    u self.samples 0 w

/-- The scratch states of `copy_slice_to` after its third and fourth `memcpy`. -/
def scratch_states (self : audio_ring_buffer) (from_state us ws : Nat) : Nat → sample_state :=
  copy_range (copy_range (fun _ => 0) 0 self.states from_state us) us self.states 0 ws

/-- The default argument of the constructor:
`duration_cast<sample_duration_t>(seconds(1)).count() / sample_block_size`, one second
being `sample_rate` ticks of `sample_duration_t`. -/
def default_block_count : Nat :=
  1 * sample_rate / sample_block_size

/-- The constructor `audio_ring_buffer(block_count)`: the checks of the storage
constructor, its call `allocate(15 + block_count + block_count * sizeof(sample_block))`,
the argument computed in `size_t`, then `clear()`. `heap` is the largest request the
allocator can satisfy, `raw_states` and `raw_samples` are what the fresh allocation happens
to hold. `none` stands for the case in which the byte count has wrapped around `2 ^ 64`
and the allocator has returned the smaller storage: the object then owns fewer bytes than
its block count needs, and no buffer of this embedding corresponds to it. -/
def construct (heap : Nat) (block_count : Nat) (raw_states : Nat → sample_state)
    (raw_samples : Nat → sample) : Option (Except exception audio_ring_buffer) :=
  match audio_ring_buffer_storage block_count with
  | some e => some (Except.error e)
  | none =>
    if allocate heap (allocation_size block_count % 2 ^ 64) = true then
      if allocation_size block_count < 2 ^ 64 then
        some (Except.ok (clear { m_block_count := block_count, states := raw_states,
                                 samples := raw_samples }))
      else none
    else some (Except.error exception.bad_alloc)

/-- The fourth argument is converted to the `uint32_t` parameter `samples_range`. -/
def copy_to (self dest : audio_ring_buffer) (samples_offset : Nat) :
    outcome audio_ring_buffer :=
  copy_slice_to self dest 0 samples_offset
    ((self.m_block_count * sample_block_size) % 2 ^ 32)

end audio_ring_buffer

/-! ## audio_pipeline.h -/

/-- The enumerators of `pipeline_execution_state`. -/
def STOPPED : Nat := 0

def PAUSED : Nat := 1

def EXECUTING : Nat := 2

structure pipeline_state where
  generator_flush_count : Nat
  processing_flush_count : Nat
  output_flush_count : Nat
  execution_state : Nat

/-- The members of `pipeline_stage`. The virtual `process_block` is a field: from the
pipeline state, the 480 samples of the input block, the 480 samples the output block holds
and the block number, it gives the returned state and the 480 samples it leaves in the
output block. -/
structure pipeline_stage where
  m_entry_block_state : sample_state
  m_thread_count : Nat
  m_in_buffer_idx : Nat
  m_out_buffer_idx : Nat
  m_offset : Nat
  m_flushing : Bool
  process_block : pipeline_state → (Nat → sample) → (Nat → sample) → Int →
    sample_state × (Nat → sample)

structure audio_pipeline where
  m_state : pipeline_state
  m_generator_stages : List pipeline_stage
  m_processing_stages : List pipeline_stage
  m_output_stages : List pipeline_stage
  m_generator_buffers : List audio_ring_buffer
  m_processing_buffers : List audio_ring_buffer
  m_output_buffers : List audio_ring_buffer

/-- The three groups of stages and buffers of a pipeline. -/
inductive stage_group where
  | generator
  | processing
  | output
  deriving DecidableEq, Repr

/-- The element `front()` of a vector; `none` for the empty vector. -/
def front {α : Type} (v : List α) : Option α :=
  v[0]?

/-- The element `back()` of a vector; `none` for the empty vector. -/
def back {α : Type} (v : List α) : Option α :=
  if v.length = 0 then none else v[v.length - 1]?

/-- The vector after an assignment through `front()`. -/
def set_front {α : Type} (v : List α) (a : α) : List α :=
  v.set 0 a

/-- The vector after an assignment through `back()`. -/
def set_back {α : Type} (v : List α) (a : α) : List α :=
  v.set (v.length - 1) a

/-- The loops `for (auto& stage : stages) stage->m_flushing.store(value)`. -/
def store_flushing (stages : List pipeline_stage) (value : Bool) : List pipeline_stage :=
  stages.map (fun stage => { stage with m_flushing := value })

namespace audio_pipeline

def stages (p : audio_pipeline) : stage_group → List pipeline_stage
  | stage_group.generator => p.m_generator_stages
  | stage_group.processing => p.m_processing_stages
  | stage_group.output => p.m_output_stages

def buffers (p : audio_pipeline) : stage_group → List audio_ring_buffer
  | stage_group.generator => p.m_generator_buffers
  | stage_group.processing => p.m_processing_buffers
  | stage_group.output => p.m_output_buffers

def set_buffers (p : audio_pipeline) (g : stage_group) (v : List audio_ring_buffer) :
    audio_pipeline :=
  match g with
  | stage_group.generator => { p with m_generator_buffers := v }
  | stage_group.processing => { p with m_processing_buffers := v }
  | stage_group.output => { p with m_output_buffers := v }

/-- One pass through the body of the `while` loop of `stage_worker`, run with no other
thread interleaved, for stage `k` of group `g`; `from_buffer` and `to_buffer` are the
elements `m_in_buffer_idx` and `m_out_buffer_idx` of the buffers of the group, as bound
in `run`. The compare-exchange succeeds exactly when the byte holds the entry state.
`none` stands for an access outside a vector. -/
def stage_worker_iteration (p : audio_pipeline) (g : stage_group) (k : Nat) :
    Option audio_pipeline := do
  let p_stage ← (p.stages g)[k]?
  let from_buffer ← (p.buffers g)[p_stage.m_in_buffer_idx]?
  let _ ← (p.buffers g)[p_stage.m_out_buffer_idx]?
  let state := p.m_state.execution_state
  if state = EXECUTING ∧ p_stage.m_flushing = false then
    let idx := from_buffer.get_first_match_idx p_stage.m_entry_block_state
    let flush_count := p.m_state.generator_flush_count
    let dst_idx := int_add idx (p_stage.m_offset : Int)
    let exchanged :=
      decide (from_buffer.get_block_state idx = p_stage.m_entry_block_state)
    if exchanged then
      let buffers := (p.buffers g).set p_stage.m_in_buffer_idx
        (from_buffer.store_block_state idx sample_block_state_processing)
      let from_buffer ← buffers[p_stage.m_in_buffer_idx]?
      let to_buffer ← buffers[p_stage.m_out_buffer_idx]?
      let from_block := from_buffer.get_block idx
      let to_block := to_buffer.get_block dst_idx
      let generator_back ← back p.m_generator_buffers
      let processed := p_stage.process_block p.m_state from_block to_block
        (int_of_uint64
          ((flush_count * generator_back.m_block_count + size_t_of_int dst_idx) % 2 ^ 64))
      let out_state := processed.1
      let buffers := buffers.set p_stage.m_out_buffer_idx
        (to_buffer.store_block dst_idx processed.2)
      let from_buffer ← buffers[p_stage.m_in_buffer_idx]?
      let buffers := buffers.set p_stage.m_in_buffer_idx
        (from_buffer.store_block_state dst_idx out_state)
      let to_buffer ← buffers[p_stage.m_out_buffer_idx]?
      let buffers := buffers.set p_stage.m_out_buffer_idx
        (to_buffer.store_block_state dst_idx out_state)
      pure (p.set_buffers g buffers)
    else pure p
  else pure p

end audio_pipeline

/-- What one group-to-group flush of `run` reads and writes: the stages and buffers of the
source group and of the destination group, and the flush counter of the source group. -/
structure flush_view where
  src_stages : List pipeline_stage
  dst_stages : List pipeline_stage
  src_buffers : List audio_ring_buffer
  dst_buffers : List audio_ring_buffer
  flush_count : Nat

/-- The condition of a flush, its three conjuncts evaluated left to right and only as far
as needed; `none` stands for `front()` or `back()` of an empty vector. -/
def flush_condition (src_buffers dst_buffers : List audio_ring_buffer) : Option Bool :=
  match back src_buffers with
  | none => none
  | some src_back =>
    if src_back.get_first_nonmatch_idx sample_block_state_processed = -1 then
      match front dst_buffers with
      | none => none
      | some dst_front =>
        if dst_front.get_first_nonmatch_idx sample_block_state_default = -1 then
          match back dst_buffers with
          | none => none
          | some dst_back =>
            some (decide (dst_back.get_first_nonmatch_idx sample_block_state_default = -1))
        else some false
    else some false

/-- The body of a flush, statement by statement. -/
def flush_body (v : flush_view) : outcome flush_view :=
  let v := { v with src_stages := store_flushing v.src_stages true }
  let v := { v with dst_stages := store_flushing v.dst_stages true }
  let v := { v with flush_count := v.flush_count + 1 }
  match back v.src_buffers, front v.dst_buffers with
  | some src_back, some dst_front =>
    match src_back.copy_to dst_front 0 with
    | outcome.undefined => outcome.undefined
    | outcome.thrown e d => outcome.thrown e { v with dst_buffers := set_front v.dst_buffers d }
    | outcome.ok d =>
      let v := { v with dst_buffers := set_front v.dst_buffers d }
      match front v.src_buffers with
      | none => outcome.undefined
      | some src_front =>
        let v := { v with src_buffers := set_front v.src_buffers src_front.clear }
        match front v.dst_buffers, front v.dst_stages with
        | some dst_front, some dst_stage =>
          let seeded := dst_front.memset_states dst_stage.m_entry_block_state
          let v := { v with dst_buffers := set_front v.dst_buffers seeded }
          match back v.src_buffers with
          | none => outcome.undefined
          | some src_back =>
            let emptied := src_back.memset_states sample_block_state_default
            let v := { v with src_buffers := set_back v.src_buffers emptied }
            let v := { v with src_stages := store_flushing v.src_stages false }
            let v := { v with dst_stages := store_flushing v.dst_stages false }
            outcome.ok v
        | _, _ => outcome.undefined
  | _, _ => outcome.undefined

/-- An `if (condition) { body }` of the supervisor loop. -/
def flush_step (v : flush_view) : outcome flush_view :=
  match flush_condition v.src_buffers v.dst_buffers with
  | none => outcome.undefined
  | some true => flush_body v
  | some false => outcome.ok v

namespace audio_pipeline

/-- The generator-to-processing flush reads and writes these members. -/
def generator_view (p : audio_pipeline) : flush_view :=
  { src_stages := p.m_generator_stages, dst_stages := p.m_processing_stages,
    src_buffers := p.m_generator_buffers, dst_buffers := p.m_processing_buffers,
    flush_count := p.m_state.generator_flush_count }

def set_generator_view (p : audio_pipeline) (v : flush_view) : audio_pipeline :=
  { p with
    m_state := { p.m_state with generator_flush_count := v.flush_count }
    m_generator_stages := v.src_stages, m_processing_stages := v.dst_stages
    m_generator_buffers := v.src_buffers, m_processing_buffers := v.dst_buffers }

/-- The processing-to-output flush reads and writes these members. -/
def processing_view (p : audio_pipeline) : flush_view :=
  { src_stages := p.m_processing_stages, dst_stages := p.m_output_stages,
    src_buffers := p.m_processing_buffers, dst_buffers := p.m_output_buffers,
    flush_count := p.m_state.processing_flush_count }

def set_processing_view (p : audio_pipeline) (v : flush_view) : audio_pipeline :=
  { p with
    m_state := { p.m_state with processing_flush_count := v.flush_count }
    m_processing_stages := v.src_stages, m_output_stages := v.dst_stages
    m_processing_buffers := v.src_buffers, m_output_buffers := v.dst_buffers }

/-- The outcome of a flush written back into the pipeline. -/
def with_view (p : audio_pipeline) (set : audio_pipeline → flush_view → audio_pipeline) :
    outcome flush_view → outcome audio_pipeline
  | outcome.ok v => outcome.ok (set p v)
  | outcome.thrown e v => outcome.thrown e (set p v)
  | outcome.undefined => outcome.undefined

/-- The body of the first `if` of the supervisor loop. -/
def generator_flush (p : audio_pipeline) : outcome audio_pipeline :=
  p.with_view set_generator_view (flush_body p.generator_view)

/-- The body of the second `if` of the supervisor loop. -/
def processing_flush (p : audio_pipeline) : outcome audio_pipeline :=
  p.with_view set_processing_view (flush_body p.processing_view)

/-- The first `if` of the supervisor loop: the generator-to-processing flush. -/
def generator_flush_step (p : audio_pipeline) : outcome audio_pipeline :=
  p.with_view set_generator_view (flush_step p.generator_view)

/-- The second `if` of the supervisor loop: the processing-to-output flush. -/
def processing_flush_step (p : audio_pipeline) : outcome audio_pipeline :=
  p.with_view set_processing_view (flush_step p.processing_view)

/-- One pass through the body of the supervisor loop of `run`, no worker interleaved. -/
def run_iteration (p : audio_pipeline) : outcome audio_pipeline :=
  match p.generator_flush_step with
  | outcome.ok p1 => p1.processing_flush_step
  | outcome.thrown e p1 => outcome.thrown e p1
  | outcome.undefined => outcome.undefined

end audio_pipeline

namespace audio_pipeline

/-- The six-argument constructor. -/
def construct (generator_stages processing_stages output_stages : List pipeline_stage)
    (generator_buffers processing_buffers output_buffers : List audio_ring_buffer) :
    Except exception audio_pipeline :=
  if output_stages.length = 0 then Except.error exception.no_output_stage
  else Except.ok
    { m_state := { generator_flush_count := 0, processing_flush_count := 0,
                   output_flush_count := 0, execution_state := STOPPED },
      m_generator_stages := generator_stages,
      m_processing_stages := processing_stages,
      m_output_stages := output_stages,
      m_generator_buffers := generator_buffers,
      m_processing_buffers := processing_buffers,
      m_output_buffers := output_buffers }

/-- The expression `std::vector<audio_ring_buffer>(1)`: one element, built by the buffer
constructor with its default argument. -/
def default_buffers (heap : Nat) (raw_states : Nat → sample_state)
    (raw_samples : Nat → sample) : Option (Except exception (List audio_ring_buffer)) :=
  match audio_ring_buffer.construct heap audio_ring_buffer.default_block_count
      raw_states raw_samples with
  | none => none
  | some (Except.error e) => some (Except.error e)
  | some (Except.ok b) => some (Except.ok [b])

/-- The three-argument constructor: it builds three vectors of one default buffer and
delegates to the six-argument constructor. `heap n`, `raw_states n` and `raw_samples n`
are what the allocator can satisfy and what the allocation holds when the `n`-th vector is
built. -/
def construct_default (generator_stages processing_stages output_stages : List pipeline_stage)
    (heap : Nat → Nat) (raw_states : Nat → Nat → sample_state)
    (raw_samples : Nat → Nat → sample) : Option (Except exception audio_pipeline) :=
  match default_buffers (heap 0) (raw_states 0) (raw_samples 0) with
  | none => none
  | some (Except.error e) => some (Except.error e)
  | some (Except.ok generator_buffers) =>
    match default_buffers (heap 1) (raw_states 1) (raw_samples 1) with
    | none => none
    | some (Except.error e) => some (Except.error e)
    | some (Except.ok processing_buffers) =>
      match default_buffers (heap 2) (raw_states 2) (raw_samples 2) with
      | none => none
      | some (Except.error e) => some (Except.error e)
      | some (Except.ok output_buffers) =>
        some (construct generator_stages processing_stages output_stages
          generator_buffers processing_buffers output_buffers)

def stop (p : audio_pipeline) : audio_pipeline :=
  { p with m_state := { p.m_state with execution_state := STOPPED } }

def pause (p : audio_pipeline) : audio_pipeline :=
  { p with m_state := { p.m_state with execution_state := PAUSED } }

/-- The body of the `while` loop of `stage_worker` run `n` times in a row by one worker,
no other thread interleaved. -/
def stage_worker_iterations (p : audio_pipeline) (g : stage_group) (k : Nat) :
    Nat → Option audio_pipeline
  | 0 => some p
  | n + 1 =>
    match stage_worker_iterations p g k n with
    | none => none
    | some q => q.stage_worker_iteration g k

end audio_pipeline

/-- What the shutdown of `run` and the destructor do, as far as the stages and the worker
threads see it: a join of the worker threads (`m_threads.clear()`, or the destruction of
the member `m_threads`), or a call of `cleanup` on stage `k` of a group. -/
inductive pipeline_event where
  | join_workers
  | cleanup (g : stage_group) (k : Nat)
  deriving DecidableEq, Repr

/-- The loop `for (auto& stage : stages) stage->cleanup()` over a group of `n` stages. -/
def cleanup_group (g : stage_group) (n : Nat) : List pipeline_event :=
  (List.range n).map (pipeline_event.cleanup g)

/-- The three cleanup loops, generator, processing, output, in this order. -/
def cleanup_stages (p : audio_pipeline) : List pipeline_event :=
  cleanup_group stage_group.generator p.m_generator_stages.length ++
  cleanup_group stage_group.processing p.m_processing_stages.length ++
  cleanup_group stage_group.output p.m_output_stages.length

namespace audio_pipeline

/-- The end of `run`, after the supervisor loop: `m_threads.clear()`, then the cleanup
loops. -/
def run_shutdown (p : audio_pipeline) : List pipeline_event :=
  pipeline_event.join_workers :: cleanup_stages p

/-- The destructor: its body is the three cleanup loops; the members are destroyed after
it, `m_threads` among them. -/
def destructor (p : audio_pipeline) : List pipeline_event :=
  cleanup_stages p ++ [pipeline_event.join_workers]

/-- The events of construct, run, stop, return of `run`, destroy: the constructor and the
supervisor loop call no `cleanup` and join no thread. -/
def lifecycle (p : audio_pipeline) : List pipeline_event :=
  p.run_shutdown ++ p.destructor

end audio_pipeline

/-! ## delay_stage.cpp -/

/-- The conversion of a value to `uint8_t`. -/
def uint8_t (x : Nat) : Nat :=
  x % 256

/-- The count of `std::chrono::duration_cast<sample_duration_t>` applied to a number of
milliseconds: ticks of `1 / sample_rate` seconds. -/
def duration_cast_sample_duration (delay_ms : Nat) : Nat :=
  delay_ms * sample_rate / 1000

/-- The constructor of `pipeline_stage`; its five parameters are `uint8_t`. -/
def pipeline_stage.construct (entry_block_state thread_count in_buffer_idx out_buffer_idx
    offset : Nat)
    (process_block : pipeline_state → (Nat → sample) → (Nat → sample) → Int →
      sample_state × (Nat → sample)) : pipeline_stage :=
  { m_entry_block_state := entry_block_state, m_thread_count := thread_count,
    m_in_buffer_idx := in_buffer_idx, m_out_buffer_idx := out_buffer_idx,
    m_offset := offset, m_flushing := false, process_block := process_block }

/-- The method `delay_stage::process_block`: the input block copied to the output block,
`PROCESSED` returned. -/
def delay_stage_process_block : pipeline_state → (Nat → sample) → (Nat → sample) → Int →
    sample_state × (Nat → sample) :=
  fun _ in_block _ _ => (sample_block_state_processed, in_block)

/-- The constructor `delay_stage(delay_ms)`: the sample count of the delay is converted
to the `uint8_t` parameter `offset`. -/
def delay_stage (delay_ms : Nat) : pipeline_stage :=
  pipeline_stage.construct 2 1 0 1 (uint8_t (duration_cast_sample_duration delay_ms))
    delay_stage_process_block

/-- The bit pattern of `std::nanf("1")`. -/
def nanf_1 : sample := 0x7FC00001

/-- The method `delay_stage::init`: every sample of the first buffer set to NaN, its first
`samples_duration` samples zeroed, all its states set to 2. `none` stands for an empty
vector or a `memset` longer than the sample array. -/
def delay_stage_init (delay_ms : Nat) (buffers : List audio_ring_buffer) :
    Option (List audio_ring_buffer) :=
  let samples_duration := duration_cast_sample_duration delay_ms
  match front buffers with
  | none => none
  | some b =>
    if samples_duration ≤ b.m_block_count * sample_block_size then
      some (set_front buffers
        { b with
          samples := fun j =>
            if j < samples_duration then 0
            else if j < b.m_block_count * sample_block_size then nanf_1 else b.samples j
          states := fun i => if i < b.m_block_count then 2 else b.states i })
    else none

/-! ## Worker threads and the supervisor, interleaved

The body of the `while` loop of `stage_worker` cut at its accesses to the shared state
bytes: the scan with the loads that precede the compare-exchange, the compare-exchange,
`process_block`, the store through `from_buffer` and the store through `to_buffer`. A step
runs one of these pieces of one worker, or one pass of the supervisor loop, without
interruption; a schedule is a sequence of steps. Every schedule is an execution of the
program; the program has further executions, in which the pieces themselves overlap. -/

/-- Where a worker stands in the body of the `while` loop of `stage_worker`, with the
values of its locals `idx`, `flush_count`, `dst_idx` and `out_state` once they are set. -/
inductive worker_pc where
  | loop_head
  | before_exchange (idx : Int) (flush_count : Nat) (dst_idx : Int)
  | exchanged (idx : Int) (flush_count : Nat) (dst_idx : Int)
  | before_store_from (idx : Int) (dst_idx : Int) (out_state : sample_state)
  | before_store_to (idx : Int) (dst_idx : Int) (out_state : sample_state)
  deriving DecidableEq, Repr

/-- A thread of `m_threads`: the group and the index of the stage `run` bound it to, and
where it stands. -/
structure worker where
  group : stage_group
  stage : Nat
  pc : worker_pc
  deriving DecidableEq, Repr

/-- A pipeline inside `run`: the pipeline and its worker threads. -/
structure running_pipeline where
  pipeline : audio_pipeline
  m_threads : List worker

/-- The threads `run` starts for the stages of one group: `m_thread_count` workers per
stage, in the order of the stages. -/
def spawn_workers (g : stage_group) (stages : List pipeline_stage) : List worker :=
  ((List.range stages.length).map (fun k =>
    match stages[k]? with
    | some stage =>
      List.replicate stage.m_thread_count { group := g, stage := k, pc := worker_pc.loop_head }
    | none => [])).flatten

namespace audio_pipeline

/-- The statements of `run` before the supervisor loop: the execution state becomes
`EXECUTING` and the workers of the three groups are started. The `init` hooks are taken to
leave the buffers as they are. -/
def run_start (p : audio_pipeline) : running_pipeline :=
  { pipeline := { p with m_state := { p.m_state with execution_state := EXECUTING } },
    m_threads := spawn_workers stage_group.generator p.m_generator_stages ++
      spawn_workers stage_group.processing p.m_processing_stages ++
      spawn_workers stage_group.output p.m_output_stages }

end audio_pipeline

namespace running_pipeline

/-- The threads after worker `w`, which was `t`, has moved to `pc`. -/
def set_pc (r : running_pipeline) (w : Nat) (t : worker) (pc : worker_pc) : List worker :=
  r.m_threads.set w { t with pc := pc }

/-- The next piece of worker `w`. The compare-exchange succeeds exactly when the byte holds
the entry state; when it fails, `expected_state` has received another value and the
`do` loop ends with `exchanged` false. `none` stands for an access outside a vector. -/
def worker_step (r : running_pipeline) (w : Nat) : Option running_pipeline := do
  let t ← r.m_threads[w]?
  let p := r.pipeline
  let p_stage ← (p.stages t.group)[t.stage]?
  let from_buffer ← (p.buffers t.group)[p_stage.m_in_buffer_idx]?
  let to_buffer ← (p.buffers t.group)[p_stage.m_out_buffer_idx]?
  match t.pc with
  | worker_pc.loop_head =>
    let state := p.m_state.execution_state
    if state = EXECUTING ∧ p_stage.m_flushing = false then
      let idx := from_buffer.get_first_match_idx p_stage.m_entry_block_state
      let flush_count := p.m_state.generator_flush_count
      let dst_idx := int_add idx (p_stage.m_offset : Int)
      pure { r with
        m_threads := r.set_pc w t (worker_pc.before_exchange idx flush_count dst_idx) }
    else pure r
  | worker_pc.before_exchange idx flush_count dst_idx =>
    if from_buffer.get_block_state idx = p_stage.m_entry_block_state then
      let buffers := (p.buffers t.group).set p_stage.m_in_buffer_idx
        (from_buffer.store_block_state idx sample_block_state_processing)
      pure { pipeline := p.set_buffers t.group buffers,
             m_threads := r.set_pc w t (worker_pc.exchanged idx flush_count dst_idx) }
    else pure { r with m_threads := r.set_pc w t worker_pc.loop_head }
  | worker_pc.exchanged idx flush_count dst_idx =>
    let from_block := from_buffer.get_block idx
    let to_block := to_buffer.get_block dst_idx
    let generator_back ← back p.m_generator_buffers
    let processed := p_stage.process_block p.m_state from_block to_block
      (int_of_uint64
        ((flush_count * generator_back.m_block_count + size_t_of_int dst_idx) % 2 ^ 64))
    let out_state := processed.1
    let buffers := (p.buffers t.group).set p_stage.m_out_buffer_idx
      (to_buffer.store_block dst_idx processed.2)
    pure { pipeline := p.set_buffers t.group buffers,
           m_threads := r.set_pc w t (worker_pc.before_store_from idx dst_idx out_state) }
  | worker_pc.before_store_from idx dst_idx out_state =>
    let buffers := (p.buffers t.group).set p_stage.m_in_buffer_idx
      (from_buffer.store_block_state dst_idx out_state)
    pure { pipeline := p.set_buffers t.group buffers,
           m_threads := r.set_pc w t (worker_pc.before_store_to idx dst_idx out_state) }
  | worker_pc.before_store_to _ dst_idx out_state =>
    let buffers := (p.buffers t.group).set p_stage.m_out_buffer_idx
      (to_buffer.store_block_state dst_idx out_state)
    pure { pipeline := p.set_buffers t.group buffers,
           m_threads := r.set_pc w t worker_pc.loop_head }

end running_pipeline

/-- The thread that takes the next step. -/
inductive thread where
  | supervisor
  | worker (w : Nat)
  deriving DecidableEq, Repr

namespace running_pipeline

/-- One step: a pass of the supervisor loop that returns normally, or the next piece of a
worker. `none` when the step cannot be taken. -/
def step (r : running_pipeline) : thread → Option running_pipeline
  | thread.supervisor =>
    match r.pipeline.run_iteration with
    | outcome.ok p1 => some { r with pipeline := p1 }
    | outcome.thrown _ _ => none
    | outcome.undefined => none
  | thread.worker w => r.worker_step w

/-- The steps of a schedule, one after the other. -/
def run_schedule (r : running_pipeline) : List thread → Option running_pipeline
  | [] => some r
  | t :: schedule => (r.step t).bind (fun r1 => run_schedule r1 schedule)

end running_pipeline

/-! ## The vocabulary of the specification -/

/-- The block worker `w` has claimed and not yet published a state for: its compare-exchange
has succeeded and it has not yet executed a store. The block is named by its group, the
index of its buffer in the group and its index in the buffer. -/
def claim_of (r : running_pipeline) (w : Nat) : Option (stage_group × Nat × Nat) := do
  let t ← r.m_threads[w]?
  let p_stage ← (r.pipeline.stages t.group)[t.stage]?
  let from_buffer ← (r.pipeline.buffers t.group)[p_stage.m_in_buffer_idx]?
  match t.pc with
  | worker_pc.exchanged idx _ _ =>
    some (t.group, p_stage.m_in_buffer_idx, from_buffer.block_index idx)
  | worker_pc.before_store_from idx _ _ =>
    some (t.group, p_stage.m_in_buffer_idx, from_buffer.block_index idx)
  | _ => none

/-- No block is claimed by two workers at once. -/
def at_most_one_claim (r : running_pipeline) : Prop :=
  ∀ w1 w2 c, claim_of r w1 = some c → claim_of r w2 = some c → w1 = w2

/-- Every one of the `m_block_count` states of the buffer is `s`. -/
def all_states (b : audio_ring_buffer) (s : sample_state) : Prop :=
  ∀ i, i < b.m_block_count → b.states i = s

/-- Every state of the buffer is `DEFAULT` and every sample has the all-zero pattern. -/
def cleared (b : audio_ring_buffer) : Prop :=
  all_states b sample_block_state_default ∧
    ∀ j, j < b.m_block_count * sample_block_size → b.samples j = 0

/-- The buffers of a group: at least one, each of them an existing buffer. -/
def group_ok (buffers : List audio_ring_buffer) : Prop :=
  0 < buffers.length ∧ ∀ b, b ∈ buffers → b.valid

instance (buffers : List audio_ring_buffer) : Decidable (group_ok buffers) := by
  unfold group_ok; infer_instance

/-- The flush condition in the words of the specification: the last buffer of the source
group is entirely `PROCESSED`, the first and the last buffer of the destination group are
entirely `DEFAULT`. -/
def flush_condition_holds (src_buffers dst_buffers : List audio_ring_buffer) : Prop :=
  ∃ src_back dst_front dst_back,
    back src_buffers = some src_back ∧ front dst_buffers = some dst_front ∧
    back dst_buffers = some dst_back ∧
    all_states src_back sample_block_state_processed ∧
    all_states dst_front sample_block_state_default ∧
    all_states dst_back sample_block_state_default

/-- The three flush counters of `q` are not below those of `p`. -/
def counters_le (p q : audio_pipeline) : Prop :=
  p.m_state.generator_flush_count ≤ q.m_state.generator_flush_count ∧
  p.m_state.processing_flush_count ≤ q.m_state.processing_flush_count ∧
  p.m_state.output_flush_count ≤ q.m_state.output_flush_count

/-- Left-to-right scalar search over the indices `i, i+1, .., i+n-1`: the first one
satisfying `p`, or `-1`. -/
def scalar_search (p : Nat → Bool) : Nat → Nat → Int
  | _, 0 => -1
  | i, n + 1 => if p i then (i : Int) else scalar_search p (i + 1) n

/-! ## Example data -/

/-- A stage for the examples: one thread, buffer 0 to buffer 0, `process_block` returning
`exit_state` and leaving the input samples in the output block. -/
def example_stage (entry_state offset exit_state : Nat) : pipeline_stage :=
  { m_entry_block_state := entry_state, m_thread_count := 1, m_in_buffer_idx := 0,
    m_out_buffer_idx := 0, m_offset := offset, m_flushing := false,
    process_block := fun _ in_block _ _ => (exit_state, in_block) }

/-- A pipeline with one generator stage of entry state 1 and offset 1 whose
`process_block` returns 2, over one buffer of sixteen blocks: block 0 is in state 1, the
other blocks are in state 0. -/
def offset_example : audio_pipeline :=
  { m_state := { generator_flush_count := 0, processing_flush_count := 0,
                 output_flush_count := 0, execution_state := EXECUTING },
    m_generator_stages := [example_stage 1 1 2],
    m_processing_stages := [example_stage 2 0 255],
    m_output_stages := [example_stage 3 0 0],
    m_generator_buffers := [⟨16, fun i => if i = 0 then 1 else 0, fun j => j⟩],
    m_processing_buffers := [⟨16, fun _ => 0, fun _ => 0⟩],
    m_output_buffers := [⟨16, fun _ => 0, fun _ => 0⟩] }

/-- A stage whose `process_block` returns the block number it is passed (as a state byte)
and leaves the input samples in the output block. -/
def numbering_stage (entry_state offset : Nat) : pipeline_stage :=
  { m_entry_block_state := entry_state, m_thread_count := 1, m_in_buffer_idx := 0,
    m_out_buffer_idx := 0, m_offset := offset, m_flushing := false,
    process_block := fun _ in_block _ block_count => (block_count.toNat % 256, in_block) }

/-- A pipeline of 16-block buffers with one generator stage of entry state 1 and offset 1
that returns its block number; block 15 of the generator buffer is in state 1, the other
blocks are in state 0; no flush has happened. -/
def numbering_example : audio_pipeline :=
  { m_state := { generator_flush_count := 0, processing_flush_count := 0,
                 output_flush_count := 0, execution_state := EXECUTING },
    m_generator_stages := [numbering_stage 1 1],
    m_processing_stages := [example_stage 2 0 255],
    m_output_stages := [example_stage 3 0 0],
    m_generator_buffers := [⟨16, fun i => if i = 15 then 1 else 0, fun j => j⟩],
    m_processing_buffers := [⟨16, fun _ => 0, fun _ => 0⟩],
    m_output_buffers := [⟨16, fun _ => 0, fun _ => 0⟩] }

/-- A pipeline of 16-block buffers whose generator stage has entry state 0, offset 0 and
a `process_block` returning state 1; every block of the generator buffer is in state 0. -/
def fill_example : audio_pipeline :=
  { m_state := { generator_flush_count := 0, processing_flush_count := 0,
                 output_flush_count := 0, execution_state := EXECUTING },
    m_generator_stages := [example_stage 0 0 1],
    m_processing_stages := [example_stage 1 0 255],
    m_output_stages := [example_stage 3 0 0],
    m_generator_buffers := [⟨16, fun _ => 0, fun j => j⟩],
    m_processing_buffers := [⟨16, fun _ => 0, fun _ => 0⟩],
    m_output_buffers := [⟨16, fun _ => 0, fun _ => 0⟩] }

/-- A pipeline about to flush its generator group: one buffer of sixteen blocks per group,
the generator buffer entirely `PROCESSED` with sample `j` holding the pattern `j + 1`, the
other two buffers zero. -/
def flush_example : audio_pipeline :=
  { m_state := { generator_flush_count := 0, processing_flush_count := 0,
                 output_flush_count := 0, execution_state := EXECUTING },
    m_generator_stages := [example_stage 0 0 255],
    m_processing_stages := [example_stage 1 0 255],
    m_output_stages := [example_stage 3 0 0],
    m_generator_buffers := [⟨16, fun _ => 255, fun j => j + 1⟩],
    m_processing_buffers := [⟨16, fun _ => 0, fun _ => 0⟩],
    m_output_buffers := [⟨16, fun _ => 0, fun _ => 0⟩] }

/-- A pipeline whose buffers hold 8947856 blocks, that is 4294970880 samples, more than
`2 ^ 32`: the generator buffer is entirely `PROCESSED`, its sample 0 holds the pattern 1
and its other samples 0; the other two buffers are zero. -/
def wide_example : audio_pipeline :=
  { m_state := { generator_flush_count := 0, processing_flush_count := 0,
                 output_flush_count := 0, execution_state := EXECUTING },
    m_generator_stages := [example_stage 0 0 255],
    m_processing_stages := [example_stage 1 0 255],
    m_output_stages := [example_stage 3 0 0],
    m_generator_buffers := [⟨8947856, fun _ => 255, fun j => if j = 0 then 1 else 0⟩],
    m_processing_buffers := [⟨8947856, fun _ => 0, fun _ => 0⟩],
    m_output_buffers := [⟨8947856, fun _ => 0, fun _ => 0⟩] }

/-- A pipeline whose buffers hold `2 ^ 31 + 16` blocks: every block of the generator
buffer is `PROCESSED` except block `2 ^ 31`, which is `DEFAULT`; the other two buffers are
zero. -/
def wide_flush_example : audio_pipeline :=
  { m_state := { generator_flush_count := 0, processing_flush_count := 0,
                 output_flush_count := 0, execution_state := EXECUTING },
    m_generator_stages := [example_stage 0 0 255],
    m_processing_stages := [example_stage 1 0 255],
    m_output_stages := [example_stage 3 0 0],
    m_generator_buffers := [⟨2 ^ 31 + 16, fun i => if i = 2 ^ 31 then 0 else 255, fun _ => 0⟩],
    m_processing_buffers := [⟨2 ^ 31 + 16, fun _ => 0, fun _ => 0⟩],
    m_output_buffers := [⟨2 ^ 31 + 16, fun _ => 0, fun _ => 0⟩] }

/-- A pipeline whose generator group has a stage of two workers with entry state 1,
offset 1 and returned state 2, followed by a stage of one worker with entry state 2, both
over the one generator buffer of sixteen blocks; blocks 0 and 1 are in state 1, the others
in state 0. -/
def claim_example : audio_pipeline :=
  { m_state := { generator_flush_count := 0, processing_flush_count := 0,
                 output_flush_count := 0, execution_state := STOPPED },
    m_generator_stages := [{ example_stage 1 1 2 with m_thread_count := 2 },
                           example_stage 2 0 255],
    m_processing_stages := [example_stage 1 0 255],
    m_output_stages := [example_stage 3 0 0],
    m_generator_buffers := [⟨16, fun i => if i < 2 then 1 else 0, fun j => j⟩],
    m_processing_buffers := [⟨16, fun _ => 0, fun _ => 0⟩],
    m_output_buffers := [⟨16, fun _ => 0, fun _ => 0⟩] }

/-- A schedule of the workers of `claim_example`: worker 0 scans and claims block 0,
worker 1 scans and claims block 1, worker 0 processes and stores the returned state twice,
worker 2 scans and claims. -/
def claim_schedule : List thread :=
  [thread.worker 0, thread.worker 0, thread.worker 1, thread.worker 1, thread.worker 0,
   thread.worker 0, thread.worker 0, thread.worker 2, thread.worker 2]

/-- A buffer of `2 ^ 31 + 16` blocks: block `2 ^ 31` is in state 7, the others are in
state 0. -/
def wide_scan_example : audio_ring_buffer :=
  { m_block_count := 2 ^ 31 + 16, states := fun i => if i = 2 ^ 31 then 7 else 0,
    samples := fun _ => 0 }

/-- A pipeline whose generator stage has entry state 7 and offset 0, over the generator
buffer `wide_scan_example` of `2 ^ 31 + 16` blocks, of which block `2 ^ 31` alone is in
state 7. -/
def wide_claim_example : audio_pipeline :=
  { m_state := { generator_flush_count := 0, processing_flush_count := 0,
                 output_flush_count := 0, execution_state := EXECUTING },
    m_generator_stages := [example_stage 7 0 2],
    m_processing_stages := [example_stage 1 0 255],
    m_output_stages := [example_stage 3 0 0],
    m_generator_buffers := [wide_scan_example],
    m_processing_buffers := [⟨2 ^ 31 + 16, fun _ => 0, fun _ => 0⟩],
    m_output_buffers := [⟨2 ^ 31 + 16, fun _ => 0, fun _ => 0⟩] }

/-- A pipeline whose generator stage has entry state 0, offset 0 and a `process_block`
returning state 1, over a generator buffer of `2 ^ 31 + 16` blocks, all in state 0. -/
def wide_fill_example : audio_pipeline :=
  { m_state := { generator_flush_count := 0, processing_flush_count := 0,
                 output_flush_count := 0, execution_state := EXECUTING },
    m_generator_stages := [example_stage 0 0 1],
    m_processing_stages := [example_stage 1 0 255],
    m_output_stages := [example_stage 3 0 0],
    m_generator_buffers := [⟨2 ^ 31 + 16, fun _ => 0, fun j => j⟩],
    m_processing_buffers := [⟨2 ^ 31 + 16, fun _ => 0, fun _ => 0⟩],
    m_output_buffers := [⟨2 ^ 31 + 16, fun _ => 0, fun _ => 0⟩] }

/-- A source for the slice examples: sixteen blocks, sample `j` holding the pattern `j`,
block `i` in state `i + 1`. -/
def slice_source : audio_ring_buffer :=
  { m_block_count := 16, states := fun i => i + 1, samples := fun j => j }

/-- A destination for the slice examples: sixteen blocks, all zero. -/
def slice_dest : audio_ring_buffer :=
  { m_block_count := 16, states := fun _ => 0, samples := fun _ => 0 }

/-- The buffer of the scan examples: sixteen blocks, block 5 in state 7, the others in
state 0. -/
def scan_example : audio_ring_buffer :=
  { m_block_count := 16, states := fun i => if i = 5 then 7 else 0, samples := fun _ => 0 }


/-! ## Facts about the scans -/

theorem tzcnt_bits_zero (w : Nat) : tzcnt_bits w 0 = w := by
  induction w with
  | zero => rfl
  | succ w ih => simp [tzcnt_bits, ih]; omega

theorem movemask_from_lt (v : Nat → Nat) (k n : Nat) : movemask_from v k n < 2 ^ n := by
  induction n generalizing k with
  | zero => simp [movemask_from]
  | succ n ih =>
    have h := ih (k + 1)
    simp only [movemask_from, pow_succ]
    omega

theorem scalar_search_add (p : Nat → Bool) (i m n : Nat) :
    scalar_search p i (m + n) =
      if scalar_search p i m = -1 then scalar_search p (i + m) n else scalar_search p i m := by
  induction m generalizing i with
  | zero => simp [scalar_search]
  | succ m ih =>
    have e : m + 1 + n = (m + n) + 1 := by omega
    rw [e]
    simp only [scalar_search]
    by_cases hp : p i = true
    · simp only [hp, if_true]
      have : ¬ ((i : Int) = -1) := by omega
      simp [this]
    · simp only [hp]
      rw [ih (i + 1)]
      have e2 : i + 1 + m = i + (m + 1) := by omega
      simp [e2]

/-- The scalar search returns `-1` when nothing in the range satisfies `p`, and otherwise
the least index of the range that does. -/
theorem scalar_search_spec (p : Nat → Bool) (i n : Nat) :
    (scalar_search p i n = -1 ∧ ∀ j, i ≤ j → j < i + n → p j = false) ∨
    (∃ m : Nat, scalar_search p i n = (m : Int) ∧ i ≤ m ∧ m < i + n ∧ p m = true ∧
      ∀ j, i ≤ j → j < m → p j = false) := by
  induction n generalizing i with
  | zero => left; exact ⟨rfl, fun j h1 h2 => by omega⟩
  | succ n ih =>
    simp only [scalar_search]
    by_cases hp : p i = true
    · right
      refine ⟨i, by simp [hp], le_refl _, by omega, hp, fun j h1 h2 => by omega⟩
    · simp only [hp]
      rcases ih (i + 1) with ⟨h1, h2⟩ | ⟨m, h1, h2, h3, h4, h5⟩
      · left
        refine ⟨by simpa using h1, fun j hj1 hj2 => ?_⟩
        by_cases e : j = i
        · subst e; simpa using hp
        · exact h2 j (by omega) (by omega)
      · right
        refine ⟨m, by simpa using h1, by omega, by omega, h4, fun j hj1 hj2 => ?_⟩
        by_cases e : j = i
        · subst e; simpa using hp
        · exact h5 j (by omega) hj2

/-- One lane of the match scan: the count over the mask bits `k ..` agrees with the
scalar search over the same bytes. -/
theorem tzcnt_movemask_match (st : Nat → sample_state) (s : sample_state) (i : Nat) :
    ∀ (n k w : Nat), n ≤ w →
      (scalar_search (fun x => decide (st x = s)) (i + k) n = -1 ∧
        tzcnt_bits w (movemask_from
          (_mm_cmpeq_epi8 (load_m128i st i) (_mm_set1_epi8 s)) k n) = w) ∨
      (∃ j, j < n ∧
        scalar_search (fun x => decide (st x = s)) (i + k) n = ((i + k + j : Nat) : Int) ∧
        tzcnt_bits w (movemask_from
          (_mm_cmpeq_epi8 (load_m128i st i) (_mm_set1_epi8 s)) k n) = j) := by
  intro n
  induction n with
  | zero =>
    intro k w _
    left
    exact ⟨rfl, by simp [movemask_from, tzcnt_bits_zero]⟩
  | succ n ih =>
    intro k w hw
    obtain ⟨w, rfl⟩ : ∃ w0, w = w0 + 1 := ⟨w - 1, by omega⟩
    by_cases hp : st (i + k) = s
    · right
      refine ⟨0, by omega, ?_, ?_⟩
      · simp [scalar_search, hp]
      · have hb : _mm_cmpeq_epi8 (load_m128i st i) (_mm_set1_epi8 s) k = 0xFF := by
          simp [_mm_cmpeq_epi8, load_m128i, _mm_set1_epi8, hp]
        simp only [movemask_from, hb, tzcnt_bits]
        rw [if_pos (by omega)]
    · have hb : _mm_cmpeq_epi8 (load_m128i st i) (_mm_set1_epi8 s) k = 0 := by
        simp [_mm_cmpeq_epi8, load_m128i, _mm_set1_epi8, hp]
      have hs : scalar_search (fun x => decide (st x = s)) (i + k) (n + 1) =
          scalar_search (fun x => decide (st x = s)) (i + (k + 1)) n := by
        simp [scalar_search, hp, Nat.add_assoc]
      have ht : ∀ m : Nat, tzcnt_bits (w + 1) (0 / 128 % 2 + 2 * m) = 1 + tzcnt_bits w m := by
        intro m
        simp only [tzcnt_bits]
        rw [if_neg (by omega)]
        congr 2
        omega
      simp only [movemask_from, hb, ht, hs]
      rcases ih (k + 1) w (by omega) with ⟨h1, h2⟩ | ⟨j, h1, h2, h3⟩
      · left
        exact ⟨h1, by omega⟩
      · right
        refine ⟨j + 1, by omega, ?_, by omega⟩
        rw [h2]
        congr 1
        omega

/-- One lane of the non-match scan: the operand is the complement of the mask bits
`k ..` below at least one set bit. -/
theorem tzcnt_movemask_nonmatch (st : Nat → sample_state) (s : sample_state) (i : Nat) :
    ∀ (n k w e : Nat), n < w → 0 < e →
      (scalar_search (fun x => decide (st x ≠ s)) (i + k) n = -1 ∧
        tzcnt_bits w (2 ^ (n + e) - 1 - movemask_from
          (_mm_cmpeq_epi8 (load_m128i st i) (_mm_set1_epi8 s)) k n) = n) ∨
      (∃ j, j < n ∧
        scalar_search (fun x => decide (st x ≠ s)) (i + k) n = ((i + k + j : Nat) : Int) ∧
        tzcnt_bits w (2 ^ (n + e) - 1 - movemask_from
          (_mm_cmpeq_epi8 (load_m128i st i) (_mm_set1_epi8 s)) k n) = j) := by
  intro n
  induction n with
  | zero =>
    intro k w e hw he
    left
    refine ⟨rfl, ?_⟩
    obtain ⟨w, rfl⟩ : ∃ w0, w = w0 + 1 := ⟨w - 1, by omega⟩
    obtain ⟨e, rfl⟩ : ∃ e0, e = e0 + 1 := ⟨e - 1, by omega⟩
    have h2 : 0 < 2 ^ e := Nat.pos_pow_of_pos e (by omega)
    simp only [movemask_from, tzcnt_bits, Nat.zero_add, pow_succ]
    rw [if_pos (by omega)]
  | succ n ih =>
    intro k w e hw he
    obtain ⟨w, rfl⟩ : ∃ w0, w = w0 + 1 := ⟨w - 1, by omega⟩
    have hlt := movemask_from_lt (_mm_cmpeq_epi8 (load_m128i st i) (_mm_set1_epi8 s)) (k + 1) n
    have hpow : 2 ^ (n + 1 + e) = 2 * 2 ^ (n + e) := by
      rw [show n + 1 + e = (n + e) + 1 by omega, pow_succ]; omega
    have hle : 2 ^ n < 2 ^ (n + e) := Nat.pow_lt_pow_right (by omega) (by omega)
    by_cases hp : st (i + k) = s
    · have hb : _mm_cmpeq_epi8 (load_m128i st i) (_mm_set1_epi8 s) k = 0xFF := by
        simp [_mm_cmpeq_epi8, load_m128i, _mm_set1_epi8, hp]
      have hs : scalar_search (fun x => decide (st x ≠ s)) (i + k) (n + 1) =
          scalar_search (fun x => decide (st x ≠ s)) (i + (k + 1)) n := by
        simp [scalar_search, hp, Nat.add_assoc]
      have ht : ∀ m : Nat, m < 2 ^ n →
          tzcnt_bits (w + 1) (2 ^ (n + 1 + e) - 1 - (0xFF / 128 % 2 + 2 * m)) =
            1 + tzcnt_bits w (2 ^ (n + e) - 1 - m) := by
        intro m hm
        simp only [tzcnt_bits]
        rw [if_neg (by omega)]
        congr 2
        omega
      simp only [movemask_from, hb, hs]
      rw [ht _ hlt]
      rcases ih (k + 1) w e (by omega) he with ⟨h1, h2⟩ | ⟨j, h1, h2, h3⟩
      · left
        exact ⟨h1, by omega⟩
      · right
        refine ⟨j + 1, by omega, ?_, by omega⟩
        rw [h2]
        congr 1
        omega
    · right
      have hb : _mm_cmpeq_epi8 (load_m128i st i) (_mm_set1_epi8 s) k = 0 := by
        simp [_mm_cmpeq_epi8, load_m128i, _mm_set1_epi8, hp]
      refine ⟨0, by omega, ?_, ?_⟩
      · simp [scalar_search, hp]
      · simp only [movemask_from, hb, tzcnt_bits]
        rw [if_pos (by omega)]

/-- A lane of the match scan against the scalar search over its sixteen bytes. -/
theorem byte_index_lane (st : Nat → sample_state) (s : sample_state) (i : Nat) :
    (scalar_search (fun x => decide (st x = s)) i 16 = -1 ∧
      ¬ byte_index (load_m128i st i) (_mm_set1_epi8 s) < 16) ∨
    (byte_index (load_m128i st i) (_mm_set1_epi8 s) < 16 ∧
      scalar_search (fun x => decide (st x = s)) i 16 =
        ((byte_index (load_m128i st i) (_mm_set1_epi8 s) + i : Nat) : Int)) := by
  have hlt := movemask_from_lt (_mm_cmpeq_epi8 (load_m128i st i) (_mm_set1_epi8 s)) 0 16
  have hmod : movemask_from (_mm_cmpeq_epi8 (load_m128i st i) (_mm_set1_epi8 s)) 0 16 % 2 ^ 32
      = movemask_from (_mm_cmpeq_epi8 (load_m128i st i) (_mm_set1_epi8 s)) 0 16 :=
    Nat.mod_eq_of_lt (by omega)
  simp only [byte_index, _tzcnt_u32, _mm_movemask_epi8, hmod]
  rcases tzcnt_movemask_match st s i 16 0 32 (by omega) with ⟨h1, h2⟩ | ⟨j, h1, h2, h3⟩
  · left
    exact ⟨by simpa using h1, by omega⟩
  · right
    refine ⟨by omega, ?_⟩
    rw [h3]
    simp only [Nat.add_zero] at h2
    rw [h2, Nat.add_comm]

/-- A lane of the non-match scan against the scalar search over its sixteen bytes. -/
theorem byte_index_inverse_lane (st : Nat → sample_state) (s : sample_state) (i : Nat) :
    (scalar_search (fun x => decide (st x ≠ s)) i 16 = -1 ∧
      byte_index_inverse (load_m128i st i) (_mm_set1_epi8 s) = 16) ∨
    (byte_index_inverse (load_m128i st i) (_mm_set1_epi8 s) < 16 ∧
      scalar_search (fun x => decide (st x ≠ s)) i 16 =
        ((byte_index_inverse (load_m128i st i) (_mm_set1_epi8 s) + i : Nat) : Int)) := by
  have hlt := movemask_from_lt (_mm_cmpeq_epi8 (load_m128i st i) (_mm_set1_epi8 s)) 0 16
  have hmod : (2 ^ 32 - 1 -
      movemask_from (_mm_cmpeq_epi8 (load_m128i st i) (_mm_set1_epi8 s)) 0 16) % 2 ^ 32
      = 2 ^ (16 + 16) - 1 -
        movemask_from (_mm_cmpeq_epi8 (load_m128i st i) (_mm_set1_epi8 s)) 0 16 :=
    Nat.mod_eq_of_lt (by omega)
  simp only [byte_index_inverse, _tzcnt_u32, _mm_movemask_epi8, hmod]
  rcases tzcnt_movemask_nonmatch st s i 16 0 32 16 (by omega) (by omega)
    with ⟨h1, h2⟩ | ⟨j, h1, h2, h3⟩
  · left
    exact ⟨by simpa using h1, by omega⟩
  · right
    refine ⟨by omega, ?_⟩
    rw [h3]
    simp only [Nat.add_zero] at h2
    rw [h2, Nat.add_comm]

theorem size_t_of_int_natCast (n : Nat) : size_t_of_int (n : Int) = n := by
  unfold size_t_of_int
  rw [if_neg (by omega)]
  exact Int.toNat_ofNat n

theorem int_add_of_lt {a b : Int} (h0 : -2 ^ 31 ≤ a + b) (h1 : a + b < 2 ^ 31) :
    int_add a b = a + b := by
  unfold int_add
  omega

theorem int_add_natCast (a b : Nat) (h : a + b < 2 ^ 31) :
    int_add (a : Int) (b : Int) = ((a + b : Nat) : Int) := by
  rw [int_add_of_lt (by omega) (by omega)]
  push_cast
  rfl

theorem int_add_mod_16 (i : Int) (h : i % 16 = 0) : int_add i 16 % 16 = 0 := by
  unfold int_add
  omega

/-- A lane without the byte `s` gives a count of at least 16. -/
theorem byte_index_of_none (st : Nat → sample_state) (s : sample_state) (i : Nat)
    (hno : ∀ j, i ≤ j → j < i + 16 → st j ≠ s) :
    ¬ byte_index (load_m128i st i) (_mm_set1_epi8 s) < 16 := by
  rcases byte_index_lane st s i with ⟨_, h2⟩ | ⟨h1, h2⟩
  · exact h2
  · rcases scalar_search_spec (fun x => decide (st x = s)) i 16
      with ⟨h3, _⟩ | ⟨m, _, h4, h5, h6, _⟩
    · rw [h2] at h3; omega
    · exact absurd (by simpa using h6) (hno m h4 h5)

/-- A lane whose bytes are all `s` gives an inverted count of 16. -/
theorem byte_index_inverse_of_all (st : Nat → sample_state) (s : sample_state) (i : Nat)
    (hall : ∀ j, i ≤ j → j < i + 16 → st j = s) :
    ¬ byte_index_inverse (load_m128i st i) (_mm_set1_epi8 s) < 16 := by
  rcases byte_index_inverse_lane st s i with ⟨_, h2⟩ | ⟨h1, h2⟩
  · omega
  · rcases scalar_search_spec (fun x => decide (st x ≠ s)) i 16
      with ⟨h3, _⟩ | ⟨m, _, h4, h5, h6, _⟩
    · rw [h2] at h3; omega
    · exact absurd (hall m h4 h5) (by simpa using h6)

namespace audio_ring_buffer

/-- The lane the loop reads when its test passes lies inside the state array. -/
theorem lane_inside (b : audio_ring_buffer) (h16 : b.m_block_count % 16 = 0) (i : Int)
    (hi : i % 16 = 0) (hlt : size_t_of_int i < b.m_block_count) :
    i.toNat + 16 ≤ b.m_block_count := by
  unfold size_t_of_int at hlt
  by_cases hneg : i < 0
  · have : i.toNat = 0 := by omega
    omega
  · rw [if_neg hneg] at hlt
    have : (i.toNat : Int) = i := Int.toNat_of_nonneg (by omega)
    omega

/-- The match scan over a buffer without the byte `s` returns `-1`, whatever the block
count. -/
theorem get_first_match_idx_loop_of_none (b : audio_ring_buffer) (s : sample_state)
    (h16 : b.m_block_count % 16 = 0) (hno : ∀ j, j < b.m_block_count → b.states j ≠ s) :
    ∀ (lanes : Nat) (i : Int), i % 16 = 0 → get_first_match_idx_loop b s lanes i = -1 := by
  intro lanes
  induction lanes with
  | zero => intro i _; rfl
  | succ lanes ih =>
    intro i hi
    simp only [get_first_match_idx_loop]
    by_cases hlt : size_t_of_int i < b.m_block_count
    · rw [if_pos hlt]
      have hin := lane_inside b h16 i hi hlt
      rw [if_neg (byte_index_of_none b.states s i.toNat
        (fun j _ hj => hno j (by omega)))]
      exact ih _ (int_add_mod_16 i hi)
    · rw [if_neg hlt]

/-- The non-match scan over a buffer whose states are all `s` returns `-1`, whatever the
block count. -/
theorem get_first_nonmatch_idx_loop_of_all (b : audio_ring_buffer) (s : sample_state)
    (h16 : b.m_block_count % 16 = 0) (hall : ∀ j, j < b.m_block_count → b.states j = s) :
    ∀ (lanes : Nat) (i : Int), i % 16 = 0 → get_first_nonmatch_idx_loop b s lanes i = -1 := by
  intro lanes
  induction lanes with
  | zero => intro i _; rfl
  | succ lanes ih =>
    intro i hi
    simp only [get_first_nonmatch_idx_loop]
    by_cases hlt : size_t_of_int i < b.m_block_count
    · rw [if_pos hlt]
      have hin := lane_inside b h16 i hi hlt
      rw [if_neg (byte_index_inverse_of_all b.states s i.toNat
        (fun j _ hj => hall j (by omega)))]
      exact ih _ (int_add_mod_16 i hi)
    · rw [if_neg hlt]

/-- The counter after `2 ^ 31 - 16` has wrapped to `-2 ^ 31`; as a `size_t` it is
`2 ^ 64 - 2 ^ 31` and ends the loop. -/
theorem get_first_match_idx_loop_wrapped (b : audio_ring_buffer) (s : sample_state)
    (hN : b.m_block_count ≤ 2 ^ 64 - 2 ^ 31) (lanes : Nat) :
    get_first_match_idx_loop b s lanes (-2 ^ 31) = -1 := by
  cases lanes with
  | zero => rfl
  | succ lanes =>
    simp only [get_first_match_idx_loop]
    have e : size_t_of_int (-2 ^ 31) = 2 ^ 64 - 2 ^ 31 := by decide
    rw [e, if_neg (by omega)]

theorem get_first_nonmatch_idx_loop_wrapped (b : audio_ring_buffer) (s : sample_state)
    (hN : b.m_block_count ≤ 2 ^ 64 - 2 ^ 31) (lanes : Nat) :
    get_first_nonmatch_idx_loop b s lanes (-2 ^ 31) = -1 := by
  cases lanes with
  | zero => rfl
  | succ lanes =>
    simp only [get_first_nonmatch_idx_loop]
    have e : size_t_of_int (-2 ^ 31) = 2 ^ 64 - 2 ^ 31 := by decide
    rw [e, if_neg (by omega)]

/-- The match loop against the scalar search: the loop visits the states below
`2 ^ 31` only, its counter wrapping to a negative value after `2 ^ 31 - 16`. -/
theorem get_first_match_idx_loop_eq (b : audio_ring_buffer) (s : sample_state)
    (h16 : b.m_block_count % 16 = 0) (hN : b.m_block_count ≤ 2 ^ 64 - 2 ^ 31) :
    ∀ (lanes i : Nat), i % 16 = 0 → i < 2 ^ 31 →
      min b.m_block_count (2 ^ 31) - i ≤ 16 * lanes →
      get_first_match_idx_loop b s lanes (i : Int) =
        scalar_search (fun x => decide (b.states x = s)) i
          (min b.m_block_count (2 ^ 31) - i) := by
  intro lanes
  induction lanes with
  | zero =>
    intro i _ _ hle
    have : min b.m_block_count (2 ^ 31) - i = 0 := by omega
    rw [this]
    rfl
  | succ lanes ih =>
    intro i hi hi31 hle
    simp only [get_first_match_idx_loop, size_t_of_int_natCast, Int.toNat_ofNat]
    by_cases hlt : i < b.m_block_count
    · rw [if_pos hlt]
      have e : min b.m_block_count (2 ^ 31) - i =
          16 + (min b.m_block_count (2 ^ 31) - (i + 16)) := by omega
      rw [e, scalar_search_add]
      rcases byte_index_lane b.states s i with ⟨h1, h2⟩ | ⟨h1, h2⟩
      · rw [if_neg h2, if_pos h1]
        by_cases hnext : i + 16 < 2 ^ 31
        · have e2 : int_add (i : Int) 16 = ((i + 16 : Nat) : Int) :=
            int_add_natCast i 16 hnext
          rw [e2]
          exact ih (i + 16) (by omega) hnext (by omega)
        · have e2 : int_add (i : Int) 16 = -2 ^ 31 := by
            unfold int_add
            omega
          have e3 : min b.m_block_count (2 ^ 31) - (i + 16) = 0 := by omega
          rw [e2, e3, get_first_match_idx_loop_wrapped b s hN]
          rfl
      · rw [if_pos h1, h2, if_neg (by omega)]
        exact int_add_natCast _ i (by omega)
    · rw [if_neg hlt]
      have : min b.m_block_count (2 ^ 31) - i = 0 := by omega
      rw [this]
      rfl

theorem get_first_nonmatch_idx_loop_eq (b : audio_ring_buffer) (s : sample_state)
    (h16 : b.m_block_count % 16 = 0) (hN : b.m_block_count ≤ 2 ^ 64 - 2 ^ 31) :
    ∀ (lanes i : Nat), i % 16 = 0 → i < 2 ^ 31 →
      min b.m_block_count (2 ^ 31) - i ≤ 16 * lanes →
      get_first_nonmatch_idx_loop b s lanes (i : Int) =
        scalar_search (fun x => decide (b.states x ≠ s)) i
          (min b.m_block_count (2 ^ 31) - i) := by
  intro lanes
  induction lanes with
  | zero =>
    intro i _ _ hle
    have : min b.m_block_count (2 ^ 31) - i = 0 := by omega
    rw [this]
    rfl
  | succ lanes ih =>
    intro i hi hi31 hle
    simp only [get_first_nonmatch_idx_loop, size_t_of_int_natCast, Int.toNat_ofNat]
    by_cases hlt : i < b.m_block_count
    · rw [if_pos hlt]
      have e : min b.m_block_count (2 ^ 31) - i =
          16 + (min b.m_block_count (2 ^ 31) - (i + 16)) := by omega
      rw [e, scalar_search_add]
      rcases byte_index_inverse_lane b.states s i with ⟨h1, h2⟩ | ⟨h1, h2⟩
      · rw [if_neg (by omega), if_pos h1]
        by_cases hnext : i + 16 < 2 ^ 31
        · have e2 : int_add (i : Int) 16 = ((i + 16 : Nat) : Int) :=
            int_add_natCast i 16 hnext
          rw [e2]
          exact ih (i + 16) (by omega) hnext (by omega)
        · have e2 : int_add (i : Int) 16 = -2 ^ 31 := by
            unfold int_add
            omega
          have e3 : min b.m_block_count (2 ^ 31) - (i + 16) = 0 := by omega
          rw [e2, e3, get_first_nonmatch_idx_loop_wrapped b s hN]
          rfl
      · rw [if_pos h1, h2, if_neg (by omega)]
        exact int_add_natCast _ i (by omega)
    · rw [if_neg hlt]
      have : min b.m_block_count (2 ^ 31) - i = 0 := by omega
      rw [this]
      rfl

/-- The match scan is the scalar search over the states below `2 ^ 31`. -/
theorem get_first_match_idx_eq_scalar_min (b : audio_ring_buffer) (s : sample_state)
    (h16 : b.m_block_count % 16 = 0) (hN : b.m_block_count ≤ 2 ^ 64 - 2 ^ 31) :
    b.get_first_match_idx s =
      scalar_search (fun x => decide (b.states x = s)) 0 (min b.m_block_count (2 ^ 31)) := by
  have h := get_first_match_idx_loop_eq b s h16 hN b.m_block_count 0 (by omega) (by omega)
    (by omega)
  simpa [get_first_match_idx] using h

/-- The non-match scan is the scalar search over the states below `2 ^ 31`. -/
theorem get_first_nonmatch_idx_eq_scalar_min (b : audio_ring_buffer) (s : sample_state)
    (h16 : b.m_block_count % 16 = 0) (hN : b.m_block_count ≤ 2 ^ 64 - 2 ^ 31) :
    b.get_first_nonmatch_idx s =
      scalar_search (fun x => decide (b.states x ≠ s)) 0 (min b.m_block_count (2 ^ 31)) := by
  have h := get_first_nonmatch_idx_loop_eq b s h16 hN b.m_block_count 0 (by omega) (by omega)
    (by omega)
  simpa [get_first_nonmatch_idx] using h

/-- With at most `2 ^ 31` blocks the match scan is the scalar search over the whole state
array. -/
theorem get_first_match_idx_eq_scalar (b : audio_ring_buffer) (s : sample_state)
    (h16 : b.m_block_count % 16 = 0) (h31 : b.m_block_count ≤ 2 ^ 31) :
    b.get_first_match_idx s =
      scalar_search (fun x => decide (b.states x = s)) 0 b.m_block_count := by
  rw [get_first_match_idx_eq_scalar_min b s h16 (by omega), Nat.min_eq_left h31]

/-- With at most `2 ^ 31` blocks the non-match scan is the scalar search over the whole
state array. -/
theorem get_first_nonmatch_idx_eq_scalar (b : audio_ring_buffer) (s : sample_state)
    (h16 : b.m_block_count % 16 = 0) (h31 : b.m_block_count ≤ 2 ^ 31) :
    b.get_first_nonmatch_idx s =
      scalar_search (fun x => decide (b.states x ≠ s)) 0 b.m_block_count := by
  rw [get_first_nonmatch_idx_eq_scalar_min b s h16 (by omega), Nat.min_eq_left h31]

end audio_ring_buffer

/-! ## Scan contracts -/

/-- C1 (amended): for a ring buffer with N blocks, N > 0, N divisible by 16 and
`N < 2 ^ 31`, so that the `int` counter and the `int` result hold every index, and every
state byte s, `get_first_match_idx s` equals the left-to-right scalar search; it is `-1`
exactly when no block below N has state s; it is `i` exactly when `i < N`, block i has
state s and no block below i has it; and it is always either `-1` or such a smallest
index. -/
theorem get_first_match_idx_leftmost (b : audio_ring_buffer) (s : sample_state)
    (hN : 0 < b.m_block_count) (h16 : b.m_block_count % 16 = 0)
    (h31 : b.m_block_count < 2 ^ 31) :
    b.get_first_match_idx s =
        scalar_search (fun i => decide (b.states i = s)) 0 b.m_block_count ∧
    (b.get_first_match_idx s = -1 ↔ ∀ i, i < b.m_block_count → b.states i ≠ s) ∧
    (∀ i : Nat, b.get_first_match_idx s = (i : Int) ↔
        (i < b.m_block_count ∧ b.states i = s ∧ ∀ j, j < i → b.states j ≠ s)) ∧
    (b.get_first_match_idx s = -1 ∨
      ∃ i : Nat, b.get_first_match_idx s = (i : Int) ∧ i < b.m_block_count ∧
        b.states i = s ∧ ∀ j, j < i → b.states j ≠ s) := by
  have heq := audio_ring_buffer.get_first_match_idx_eq_scalar b s h16 (Nat.le_of_lt h31)
  have hpos := hN
  rw [heq]
  refine ⟨rfl, ?_⟩
  rcases scalar_search_spec (fun i => decide (b.states i = s)) 0 b.m_block_count
    with ⟨h1, h2⟩ | ⟨m, h1, _, h3, h4, h5⟩
  · have hno : ∀ i, i < b.m_block_count → b.states i ≠ s := fun i hi => by
      simpa using h2 i (by omega) (by omega)
    rw [h1]
    refine ⟨⟨fun _ => hno, fun _ => rfl⟩, fun i => ⟨fun h => by omega, ?_⟩, Or.inl rfl⟩
    rintro ⟨hi, hs, _⟩
    exact absurd hs (hno i hi)
  · have hm : b.states m = s := by simpa using h4
    have hlow : ∀ j, j < m → b.states j ≠ s := fun j hj => by
      simpa using h5 j (by omega) hj
    rw [h1]
    refine ⟨⟨fun h => by omega, fun h => absurd hm (h m (by omega))⟩, fun i => ⟨?_, ?_⟩,
      Or.inr ⟨m, rfl, by omega, hm, hlow⟩⟩
    · intro h
      have e : m = i := by omega
      subst e
      exact ⟨by omega, hm, hlow⟩
    · rintro ⟨hi, hs, hl⟩
      have e : m = i := by
        rcases Nat.lt_trichotomy m i with h | h | h
        · exact absurd hm (hl m h)
        · exact h
        · exact absurd hs (hlow i h)
      rw [e]

theorem get_first_match_idx_leftmost_witness :
    0 < scan_example.m_block_count ∧ scan_example.m_block_count % 16 = 0 ∧
    scan_example.m_block_count < 2 ^ 31 ∧
    scan_example.get_first_match_idx 7 = ((5 : Nat) : Int) :=
  ⟨by decide, by decide, by decide,
    ((get_first_match_idx_leftmost scan_example 7 (by decide) (by decide)
      (by decide)).2.2.1 5).mpr ⟨by decide, by decide, by decide⟩⟩

/-- C1 as stated fails for N = 2 ^ 31 + 16: when block `2 ^ 31` is the only block in
state 7, the scan for 7 returns `-1` and not `2 ^ 31`. The counter, an `int`, passes from
`2 ^ 31 - 16` to `-2 ^ 31`, which as a `size_t` is not below the block count, so the loop
ends before it reaches the block; and no `int` is `2 ^ 31`. -/
theorem get_first_match_idx_misses_wide_buffer :
    0 < wide_scan_example.m_block_count ∧ wide_scan_example.m_block_count % 16 = 0 ∧
    wide_scan_example.valid ∧
    2 ^ 31 < wide_scan_example.m_block_count ∧ wide_scan_example.states (2 ^ 31) = 7 ∧
    (∀ j, j < 2 ^ 31 → wide_scan_example.states j ≠ 7) ∧
    int_add ((2 ^ 31 - 16 : Nat) : Int) 16 = -2 ^ 31 ∧
    size_t_of_int (-2 ^ 31) = 2 ^ 64 - 2 ^ 31 ∧
    wide_scan_example.get_first_match_idx 7 = -1 := by
  have hno : ∀ j, j < 2 ^ 31 → wide_scan_example.states j ≠ 7 := by
    intro j hj
    have hne : ¬ j = 2 ^ 31 := by omega
    show (if j = 2 ^ 31 then 7 else 0) ≠ 7
    rw [if_neg hne]
    decide
  refine ⟨by decide, by decide, by decide, by decide, by decide, hno, by decide, by decide,
    ?_⟩
  rw [audio_ring_buffer.get_first_match_idx_eq_scalar_min wide_scan_example 7 (by decide)
    (by decide)]
  have hmin : min wide_scan_example.m_block_count (2 ^ 31) = 2 ^ 31 := by decide
  rw [hmin]
  rcases scalar_search_spec (fun x => decide (wide_scan_example.states x = 7)) 0 (2 ^ 31)
    with ⟨h1, _⟩ | ⟨m, _, _, h3, h4, _⟩
  · exact h1
  · exact absurd (by simpa using h4) (hno m (by omega))

/-- C8 (amended): for a ring buffer with N blocks, N > 0, N divisible by 16 and
`N < 2 ^ 31`, so that the `int` counter and the `int` result hold every index, and every
state byte s, `get_first_nonmatch_idx s` is `i` exactly when `i < N`, block i has a state other than
s and every block below i has state s; it is `-1` exactly when all N states equal s; it is
always `-1` or such a smallest index; and inside every lane the inverted-mask count is at
most 16, a count below 16 being the position of a byte that differs from s. -/
theorem get_first_nonmatch_idx_leftmost (b : audio_ring_buffer) (s : sample_state)
    (hN : 0 < b.m_block_count) (h16 : b.m_block_count % 16 = 0)
    (h31 : b.m_block_count < 2 ^ 31) :
    (b.get_first_nonmatch_idx s = -1 ↔ ∀ i, i < b.m_block_count → b.states i = s) ∧
    (∀ i : Nat, b.get_first_nonmatch_idx s = (i : Int) ↔
        (i < b.m_block_count ∧ b.states i ≠ s ∧ ∀ j, j < i → b.states j = s)) ∧
    (b.get_first_nonmatch_idx s = -1 ∨
      ∃ i : Nat, b.get_first_nonmatch_idx s = (i : Int) ∧ i < b.m_block_count ∧
        b.states i ≠ s ∧ ∀ j, j < i → b.states j = s) ∧
    (∀ i : Nat, byte_index_inverse (load_m128i b.states i) (_mm_set1_epi8 s) ≤ 16 ∧
      (byte_index_inverse (load_m128i b.states i) (_mm_set1_epi8 s) < 16 →
        b.states (i + byte_index_inverse (load_m128i b.states i) (_mm_set1_epi8 s)) ≠ s)) := by
  have heq := audio_ring_buffer.get_first_nonmatch_idx_eq_scalar b s h16 (Nat.le_of_lt h31)
  have hpos := hN
  rw [heq]
  have hlane : ∀ i : Nat, byte_index_inverse (load_m128i b.states i) (_mm_set1_epi8 s) ≤ 16 ∧
      (byte_index_inverse (load_m128i b.states i) (_mm_set1_epi8 s) < 16 →
        b.states (i + byte_index_inverse (load_m128i b.states i) (_mm_set1_epi8 s)) ≠ s) := by
    intro i
    rcases byte_index_inverse_lane b.states s i with ⟨_, h2⟩ | ⟨h1, h2⟩
    · exact ⟨by omega, fun h => by omega⟩
    · refine ⟨by omega, fun _ => ?_⟩
      rcases scalar_search_spec (fun x => decide (b.states x ≠ s)) i 16
        with ⟨h3, _⟩ | ⟨m, h3, _, _, h6, _⟩
      · rw [h2] at h3; omega
      · rw [h2] at h3
        have e : m = byte_index_inverse (load_m128i b.states i) (_mm_set1_epi8 s) + i := by
          omega
        rw [Nat.add_comm, ← e]
        simpa using h6
  rcases scalar_search_spec (fun i => decide (b.states i ≠ s)) 0 b.m_block_count
    with ⟨h1, h2⟩ | ⟨m, h1, _, h3, h4, h5⟩
  · have hall : ∀ i, i < b.m_block_count → b.states i = s := fun i hi => by
      simpa using h2 i (by omega) (by omega)
    rw [h1]
    refine ⟨⟨fun _ => hall, fun _ => rfl⟩, fun i => ⟨fun h => by omega, ?_⟩, Or.inl rfl, hlane⟩
    rintro ⟨hi, hs, _⟩
    exact absurd (hall i hi) hs
  · have hm : b.states m ≠ s := by simpa using h4
    have hlow : ∀ j, j < m → b.states j = s := fun j hj => by
      simpa using h5 j (by omega) hj
    rw [h1]
    refine ⟨⟨fun h => by omega, fun h => absurd (h m (by omega)) hm⟩, fun i => ⟨?_, ?_⟩,
      Or.inr ⟨m, rfl, by omega, hm, hlow⟩, hlane⟩
    · intro h
      have e : m = i := by omega
      subst e
      exact ⟨by omega, hm, hlow⟩
    · rintro ⟨hi, hs, hl⟩
      have e : m = i := by
        rcases Nat.lt_trichotomy m i with h | h | h
        · exact absurd (hl m h) hm
        · exact h
        · exact absurd (hlow i h) hs
      rw [e]

theorem get_first_nonmatch_idx_leftmost_witness :
    0 < scan_example.m_block_count ∧ scan_example.m_block_count % 16 = 0 ∧
    scan_example.m_block_count < 2 ^ 31 ∧
    scan_example.get_first_nonmatch_idx 0 = ((5 : Nat) : Int) :=
  ⟨by decide, by decide, by decide,
    ((get_first_nonmatch_idx_leftmost scan_example 0 (by decide) (by decide)
      (by decide)).2.1 5).mpr ⟨by decide, by decide, by decide⟩⟩

/-- C8 as stated fails for N = 2 ^ 31 + 16: when block `2 ^ 31` is the only block whose
state is not 0, the non-match scan for 0 returns `-1`, the answer for a buffer whose states
all equal 0, and not `2 ^ 31`: the `int` counter passes from `2 ^ 31 - 16` to `-2 ^ 31` and
the loop ends before it reaches the block. -/
theorem get_first_nonmatch_idx_misses_wide_buffer :
    0 < wide_scan_example.m_block_count ∧ wide_scan_example.m_block_count % 16 = 0 ∧
    wide_scan_example.valid ∧
    2 ^ 31 < wide_scan_example.m_block_count ∧ wide_scan_example.states (2 ^ 31) ≠ 0 ∧
    (∀ j, j < 2 ^ 31 → wide_scan_example.states j = 0) ∧
    ¬ (∀ i, i < wide_scan_example.m_block_count → wide_scan_example.states i = 0) ∧
    wide_scan_example.get_first_nonmatch_idx 0 = -1 := by
  have hall : ∀ j, j < 2 ^ 31 → wide_scan_example.states j = 0 := by
    intro j hj
    have hne : ¬ j = 2 ^ 31 := by omega
    show (if j = 2 ^ 31 then 7 else 0) = 0
    rw [if_neg hne]
  refine ⟨by decide, by decide, by decide, by decide, by decide, hall,
    (fun h => absurd (h (2 ^ 31) (by decide)) (by decide)), ?_⟩
  rw [audio_ring_buffer.get_first_nonmatch_idx_eq_scalar_min wide_scan_example 0 (by decide)
    (by decide)]
  have hmin : min wide_scan_example.m_block_count (2 ^ 31) = 2 ^ 31 := by decide
  rw [hmin]
  rcases scalar_search_spec (fun x => decide (wide_scan_example.states x ≠ 0)) 0 (2 ^ 31)
    with ⟨h1, _⟩ | ⟨m, _, _, h3, h4, _⟩
  · exact h1
  · exact absurd (hall m (by omega)) (by simpa using h4)

/-! ## Slice copy -/

theorem memcpy_eq_some {α : Type} (dst : Nat → α) (dst_size d : Nat) (src : Nat → α)
    (src_size s n : Nat) (h1 : d + n ≤ dst_size) (h2 : s + n ≤ src_size) :
    memcpy dst dst_size d src src_size s n = some (copy_range dst d src s n) := by
  simp [memcpy, h1, h2]

theorem size_t_sub_of_le {a b : Nat} (h : b ≤ a) : size_t_sub a b = a - b := by
  unfold size_t_sub; rw [if_pos h]

theorem uint32_sub_of_le {a b : Nat} (h : b ≤ a) : uint32_sub a b = a - b := by
  unfold uint32_sub; rw [if_pos h]

theorem uintptr_add_of_lt {a b : Nat} (h : a + b < 2 ^ 64) : uintptr_add a b = a + b := by
  unfold uintptr_add; rw [if_pos h]

namespace audio_ring_buffer

/-- The slice copy when no `memcpy` leaves its array: the eight copies in terms of the
unwrap sizes `u` (scratch) and `tu` (destination). -/
theorem copy_slice_to_core (self dest : audio_ring_buffer)
    (sample_idx_from sample_idx_to samples_range u tu : Nat)
    (hv : self.valid)
    (hfrom : sample_idx_from < self.m_block_count * 480)
    (hto : sample_idx_to < dest.m_block_count * 480)
    (hr : samples_range ≤ self.m_block_count * 480)
    (hr2 : samples_range ≤ dest.m_block_count * 480)
    (hu : u = (uint32_sub samples_range 1 %
      (self.m_block_count * 480 - sample_idx_from) + 1) % 2 ^ 32)
    (hu2 : u ≤ samples_range) (hu3 : u ≤ self.m_block_count * 480 - sample_idx_from)
    (htu : tu = (uint32_sub samples_range 1 %
      (dest.m_block_count * 480 - sample_idx_to) + 1) % 2 ^ 32)
    (htu2 : tu ≤ samples_range) (htu3 : tu ≤ dest.m_block_count * 480 - sample_idx_to) :
    copy_slice_to self dest sample_idx_from sample_idx_to samples_range = outcome.ok
      { m_block_count := dest.m_block_count
        states :=
          copy_range
            (copy_range dest.states (sample_idx_to / 480)
              (scratch_states self (sample_idx_from / 480)
                (samples_range / 480 - (samples_range - u) / 480) ((samples_range - u) / 480))
              0 (samples_range / 480 - (samples_range - tu) / 480))
            0
            (scratch_states self (sample_idx_from / 480)
              (samples_range / 480 - (samples_range - u) / 480) ((samples_range - u) / 480))
            (samples_range / 480 - (samples_range - tu) / 480) ((samples_range - tu) / 480)
        samples :=
          copy_range
            (copy_range dest.samples sample_idx_to
              (scratch_samples self u (samples_range - u)) 0 tu)
            0 (scratch_samples self u (samples_range - u)) tu (samples_range - tu) } := by
  obtain ⟨hN, h16, hsz⟩ := hv
  simp only [allocation_size, sample_block_size] at hsz
  have hst : audio_ring_buffer_storage self.m_block_count = none := by
    simp [audio_ring_buffer_storage, hN, h16]
  have eS : size_t_sub (self.m_block_count * 480) sample_idx_from =
      self.m_block_count * 480 - sample_idx_from := size_t_sub_of_le (by omega)
  have eT : size_t_sub (dest.m_block_count * 480) sample_idx_to =
      dest.m_block_count * 480 - sample_idx_to := size_t_sub_of_le (by omega)
  have ew : uint32_sub samples_range u = samples_range - u := uint32_sub_of_le (by omega)
  have etw : uint32_sub samples_range tu = samples_range - tu := uint32_sub_of_le (by omega)
  have eus : uint32_sub (samples_range / 480) ((samples_range - u) / 480) =
      samples_range / 480 - (samples_range - u) / 480 := uint32_sub_of_le (by omega)
  have etus : uint32_sub (samples_range / 480) ((samples_range - tu) / 480) =
      samples_range / 480 - (samples_range - tu) / 480 := uint32_sub_of_le (by omega)
  have eoff : uintptr_add sample_idx_from
      (size_t_sub (size_t_sub (self.m_block_count * 480) u) sample_idx_from) =
      self.m_block_count * 480 - u := by
    have a1 : size_t_sub (self.m_block_count * 480) u = self.m_block_count * 480 - u :=
      size_t_sub_of_le (by omega)
    have a2 : size_t_sub (self.m_block_count * 480 - u) sample_idx_from =
        self.m_block_count * 480 - u - sample_idx_from := size_t_sub_of_le (by omega)
    have a3 : uintptr_add sample_idx_from (self.m_block_count * 480 - u - sample_idx_from) =
        sample_idx_from + (self.m_block_count * 480 - u - sample_idx_from) :=
      uintptr_add_of_lt (by omega)
    rw [a1, a2, a3]
    omega
  have ez1 : size_t_sub sample_idx_from sample_idx_from = 0 := by
    rw [size_t_sub_of_le (le_refl _)]; omega
  have ez2 : size_t_sub (sample_idx_from / 480) (sample_idx_from / 480) = 0 := by
    rw [size_t_sub_of_le (le_refl _)]; omega
  have ewr : sample_idx_to % (dest.m_block_count * 480) = sample_idx_to :=
    Nat.mod_eq_of_lt hto
  unfold copy_slice_to
  simp only [sample_block_size]
  rw [if_neg (by omega)]
  simp only [hst]
  rw [if_neg (by omega)]
  simp only [eS, eT, ← hu, ← htu, ew, etw, eus, etus, eoff, ez1, ez2, ewr, intermediate_buffer]
  rw [memcpy_eq_some _ _ _ _ _ _ _ (by omega) (by omega)]
  simp only [Option.bind_eq_bind, Option.some_bind]
  rw [memcpy_eq_some _ _ _ _ _ _ _ (by omega) (by omega)]
  simp only [Option.some_bind]
  rw [memcpy_eq_some _ _ _ _ _ _ _ (by omega) (by omega)]
  simp only [Option.some_bind]
  rw [memcpy_eq_some _ _ _ _ _ _ _ (by omega) (by omega)]
  simp only [Option.some_bind]
  rw [memcpy_eq_some _ _ _ _ _ _ _ (by omega) (by omega)]
  simp only [Option.some_bind]
  rw [memcpy_eq_some _ _ _ _ _ _ _ (by omega) (by omega)]
  simp only [Option.some_bind]
  rw [memcpy_eq_some _ _ _ _ _ _ _ (by omega) (by omega)]
  simp only [Option.some_bind]
  rw [memcpy_eq_some _ _ _ _ _ _ _ (by omega) (by omega)]
  simp only [Option.some_bind]
  rfl

/-- The slice copy of at least one sample from inside the source to inside the
destination. -/
theorem copy_slice_to_ok (self dest : audio_ring_buffer)
    (sample_idx_from sample_idx_to samples_range u tu : Nat)
    (hv : self.valid)
    (hfrom : sample_idx_from < self.m_block_count * 480)
    (hto : sample_idx_to < dest.m_block_count * 480)
    (h1 : 1 ≤ samples_range)
    (hr : samples_range ≤ self.m_block_count * 480)
    (hr2 : samples_range ≤ dest.m_block_count * 480)
    (hr32 : samples_range < 2 ^ 32)
    (hu : u = (samples_range - 1) % (self.m_block_count * 480 - sample_idx_from) + 1)
    (htu : tu = (samples_range - 1) % (dest.m_block_count * 480 - sample_idx_to) + 1) :
    copy_slice_to self dest sample_idx_from sample_idx_to samples_range = outcome.ok
      { m_block_count := dest.m_block_count
        states :=
          copy_range
            (copy_range dest.states (sample_idx_to / 480)
              (scratch_states self (sample_idx_from / 480)
                (samples_range / 480 - (samples_range - u) / 480) ((samples_range - u) / 480))
              0 (samples_range / 480 - (samples_range - tu) / 480))
            0
            (scratch_states self (sample_idx_from / 480)
              (samples_range / 480 - (samples_range - u) / 480) ((samples_range - u) / 480))
            (samples_range / 480 - (samples_range - tu) / 480) ((samples_range - tu) / 480)
        samples :=
          copy_range
            (copy_range dest.samples sample_idx_to
              (scratch_samples self u (samples_range - u)) 0 tu)
            0 (scratch_samples self u (samples_range - u)) tu (samples_range - tu) } := by
  have hule : (samples_range - 1) % (self.m_block_count * 480 - sample_idx_from) <
      self.m_block_count * 480 - sample_idx_from := Nat.mod_lt _ (by omega)
  have hule2 : (samples_range - 1) % (self.m_block_count * 480 - sample_idx_from) ≤
      samples_range - 1 := Nat.mod_le _ _
  have htule : (samples_range - 1) % (dest.m_block_count * 480 - sample_idx_to) <
      dest.m_block_count * 480 - sample_idx_to := Nat.mod_lt _ (by omega)
  have htule2 : (samples_range - 1) % (dest.m_block_count * 480 - sample_idx_to) ≤
      samples_range - 1 := Nat.mod_le _ _
  have e1 : uint32_sub samples_range 1 = samples_range - 1 := uint32_sub_of_le (by omega)
  refine copy_slice_to_core self dest sample_idx_from sample_idx_to samples_range u tu
    hv hfrom hto hr hr2 ?_ (by omega) (by omega) ?_ (by omega) (by omega)
  · rw [e1, hu]; exact (Nat.mod_eq_of_lt (by omega)).symm
  · rw [e1, htu]; exact (Nat.mod_eq_of_lt (by omega)).symm

/-- The whole-buffer copy between existing buffers of equal block count returns; when the
sample count fits the `uint32_t` parameter it copies every sample and every state. -/
theorem copy_to_same_count (self dest : audio_ring_buffer) (hv : self.valid)
    (hc : dest.m_block_count = self.m_block_count) :
    ∃ d, self.copy_to dest 0 = outcome.ok d ∧ d.m_block_count = dest.m_block_count ∧
      (∀ j, self.m_block_count * 480 ≤ j → d.samples j = dest.samples j) ∧
      (self.m_block_count * 480 < 2 ^ 32 →
        (∀ j, j < self.m_block_count * 480 → d.samples j = self.samples j) ∧
        (∀ i, i < self.m_block_count → d.states i = self.states i)) := by
  have hv0 := hv
  obtain ⟨hN, h16, hsz⟩ := hv
  simp only [allocation_size, sample_block_size] at hsz
  have hmod : self.m_block_count * 480 % 2 ^ 32 ≤ self.m_block_count * 480 := Nat.mod_le _ _
  have hlt : self.m_block_count * 480 % 2 ^ 32 < 2 ^ 32 := Nat.mod_lt _ (by omega)
  by_cases hr : self.m_block_count * 480 % 2 ^ 32 = 0
  · -- nothing is copied
    have hbig : 2 ^ 32 ≤ self.m_block_count * 480 := by omega
    have e1 : uint32_sub 0 1 = 2 ^ 32 - 1 := by
      unfold uint32_sub; rw [if_neg (by omega)]; rfl
    have e2 : (2 ^ 32 - 1) % (self.m_block_count * 480 - 0) = 2 ^ 32 - 1 :=
      Nat.mod_eq_of_lt (by omega)
    have e3 : (2 ^ 32 - 1) % (dest.m_block_count * 480 - 0) = 2 ^ 32 - 1 :=
      Nat.mod_eq_of_lt (by rw [hc]; omega)
    have e4 : (2 ^ 32 - 1 + 1) % 2 ^ 32 = 0 := by decide
    have h := copy_slice_to_core self dest 0 0 0 0 0 hv0 (by omega) (by rw [hc]; omega)
      (by omega) (by omega) (by rw [e1, e2, e4]) (by omega) (by omega)
      (by rw [e1, e3, e4]) (by omega) (by omega)
    have hto : self.copy_to dest 0 = self.copy_slice_to dest 0 0 0 := by
      simp only [copy_to, sample_block_size, hr]
    rw [hto, h]
    refine ⟨_, rfl, rfl, ?_, ?_⟩
    · intro j _
      simp [copy_range]
    · intro h32
      omega
  · have e5 : (self.m_block_count * 480 % 2 ^ 32 - 1) % (self.m_block_count * 480 - 0) =
        self.m_block_count * 480 % 2 ^ 32 - 1 := Nat.mod_eq_of_lt (by omega)
    have e6 : (self.m_block_count * 480 % 2 ^ 32 - 1) % (dest.m_block_count * 480 - 0) =
        self.m_block_count * 480 % 2 ^ 32 - 1 := Nat.mod_eq_of_lt (by rw [hc]; omega)
    have g1 : 1 ≤ self.m_block_count * 480 % 2 ^ 32 := Nat.one_le_iff_ne_zero.mpr hr
    have g2 : self.m_block_count * 480 % 2 ^ 32 ≤ dest.m_block_count * 480 := by
      rw [hc]; exact hmod
    have h := copy_slice_to_ok self dest 0 0 (self.m_block_count * 480 % 2 ^ 32)
      (self.m_block_count * 480 % 2 ^ 32) (self.m_block_count * 480 % 2 ^ 32)
      hv0 (by omega) (by rw [hc]; omega) g1 hmod g2 hlt
      (by rw [e5]; omega) (by rw [e6]; omega)
    have hto : self.copy_to dest 0 =
        self.copy_slice_to dest 0 0 (self.m_block_count * 480 % 2 ^ 32) := by
      simp only [copy_to, sample_block_size]
    rw [hto, h]
    refine ⟨_, rfl, rfl, ?_, ?_⟩
    · intro j hj
      simp only [copy_range]
      rw [if_neg (by omega), if_neg (by omega)]
    · intro h32
      have er : self.m_block_count * 480 % 2 ^ 32 = self.m_block_count * 480 :=
        Nat.mod_eq_of_lt h32
      simp only [er]
      constructor
      · intro j hj
        simp only [copy_range, scratch_samples]
        rw [if_neg (by omega), if_pos (by omega), if_neg (by omega), if_pos (by omega)]
        congr 1
        omega
      · intro i hi
        simp only [copy_range, scratch_states]
        rw [if_neg (by omega), if_pos (by omega), if_neg (by omega), if_pos (by omega)]
        congr 1
        omega

end audio_ring_buffer

/-! ## Vectors of buffers and stages -/

theorem front_eq_some_of_ne_nil {α : Type} (v : List α) (h : v ≠ []) :
    ∃ a, front v = some a := by
  cases v with
  | nil => exact absurd rfl h
  | cons a t => exact ⟨a, by simp [front]⟩

theorem ne_nil_of_front {α : Type} {v : List α} {a : α} (h : front v = some a) : v ≠ [] := by
  intro e; subst e; simp [front] at h

theorem ne_nil_of_back {α : Type} {v : List α} {a : α} (h : back v = some a) : v ≠ [] := by
  intro e; subst e; simp [back] at h

theorem back_eq_some_of_ne_nil {α : Type} (v : List α) (h : v ≠ []) :
    ∃ a, back v = some a := by
  have hl : 0 < v.length := List.length_pos.mpr h
  refine ⟨v[v.length - 1], ?_⟩
  unfold back
  rw [if_neg (by omega), List.getElem?_eq_getElem]

theorem front_mem {α : Type} {v : List α} {a : α} (h : front v = some a) : a ∈ v := by
  unfold front at h
  obtain ⟨hl, e⟩ := List.getElem?_eq_some.mp h
  exact e ▸ List.getElem_mem hl

theorem back_mem {α : Type} {v : List α} {a : α} (h : back v = some a) : a ∈ v := by
  unfold back at h
  split at h
  · cases h
  · obtain ⟨hl, e⟩ := List.getElem?_eq_some.mp h
    exact e ▸ List.getElem_mem hl

theorem front_set_front {α : Type} (v : List α) (a : α) (h : v ≠ []) :
    front (set_front v a) = some a := by
  have hl : 0 < v.length := List.length_pos.mpr h
  simp [front, set_front, List.getElem?_set, hl]

theorem back_set_back {α : Type} (v : List α) (a : α) (h : v ≠ []) :
    back (set_back v a) = some a := by
  have hl : 0 < v.length := List.length_pos.mpr h
  unfold back set_back
  rw [List.length_set, if_neg (by omega), List.getElem?_set, if_pos rfl, if_pos (by omega)]

theorem set_front_ne_nil {α : Type} (v : List α) (a : α) (h : v ≠ []) : set_front v a ≠ []:= by
  intro e
  have := congrArg List.length e
  simp [set_front] at this
  exact h this

theorem set_back_ne_nil {α : Type} (v : List α) (a : α) (h : v ≠ []) : set_back v a ≠ [] := by
  intro e
  have := congrArg List.length e
  simp [set_back] at this
  exact h this

/-- After an assignment through `front()`, `back()` is the assigned element in a vector of
one element and the old `back()` otherwise. -/
theorem back_set_front {α : Type} (v : List α) (a b : α) (h : back v = some b) :
    back (set_front v a) = some (if v.length = 1 then a else b) := by
  have hne := ne_nil_of_back h
  have hl : 0 < v.length := List.length_pos.mpr hne
  unfold back at h
  rw [if_neg (by omega)] at h
  unfold back set_front
  rw [List.length_set, if_neg (by omega), List.getElem?_set]
  by_cases h1 : v.length = 1
  · rw [if_pos (by omega), if_pos hl, if_pos h1]
  · rw [if_neg (by omega), if_neg h1, h]

/-- After an assignment through `back()`, `front()` is the assigned element in a vector of
one element and the old `front()` otherwise. -/
theorem front_set_back {α : Type} (v : List α) (a b : α) (h : front v = some b) :
    front (set_back v a) = some (if v.length = 1 then a else b) := by
  have hne := ne_nil_of_front h
  have hl : 0 < v.length := List.length_pos.mpr hne
  unfold front at h
  unfold front set_back
  rw [List.getElem?_set]
  by_cases h1 : v.length = 1
  · rw [if_pos (by omega), if_pos (by omega), if_pos h1]
  · rw [if_neg (by omega), if_neg h1, h]

theorem store_flushing_flag (stages : List pipeline_stage) (value : Bool) :
    ∀ s, s ∈ store_flushing stages value → s.m_flushing = value := by
  intro s hs
  simp only [store_flushing, List.mem_map] at hs
  obtain ⟨t, _, rfl⟩ := hs
  rfl

/-! ## The supervisor -/

/-- The non-match scan returns `-1` when every state is `s`, whatever the block count. -/
theorem get_first_nonmatch_idx_of_all (b : audio_ring_buffer) (s : sample_state)
    (h16 : b.m_block_count % 16 = 0) (hall : all_states b s) :
    b.get_first_nonmatch_idx s = -1 :=
  audio_ring_buffer.get_first_nonmatch_idx_loop_of_all b s h16 hall b.m_block_count 0
    (by decide)

/-- With at most `2 ^ 31` blocks the non-match scan returns `-1` exactly when every state
is `s`. -/
theorem get_first_nonmatch_idx_eq_neg_one (b : audio_ring_buffer) (s : sample_state)
    (h16 : b.m_block_count % 16 = 0) (h31 : b.m_block_count ≤ 2 ^ 31) :
    b.get_first_nonmatch_idx s = -1 ↔ all_states b s := by
  rw [audio_ring_buffer.get_first_nonmatch_idx_eq_scalar b s h16 h31]
  rcases scalar_search_spec (fun i => decide (b.states i ≠ s)) 0 b.m_block_count
    with ⟨h1, h2⟩ | ⟨m, h1, _, h3, h4, _⟩
  · rw [h1]
    exact ⟨fun _ i hi => by simpa using h2 i (by omega) (by omega), fun _ => rfl⟩
  · rw [h1]
    refine ⟨fun h => by omega, fun h => ?_⟩
    have := h m (by omega)
    simp [this] at h4

/-- The condition the supervisor evaluates is true when its three scans return `-1`. -/
theorem flush_condition_of_scans (src_buffers dst_buffers : List audio_ring_buffer)
    (sb df db : audio_ring_buffer)
    (hsb : back src_buffers = some sb) (hdf : front dst_buffers = some df)
    (hdb : back dst_buffers = some db)
    (e1 : sb.get_first_nonmatch_idx sample_block_state_processed = -1)
    (e2 : df.get_first_nonmatch_idx sample_block_state_default = -1)
    (e3 : db.get_first_nonmatch_idx sample_block_state_default = -1) :
    flush_condition src_buffers dst_buffers = some true := by
  unfold flush_condition
  simp only [hsb, hdf, hdb]
  rw [if_pos e1, if_pos e2]
  have : decide (db.get_first_nonmatch_idx sample_block_state_default = -1) = true := by
    simpa using e3
  rw [this]

/-- The condition the supervisor evaluates is true when the condition of the
specification holds, whatever the block counts. -/
theorem flush_condition_of_holds (src_buffers dst_buffers : List audio_ring_buffer)
    (hs : group_ok src_buffers) (hd : group_ok dst_buffers)
    (h : flush_condition_holds src_buffers dst_buffers) :
    flush_condition src_buffers dst_buffers = some true := by
  obtain ⟨sb, df, db, hsb, hdf, hdb, c1, c2, c3⟩ := h
  exact flush_condition_of_scans src_buffers dst_buffers sb df db hsb hdf hdb
    (get_first_nonmatch_idx_of_all sb sample_block_state_processed
      (hs.2 sb (back_mem hsb)).2.1 c1)
    (get_first_nonmatch_idx_of_all df sample_block_state_default
      (hd.2 df (front_mem hdf)).2.1 c2)
    (get_first_nonmatch_idx_of_all db sample_block_state_default
      (hd.2 db (back_mem hdb)).2.1 c3)

theorem flush_condition_iff (src_buffers dst_buffers : List audio_ring_buffer)
    (hs : group_ok src_buffers) (hd : group_ok dst_buffers)
    (hs31 : ∀ b, b ∈ src_buffers → b.m_block_count < 2 ^ 31)
    (hd31 : ∀ b, b ∈ dst_buffers → b.m_block_count < 2 ^ 31) :
    (flush_condition src_buffers dst_buffers = some true ∨
      flush_condition src_buffers dst_buffers = some false) ∧
    (flush_condition src_buffers dst_buffers = some true ↔
      flush_condition_holds src_buffers dst_buffers) := by
  obtain ⟨sb, hsb⟩ := back_eq_some_of_ne_nil src_buffers (List.length_pos.mp hs.1)
  obtain ⟨df, hdf⟩ := front_eq_some_of_ne_nil dst_buffers (List.length_pos.mp hd.1)
  obtain ⟨db, hdb⟩ := back_eq_some_of_ne_nil dst_buffers (List.length_pos.mp hd.1)
  have e1 := get_first_nonmatch_idx_eq_neg_one sb sample_block_state_processed
    (hs.2 sb (back_mem hsb)).2.1 (Nat.le_of_lt (hs31 sb (back_mem hsb)))
  have e2 := get_first_nonmatch_idx_eq_neg_one df sample_block_state_default
    (hd.2 df (front_mem hdf)).2.1 (Nat.le_of_lt (hd31 df (front_mem hdf)))
  have e3 := get_first_nonmatch_idx_eq_neg_one db sample_block_state_default
    (hd.2 db (back_mem hdb)).2.1 (Nat.le_of_lt (hd31 db (back_mem hdb)))
  unfold flush_condition flush_condition_holds
  simp only [hsb, hdf, hdb]
  by_cases c1 : all_states sb sample_block_state_processed
  · rw [if_pos (e1.mpr c1)]
    by_cases c2 : all_states df sample_block_state_default
    · rw [if_pos (e2.mpr c2)]
      by_cases c3 : all_states db sample_block_state_default
      · have : decide (db.get_first_nonmatch_idx sample_block_state_default = -1) = true := by
          simpa using e3.mpr c3
        rw [this]
        exact ⟨Or.inl rfl, fun _ => ⟨sb, df, db, rfl, rfl, rfl, c1, c2, c3⟩, fun _ => rfl⟩
      · have : decide (db.get_first_nonmatch_idx sample_block_state_default = -1) = false := by
          simpa using fun h => c3 (e3.mp h)
        rw [this]
        refine ⟨Or.inr rfl, (fun h => by cases h), ?_⟩
        rintro ⟨_, _, _, h1, h2, h3, _, _, h6⟩
        cases h3
        exact absurd h6 c3
    · rw [if_neg (fun h => c2 (e2.mp h))]
      refine ⟨Or.inr rfl, (fun h => by cases h), ?_⟩
      rintro ⟨_, _, _, h1, h2, h3, _, h5, _⟩
      cases h2
      exact absurd h5 c2
  · rw [if_neg (fun h => c1 (e1.mp h))]
    refine ⟨Or.inr rfl, (fun h => by cases h), ?_⟩
    rintro ⟨_, _, _, h1, h2, h3, h4, _, _⟩
    cases h1
    exact absurd h4 c1

theorem flush_body_count (v v1 : flush_view) (h : flush_body v = outcome.ok v1) :
    v1.flush_count = v.flush_count + 1 := by
  unfold flush_body at h
  simp only [] at h
  split at h
  · split at h
    · cases h
    · cases h
    · split at h
      · cases h
      · split at h
        · split at h
          · cases h
          · cases h
            rfl
        · cases h
  · cases h

theorem all_states_memset_states (b : audio_ring_buffer) (s : sample_state) :
    all_states (b.memset_states s) s := by
  intro i hi
  have hi2 : i < b.m_block_count := hi
  simp [audio_ring_buffer.memset_states, hi2]

theorem cleared_clear (b : audio_ring_buffer) : cleared b.clear := by
  constructor
  · intro i hi
    have hi2 : i < b.m_block_count := hi
    simp [audio_ring_buffer.clear, hi2, sample_block_state_default]
  · intro j hj
    have hj2 : j < b.m_block_count * sample_block_size := hj
    simp [audio_ring_buffer.clear, hj2]

theorem cleared_clear_memset (b : audio_ring_buffer) :
    cleared (b.clear.memset_states sample_block_state_default) := by
  constructor
  · exact all_states_memset_states _ _
  · intro j hj
    have hj2 : j < b.m_block_count * sample_block_size := hj
    simp [audio_ring_buffer.clear, audio_ring_buffer.memset_states, hj2]

/-- The body of a flush between existing buffers of equal block count runs to its end. -/
theorem flush_body_spec (v : flush_view) (sb df : audio_ring_buffer) (st : pipeline_stage)
    (hsb : back v.src_buffers = some sb) (hdf : front v.dst_buffers = some df)
    (hst : front v.dst_stages = some st) (hv : sb.valid)
    (hc : df.m_block_count = sb.m_block_count) :
    ∃ v1 d sf, sb.copy_to df 0 = outcome.ok d ∧ flush_body v = outcome.ok v1 ∧
      front v.src_buffers = some sf ∧
      v1.flush_count = v.flush_count + 1 ∧
      front v1.dst_buffers = some (d.memset_states st.m_entry_block_state) ∧
      (∃ b, back v1.src_buffers = some b ∧ b.m_block_count = sb.m_block_count ∧
        all_states b sample_block_state_default) ∧
      (∃ b, front v1.src_buffers = some b ∧ b.m_block_count = sf.m_block_count ∧ cleared b) ∧
      v1.src_stages = store_flushing (store_flushing v.src_stages true) false ∧
      v1.dst_stages = store_flushing (store_flushing v.dst_stages true) false := by
  obtain ⟨d, hd, hdc, _, _⟩ := audio_ring_buffer.copy_to_same_count sb df hv hc
  have hsne := ne_nil_of_back hsb
  have hdne := ne_nil_of_front hdf
  obtain ⟨sf, hsf⟩ := front_eq_some_of_ne_nil v.src_buffers hsne
  have hstf : front (store_flushing v.dst_stages true) =
      some { st with m_flushing := true } := by
    unfold front at hst ⊢
    simp [store_flushing, List.getElem?_map, hst]
  have h1 : front (set_front v.dst_buffers d) = some d := front_set_front _ _ hdne
  have h2 := back_set_front v.src_buffers sf.clear sb hsb
  have h3 : front (set_front (set_front v.dst_buffers d)
      (d.memset_states st.m_entry_block_state)) =
      some (d.memset_states st.m_entry_block_state) :=
    front_set_front _ _ (set_front_ne_nil _ _ hdne)
  have h4 : front (set_front v.src_buffers sf.clear) = some sf.clear :=
    front_set_front _ _ hsne
  have hfb : flush_body v = outcome.ok
      { src_stages := store_flushing (store_flushing v.src_stages true) false
        dst_stages := store_flushing (store_flushing v.dst_stages true) false
        src_buffers := set_back (set_front v.src_buffers sf.clear)
          ((if v.src_buffers.length = 1 then sf.clear else sb).memset_states
            sample_block_state_default)
        dst_buffers := set_front (set_front v.dst_buffers d)
          (d.memset_states st.m_entry_block_state)
        flush_count := v.flush_count + 1 } := by
    unfold flush_body
    simp only [hsb, hdf, hd, hsf, h1, hstf, h2]
  refine ⟨_, d, sf, hd, hfb, hsf, ?_⟩
  · refine ⟨rfl, h3, ?_, ?_, rfl, rfl⟩
    · refine ⟨_, back_set_back _ _ (set_front_ne_nil _ _ hsne), ?_, all_states_memset_states _ _⟩
      by_cases hl : v.src_buffers.length = 1
      · rw [if_pos hl]
        have : sf = sb := by
          unfold front at hsf
          unfold back at hsb
          rw [if_neg (by omega)] at hsb
          simp only [hl] at hsb
          rw [hsf] at hsb
          exact Option.some.inj hsb
        rw [this]
        rfl
      · rw [if_neg hl]
        rfl
    · have h5 := front_set_back (set_front v.src_buffers sf.clear)
        ((if v.src_buffers.length = 1 then sf.clear else sb).memset_states
          sample_block_state_default) sf.clear h4
      refine ⟨_, h5, ?_, ?_⟩
      · simp only [set_front, List.length_set]
        by_cases hl : v.src_buffers.length = 1
        · simp only [hl, if_true]; rfl
        · simp only [hl, if_false]; rfl
      · simp only [set_front, List.length_set]
        by_cases hl : v.src_buffers.length = 1
        · simp only [hl, if_true]
          exact cleared_clear_memset sf
        · simp only [hl, if_false]
          exact cleared_clear sf

namespace audio_pipeline

theorem set_generator_view_self (p : audio_pipeline) :
    p.set_generator_view p.generator_view = p := rfl

theorem set_processing_view_self (p : audio_pipeline) :
    p.set_processing_view p.processing_view = p := rfl

theorem generator_flush_step_of_true (p : audio_pipeline)
    (h : flush_condition p.m_generator_buffers p.m_processing_buffers = some true) :
    p.generator_flush_step = p.generator_flush := by
  have h1 : flush_condition p.generator_view.src_buffers p.generator_view.dst_buffers =
      some true := h
  simp only [generator_flush_step, generator_flush, flush_step, h1]

theorem generator_flush_step_of_false (p : audio_pipeline)
    (h : flush_condition p.m_generator_buffers p.m_processing_buffers = some false) :
    p.generator_flush_step = outcome.ok p := by
  have h1 : flush_condition p.generator_view.src_buffers p.generator_view.dst_buffers =
      some false := h
  simp only [generator_flush_step, flush_step, h1, with_view, set_generator_view_self]

theorem processing_flush_step_of_true (p : audio_pipeline)
    (h : flush_condition p.m_processing_buffers p.m_output_buffers = some true) :
    p.processing_flush_step = p.processing_flush := by
  have h1 : flush_condition p.processing_view.src_buffers p.processing_view.dst_buffers =
      some true := h
  simp only [processing_flush_step, processing_flush, flush_step, h1]

theorem processing_flush_step_of_false (p : audio_pipeline)
    (h : flush_condition p.m_processing_buffers p.m_output_buffers = some false) :
    p.processing_flush_step = outcome.ok p := by
  have h1 : flush_condition p.processing_view.src_buffers p.processing_view.dst_buffers =
      some false := h
  simp only [processing_flush_step, flush_step, h1, with_view, set_processing_view_self]

/-- A flush body never returns the pipeline it started from: it has counted. -/
theorem generator_flush_ne (p : audio_pipeline) : p.generator_flush ≠ outcome.ok p := by
  intro h
  unfold generator_flush at h
  cases hb : flush_body p.generator_view with
  | ok v1 =>
    rw [hb] at h
    simp only [with_view] at h
    have hc := flush_body_count _ _ hb
    have h2 : (p.set_generator_view v1).m_state.generator_flush_count =
        p.m_state.generator_flush_count := by
      rw [outcome.ok.inj h]
    have h3 : v1.flush_count = p.m_state.generator_flush_count := h2
    have h4 : p.generator_view.flush_count = p.m_state.generator_flush_count := rfl
    omega
  | thrown e v1 => rw [hb] at h; simp only [with_view] at h; cases h
  | undefined => rw [hb] at h; simp only [with_view] at h; cases h

theorem processing_flush_ne (p : audio_pipeline) : p.processing_flush ≠ outcome.ok p := by
  intro h
  unfold processing_flush at h
  cases hb : flush_body p.processing_view with
  | ok v1 =>
    rw [hb] at h
    simp only [with_view] at h
    have hc := flush_body_count _ _ hb
    have h2 : (p.set_processing_view v1).m_state.processing_flush_count =
        p.m_state.processing_flush_count := by
      rw [outcome.ok.inj h]
    have h3 : v1.flush_count = p.m_state.processing_flush_count := h2
    have h4 : p.processing_view.flush_count = p.m_state.processing_flush_count := rfl
    omega
  | thrown e v1 => rw [hb] at h; simp only [with_view] at h; cases h
  | undefined => rw [hb] at h; simp only [with_view] at h; cases h

end audio_pipeline

/-- The flush body on a pipeline, from the flush body on the view. -/
theorem generator_flush_spec (p : audio_pipeline) (gb pf : audio_ring_buffer)
    (pst : pipeline_stage)
    (hgb : back p.m_generator_buffers = some gb) (hpf : front p.m_processing_buffers = some pf)
    (hpst : front p.m_processing_stages = some pst) (hv : gb.valid)
    (hc : pf.m_block_count = gb.m_block_count) :
    ∃ p1 d gf, gb.copy_to pf 0 = outcome.ok d ∧ p.generator_flush = outcome.ok p1 ∧
      front p.m_generator_buffers = some gf ∧
      p1.m_state.generator_flush_count = p.m_state.generator_flush_count + 1 ∧
      front p1.m_processing_buffers = some (d.memset_states pst.m_entry_block_state) ∧
      (∃ b, back p1.m_generator_buffers = some b ∧ b.m_block_count = gb.m_block_count ∧
        all_states b sample_block_state_default) ∧
      (∃ b, front p1.m_generator_buffers = some b ∧ b.m_block_count = gf.m_block_count ∧
        cleared b) ∧
      (∀ s, s ∈ p1.m_generator_stages → s.m_flushing = false) ∧
      (∀ s, s ∈ p1.m_processing_stages → s.m_flushing = false) := by
  obtain ⟨v1, d, gf, h1, h2, h3, h4, h5, h6, h7, h8, h9⟩ :=
    flush_body_spec p.generator_view gb pf pst hgb hpf hpst hv hc
  refine ⟨p.set_generator_view v1, d, gf, h1, ?_, h3, h4, h5, h6, h7, ?_, ?_⟩
  · simp only [audio_pipeline.generator_flush, h2, audio_pipeline.with_view]
  · intro s hs
    have hs2 : s ∈ v1.src_stages := hs
    rw [h8] at hs2
    exact store_flushing_flag _ _ s hs2
  · intro s hs
    have hs2 : s ∈ v1.dst_stages := hs
    rw [h9] at hs2
    exact store_flushing_flag _ _ s hs2

theorem processing_flush_spec (p : audio_pipeline) (pb ofr : audio_ring_buffer)
    (ost : pipeline_stage)
    (hpb : back p.m_processing_buffers = some pb) (hof : front p.m_output_buffers = some ofr)
    (host : front p.m_output_stages = some ost) (hv : pb.valid)
    (hc : ofr.m_block_count = pb.m_block_count) :
    ∃ p1 d pf, pb.copy_to ofr 0 = outcome.ok d ∧ p.processing_flush = outcome.ok p1 ∧
      front p.m_processing_buffers = some pf ∧
      p1.m_state.processing_flush_count = p.m_state.processing_flush_count + 1 ∧
      front p1.m_output_buffers = some (d.memset_states ost.m_entry_block_state) ∧
      (∃ b, back p1.m_processing_buffers = some b ∧ b.m_block_count = pb.m_block_count ∧
        all_states b sample_block_state_default) ∧
      (∃ b, front p1.m_processing_buffers = some b ∧ b.m_block_count = pf.m_block_count ∧
        cleared b) ∧
      (∀ s, s ∈ p1.m_processing_stages → s.m_flushing = false) ∧
      (∀ s, s ∈ p1.m_output_stages → s.m_flushing = false) := by
  obtain ⟨v1, d, pf, h1, h2, h3, h4, h5, h6, h7, h8, h9⟩ :=
    flush_body_spec p.processing_view pb ofr ost hpb hof host hv hc
  refine ⟨p.set_processing_view v1, d, pf, h1, ?_, h3, h4, h5, h6, h7, ?_, ?_⟩
  · simp only [audio_pipeline.processing_flush, h2, audio_pipeline.with_view]
  · intro s hs
    have hs2 : s ∈ v1.src_stages := hs
    rw [h8] at hs2
    exact store_flushing_flag _ _ s hs2
  · intro s hs
    have hs2 : s ∈ v1.dst_stages := hs
    rw [h9] at hs2
    exact store_flushing_flag _ _ s hs2

/-! ## Supervisor contracts -/

/-- C3 (amended): for a pipeline whose buffers exist and have fewer than `2 ^ 31` blocks
each, in a supervisor iteration the generator-to-processing handoff is performed (the
first `if` runs its body) exactly when the last generator buffer is entirely `PROCESSED`
and the first and last processing buffers are entirely `DEFAULT`; likewise the
processing-to-output handoff, evaluated on the pipeline the first `if` leaves, is performed
exactly when the last processing buffer is entirely `PROCESSED` and the first and last
output buffers are entirely `DEFAULT`. An `if` whose condition is false returns the
pipeline unchanged, and so does the whole iteration when both conditions are false. -/
theorem supervisor_flush_iff_condition (p : audio_pipeline)
    (hg : group_ok p.m_generator_buffers) (hp : group_ok p.m_processing_buffers)
    (ho : group_ok p.m_output_buffers)
    (hg31 : ∀ b, b ∈ p.m_generator_buffers → b.m_block_count < 2 ^ 31)
    (hp31 : ∀ b, b ∈ p.m_processing_buffers → b.m_block_count < 2 ^ 31)
    (ho31 : ∀ b, b ∈ p.m_output_buffers → b.m_block_count < 2 ^ 31) :
    (p.generator_flush_step = p.generator_flush ↔
      flush_condition_holds p.m_generator_buffers p.m_processing_buffers) ∧
    (¬ flush_condition_holds p.m_generator_buffers p.m_processing_buffers →
      p.generator_flush_step = outcome.ok p) ∧
    (p.processing_flush_step = p.processing_flush ↔
      flush_condition_holds p.m_processing_buffers p.m_output_buffers) ∧
    (¬ flush_condition_holds p.m_processing_buffers p.m_output_buffers →
      p.processing_flush_step = outcome.ok p) ∧
    (∀ p1, p.generator_flush_step = outcome.ok p1 →
      p.run_iteration = p1.processing_flush_step) ∧
    (¬ flush_condition_holds p.m_generator_buffers p.m_processing_buffers →
      ¬ flush_condition_holds p.m_processing_buffers p.m_output_buffers →
      p.run_iteration = outcome.ok p) := by
  obtain ⟨hg1, hg2⟩ := flush_condition_iff _ _ hg hp hg31 hp31
  obtain ⟨hp1, hp2⟩ := flush_condition_iff _ _ hp ho hp31 ho31
  have gfalse : ¬ flush_condition_holds p.m_generator_buffers p.m_processing_buffers →
      p.generator_flush_step = outcome.ok p := by
    intro hn
    rcases hg1 with h | h
    · exact absurd (hg2.mp h) hn
    · exact p.generator_flush_step_of_false h
  have pfalse : ¬ flush_condition_holds p.m_processing_buffers p.m_output_buffers →
      p.processing_flush_step = outcome.ok p := by
    intro hn
    rcases hp1 with h | h
    · exact absurd (hp2.mp h) hn
    · exact p.processing_flush_step_of_false h
  refine ⟨⟨?_, ?_⟩, gfalse, ⟨?_, ?_⟩, pfalse, ?_, ?_⟩
  · intro h
    by_contra hn
    exact p.generator_flush_ne (h.symm.trans (gfalse hn))
  · intro h
    exact p.generator_flush_step_of_true (hg2.mpr h)
  · intro h
    by_contra hn
    exact p.processing_flush_ne (h.symm.trans (pfalse hn))
  · intro h
    exact p.processing_flush_step_of_true (hp2.mpr h)
  · intro p1 h
    simp only [audio_pipeline.run_iteration, h]
  · intro h1 h2
    simp only [audio_pipeline.run_iteration, gfalse h1, pfalse h2]

theorem supervisor_flush_iff_condition_witness :
    group_ok flush_example.m_generator_buffers ∧ group_ok flush_example.m_processing_buffers ∧
    group_ok flush_example.m_output_buffers ∧
    flush_example.generator_flush_step = flush_example.generator_flush ∧
    flush_example.generator_flush_step ≠ outcome.ok flush_example ∧
    flush_example.processing_flush_step = outcome.ok flush_example := by
  have h31 : ∀ b : audio_ring_buffer, b ∈ [(⟨16, fun _ => (0 : Nat), fun _ => (0 : Nat)⟩ :
      audio_ring_buffer)] → b.m_block_count < 2 ^ 31 := by
    intro b hb
    rw [List.mem_singleton] at hb
    rw [hb]
    decide
  have hg31 : ∀ b, b ∈ flush_example.m_generator_buffers → b.m_block_count < 2 ^ 31 := by
    intro b hb
    have hb2 : b ∈ [(⟨16, fun _ => 255, fun j => j + 1⟩ : audio_ring_buffer)] := hb
    rw [List.mem_singleton] at hb2
    rw [hb2]
    decide
  have hperformed : flush_example.generator_flush_step = flush_example.generator_flush :=
    (supervisor_flush_iff_condition flush_example (by decide) (by decide) (by decide)
      hg31 h31 h31).1.mpr
      ⟨_, _, _, rfl, rfl, rfl, fun _ _ => rfl, fun _ _ => rfl, fun _ _ => rfl⟩
  refine ⟨by decide, by decide, by decide, hperformed, ?_, ?_⟩
  · rw [hperformed]
    exact flush_example.generator_flush_ne
  · exact (supervisor_flush_iff_condition flush_example (by decide) (by decide) (by decide)
      hg31 h31 h31).2.2.2.1
      (by
        rintro ⟨b, _, _, h1, _, _, h4, _, _⟩
        cases h1
        exact absurd (h4 0 (by decide)) (by decide))

/-- C3 as stated fails for buffers of `2 ^ 31 + 16` blocks: with every state of the
generator buffer `PROCESSED` except that of block `2 ^ 31`, and the processing buffer
entirely `DEFAULT`, the condition of the specification is false, yet the non-match scan of
the generator buffer returns `-1`, the first `if` runs its body and the generator-flush
counter goes from 0 to 1. -/
theorem supervisor_flushes_wide_buffer :
    group_ok wide_flush_example.m_generator_buffers ∧
    group_ok wide_flush_example.m_processing_buffers ∧
    group_ok wide_flush_example.m_output_buffers ∧
    ¬ flush_condition_holds wide_flush_example.m_generator_buffers
      wide_flush_example.m_processing_buffers ∧
    flush_condition wide_flush_example.m_generator_buffers
      wide_flush_example.m_processing_buffers = some true ∧
    wide_flush_example.generator_flush_step = wide_flush_example.generator_flush ∧
    ∃ p1, wide_flush_example.generator_flush_step = outcome.ok p1 ∧
      wide_flush_example.m_state.generator_flush_count = 0 ∧
      p1.m_state.generator_flush_count = 1 := by
  have hnot : ¬ flush_condition_holds wide_flush_example.m_generator_buffers
      wide_flush_example.m_processing_buffers := by
    rintro ⟨b, _, _, h1, _, _, h4, _, _⟩
    cases h1
    exact absurd (h4 (2 ^ 31) (by decide)) (by decide)
  have hlow : ∀ j, j < 2 ^ 31 →
      (if j = 2 ^ 31 then (0 : Nat) else 255) = sample_block_state_processed := by
    intro j hj
    have hne : ¬ j = 2 ^ 31 := by omega
    rw [if_neg hne]
    rfl
  have e1 : (audio_ring_buffer.mk (2 ^ 31 + 16) (fun i => if i = 2 ^ 31 then 0 else 255)
      (fun _ => 0)).get_first_nonmatch_idx sample_block_state_processed = -1 := by
    rw [audio_ring_buffer.get_first_nonmatch_idx_eq_scalar_min _ _ (by decide) (by decide)]
    have hmin : min (audio_ring_buffer.mk (2 ^ 31 + 16)
        (fun i => if i = 2 ^ 31 then 0 else 255) (fun _ => 0)).m_block_count (2 ^ 31) =
        2 ^ 31 := by decide
    rw [hmin]
    rcases scalar_search_spec (fun x => decide ((audio_ring_buffer.mk (2 ^ 31 + 16)
        (fun i => if i = 2 ^ 31 then 0 else 255) (fun _ => 0)).states x ≠
        sample_block_state_processed)) 0 (2 ^ 31)
      with ⟨h1, _⟩ | ⟨m, _, _, h3, h4, _⟩
    · exact h1
    · exact absurd (hlow m (by omega)) (by simpa using h4)
  have e2 : (audio_ring_buffer.mk (2 ^ 31 + 16) (fun _ => 0)
      (fun _ => 0)).get_first_nonmatch_idx sample_block_state_default = -1 :=
    get_first_nonmatch_idx_of_all _ _ (by decide) (fun _ _ => rfl)
  have hcond : flush_condition wide_flush_example.m_generator_buffers
      wide_flush_example.m_processing_buffers = some true :=
    flush_condition_of_scans _ _ _ _ _ rfl rfl rfl e1 e2 e2
  have hstep := wide_flush_example.generator_flush_step_of_true hcond
  obtain ⟨p1, _, _, _, h2, _, h4, _⟩ := generator_flush_spec wide_flush_example
    ⟨2 ^ 31 + 16, fun i => if i = 2 ^ 31 then 0 else 255, fun _ => 0⟩
    ⟨2 ^ 31 + 16, fun _ => 0, fun _ => 0⟩ (example_stage 1 0 255) rfl rfl rfl (by decide) rfl
  exact ⟨by decide, by decide, by decide, hnot, hcond, hstep, p1, hstep.trans h2, rfl, h4⟩

/-- C9: after a generator-to-processing flush between existing buffers of equal block
count, every state of the first processing buffer is the entry state of the first
processing stage, every state of the last generator buffer is `DEFAULT`, the first
generator buffer is cleared (states and samples zero), and every flushing flag of the
generator and processing stages is false; after a processing-to-output flush the same
holds with the first output buffer and the entry state of the first output stage, the
last and first processing buffers, and the flags of the processing and output stages. -/
theorem flush_reseeds_states (p : audio_pipeline) (gb pf pb ofr : audio_ring_buffer)
    (pst ost : pipeline_stage)
    (hgb : back p.m_generator_buffers = some gb) (hpf : front p.m_processing_buffers = some pf)
    (hpb : back p.m_processing_buffers = some pb) (hof : front p.m_output_buffers = some ofr)
    (hpst : front p.m_processing_stages = some pst)
    (host : front p.m_output_stages = some ost)
    (hgv : gb.valid) (hpv : pb.valid)
    (hc1 : pf.m_block_count = gb.m_block_count) (hc2 : ofr.m_block_count = pb.m_block_count) :
    (∃ p1, p.generator_flush = outcome.ok p1 ∧
      (∃ b, front p1.m_processing_buffers = some b ∧ b.m_block_count = pf.m_block_count ∧
        all_states b pst.m_entry_block_state) ∧
      (∃ b, back p1.m_generator_buffers = some b ∧ b.m_block_count = gb.m_block_count ∧
        all_states b sample_block_state_default) ∧
      (∃ b gf, front p.m_generator_buffers = some gf ∧
        front p1.m_generator_buffers = some b ∧ b.m_block_count = gf.m_block_count ∧
        cleared b) ∧
      (∀ s, s ∈ p1.m_generator_stages → s.m_flushing = false) ∧
      (∀ s, s ∈ p1.m_processing_stages → s.m_flushing = false)) ∧
    (∃ p1, p.processing_flush = outcome.ok p1 ∧
      (∃ b, front p1.m_output_buffers = some b ∧ b.m_block_count = ofr.m_block_count ∧
        all_states b ost.m_entry_block_state) ∧
      (∃ b, back p1.m_processing_buffers = some b ∧ b.m_block_count = pb.m_block_count ∧
        all_states b sample_block_state_default) ∧
      (∃ b pf0, front p.m_processing_buffers = some pf0 ∧
        front p1.m_processing_buffers = some b ∧ b.m_block_count = pf0.m_block_count ∧
        cleared b) ∧
      (∀ s, s ∈ p1.m_processing_stages → s.m_flushing = false) ∧
      (∀ s, s ∈ p1.m_output_stages → s.m_flushing = false)) := by
  constructor
  · obtain ⟨p1, d, gf, h1, h2, h3, _, h5, h6, ⟨b, h7, h7b, h7c⟩, h8, h9⟩ :=
      generator_flush_spec p gb pf pst hgb hpf hpst hgv hc1
    obtain ⟨d0, hd0, hdc, _⟩ := audio_ring_buffer.copy_to_same_count gb pf hgv hc1
    have hdd : d = d0 := outcome.ok.inj (h1.symm.trans hd0)
    refine ⟨p1, h2, ⟨_, h5, ?_, all_states_memset_states _ _⟩, h6, ⟨b, gf, h3, h7, h7b, h7c⟩,
      h8, h9⟩
    rw [hdd]; exact hdc
  · obtain ⟨p1, d, pf0, h1, h2, h3, _, h5, h6, ⟨b, h7, h7b, h7c⟩, h8, h9⟩ :=
      processing_flush_spec p pb ofr ost hpb hof host hpv hc2
    obtain ⟨d0, hd0, hdc, _⟩ := audio_ring_buffer.copy_to_same_count pb ofr hpv hc2
    have hdd : d = d0 := outcome.ok.inj (h1.symm.trans hd0)
    refine ⟨p1, h2, ⟨_, h5, ?_, all_states_memset_states _ _⟩, h6, ⟨b, pf0, h3, h7, h7b, h7c⟩,
      h8, h9⟩
    rw [hdd]; exact hdc

theorem flush_reseeds_states_witness :
    ∃ p1, flush_example.generator_flush = outcome.ok p1 ∧
      (∃ b, front p1.m_processing_buffers = some b ∧ b.m_block_count = 16 ∧
        all_states b 1) ∧
      (∀ s, s ∈ p1.m_processing_stages → s.m_flushing = false) := by
  obtain ⟨⟨p1, h1, h2, _, _, _, h6⟩, _⟩ := flush_reseeds_states flush_example
    ⟨16, fun _ => 255, fun j => j + 1⟩ ⟨16, fun _ => 0, fun _ => 0⟩
    ⟨16, fun _ => 0, fun _ => 0⟩ ⟨16, fun _ => 0, fun _ => 0⟩
    (example_stage 1 0 255) (example_stage 3 0 0)
    rfl rfl rfl rfl rfl rfl (by decide) (by decide) rfl rfl
  exact ⟨p1, h1, h2, h6⟩

/-- C4 (amended): for every N divisible by 16 with `N * 480 < 2 ^ 32` and every pipeline
of existing buffers whose last generator buffer and first processing buffer both have N
blocks, when the generator-to-processing flush condition holds the flush increments the
generator-flush counter by exactly 1, and afterwards every sample of the first processing
buffer equals the sample at the same position of the last generator buffer as it was
before the flush. -/
theorem generator_flush_copies_tail (p : audio_pipeline) (N : Nat)
    (gb pf : audio_ring_buffer)
    (hgb : back p.m_generator_buffers = some gb) (hpf : front p.m_processing_buffers = some pf)
    (hNg : gb.m_block_count = N) (hNp : pf.m_block_count = N) (h16 : N % 16 = 0)
    (h32 : N * sample_block_size < 2 ^ 32)
    (hg : group_ok p.m_generator_buffers) (hp : group_ok p.m_processing_buffers)
    (hst : 0 < p.m_processing_stages.length)
    (hcond : flush_condition_holds p.m_generator_buffers p.m_processing_buffers) :
    ∃ p1 pf1, p.generator_flush_step = outcome.ok p1 ∧
      p1.m_state.generator_flush_count = p.m_state.generator_flush_count + 1 ∧
      front p1.m_processing_buffers = some pf1 ∧ pf1.m_block_count = N ∧
      ∀ j, j < N * sample_block_size → pf1.samples j = gb.samples j := by
  have h16b := h16
  obtain ⟨pst, hpst⟩ := front_eq_some_of_ne_nil p.m_processing_stages (List.length_pos.mp hst)
  have hgv : gb.valid := hg.2 gb (back_mem hgb)
  have hc : pf.m_block_count = gb.m_block_count := by rw [hNg, hNp]
  obtain ⟨p1, d, gf, h1, h2, _, h4, h5, _⟩ := generator_flush_spec p gb pf pst hgb hpf hpst hgv hc
  obtain ⟨d0, hd0, hdc, _, hsame⟩ := audio_ring_buffer.copy_to_same_count gb pf hgv hc
  have hdd : d = d0 := outcome.ok.inj (h1.symm.trans hd0)
  have hstep := p.generator_flush_step_of_true (flush_condition_of_holds _ _ hg hp hcond)
  refine ⟨p1, _, hstep.trans h2, h4, h5, ?_, ?_⟩
  · show d.m_block_count = N
    rw [hdd, hdc, hNp]
  · intro j hj
    simp only [sample_block_size] at h32 hj
    show d.samples j = gb.samples j
    rw [hdd]
    exact (hsame (by rw [hNg]; exact h32)).1 j (by rw [hNg]; exact hj)

theorem generator_flush_copies_tail_witness :
    ∃ p1 pf1, flush_example.generator_flush_step = outcome.ok p1 ∧
      p1.m_state.generator_flush_count = 1 ∧
      front p1.m_processing_buffers = some pf1 ∧ pf1.m_block_count = 16 ∧
      ∀ j, j < 16 * sample_block_size → pf1.samples j = j + 1 :=
  generator_flush_copies_tail flush_example 16
    ⟨16, fun _ => 255, fun j => j + 1⟩ ⟨16, fun _ => 0, fun _ => 0⟩
    rfl rfl rfl rfl (by decide) (by decide) (by decide) (by decide) (by decide)
    ⟨_, _, _, rfl, rfl, rfl, fun _ _ => rfl, fun _ _ => rfl, fun _ _ => rfl⟩

/-- C4 as stated fails for N = 8947856: `N * 480 = 4294970880` is passed to the
`uint32_t` parameter `samples_range` as 3584, and the flush leaves in sample 0 of the first
processing buffer the generator sample 4294967296, not the generator sample 0. -/
theorem generator_flush_truncates_wide_buffer :
    ∃ gb pf p1 pf1,
      back wide_example.m_generator_buffers = some gb ∧
      front wide_example.m_processing_buffers = some pf ∧
      gb.m_block_count = 8947856 ∧ pf.m_block_count = 8947856 ∧ 8947856 % 16 = 0 ∧
      flush_condition_holds wide_example.m_generator_buffers
        wide_example.m_processing_buffers ∧
      wide_example.generator_flush_step = outcome.ok p1 ∧
      front p1.m_processing_buffers = some pf1 ∧
      pf1.samples 0 = gb.samples 4294967296 ∧ pf1.samples 0 ≠ gb.samples 0 := by
  have hcond : flush_condition_holds wide_example.m_generator_buffers
      wide_example.m_processing_buffers :=
    ⟨_, _, _, rfl, rfl, rfl, fun _ _ => rfl, fun _ _ => rfl, fun _ _ => rfl⟩
  have hg : group_ok wide_example.m_generator_buffers := by decide
  have hp : group_ok wide_example.m_processing_buffers := by decide
  have hstep := wide_example.generator_flush_step_of_true
    (flush_condition_of_holds _ _ hg hp hcond)
  obtain ⟨p1, d, gf, h1, h2, _, _, h5, _⟩ := generator_flush_spec wide_example
    ⟨8947856, fun _ => 255, fun j => if j = 0 then 1 else 0⟩
    ⟨8947856, fun _ => 0, fun _ => 0⟩ (example_stage 1 0 255) rfl rfl rfl (by decide) rfl
  have hcopy := audio_ring_buffer.copy_slice_to_ok
    ⟨8947856, fun _ => 255, fun j => if j = 0 then 1 else 0⟩
    ⟨8947856, fun _ => 0, fun _ => 0⟩ 0 0 3584 3584 3584
    (by decide) (by decide) (by decide) (by decide) (by decide) (by decide) (by decide)
    (by decide) (by decide)
  have hto : audio_ring_buffer.copy_to
      ⟨8947856, fun _ => 255, fun j => if j = 0 then 1 else 0⟩
      ⟨8947856, fun _ => 0, fun _ => 0⟩ 0 =
      audio_ring_buffer.copy_slice_to
        ⟨8947856, fun _ => 255, fun j => if j = 0 then 1 else 0⟩
        ⟨8947856, fun _ => 0, fun _ => 0⟩ 0 0 3584 := rfl
  rw [hto, hcopy] at h1
  have hd := outcome.ok.inj h1
  refine ⟨_, _, p1, _, rfl, rfl, rfl, rfl, by decide, hcond, hstep.trans h2, h5, ?_, ?_⟩
  · rw [← hd]; decide
  · rw [← hd]; decide

/-! ## Slice copy contracts -/

/-- C2 at a failing input: copying the 480 samples at position 0 of a 16-block source to
position 0 of a 16-block destination returns, and sample 0 of the destination then holds
the source sample 7200, the first of the last 480 samples of the source, and not the
source sample 0; the state of block 0 is taken from source block 0. -/
theorem copy_slice_to_starts_at_buffer_end :
    slice_source.valid ∧ 0 < slice_source.m_block_count * 480 ∧
    ∃ d, slice_source.copy_slice_to slice_dest 0 0 480 = outcome.ok d ∧
      d.samples ((0 + 0) % (slice_dest.m_block_count * 480)) = slice_source.samples 7200 ∧
      d.samples ((0 + 0) % (slice_dest.m_block_count * 480)) ≠
        slice_source.samples ((0 + 0) % (slice_source.m_block_count * 480)) ∧
      d.states 0 = slice_source.states 0 :=
  ⟨by decide, by decide, _,
    audio_ring_buffer.copy_slice_to_ok slice_source slice_dest 0 0 480 480 480
      (by decide) (by decide) (by decide) (by decide) (by decide) (by decide) (by decide)
      (by decide) (by decide),
    by decide, by decide, by decide⟩

/-- C10: for an existing source buffer of N blocks, a destination buffer of M blocks and
every from, to, range, `copy_slice_to` throws exactly when `range > min(N, M) * 480`; the
exception is then the range error, thrown with the destination as it was passed in (the
source is `const`). -/
theorem copy_slice_to_range_error (self dest : audio_ring_buffer)
    (sample_idx_from sample_idx_to samples_range : Nat) (hv : self.valid) :
    ((∃ e d, self.copy_slice_to dest sample_idx_from sample_idx_to samples_range =
        outcome.thrown e d) ↔
      samples_range > min self.m_block_count dest.m_block_count * sample_block_size) ∧
    (self.copy_slice_to dest sample_idx_from sample_idx_to samples_range =
        outcome.thrown exception.samples_range_too_large dest ↔
      samples_range > min self.m_block_count dest.m_block_count * sample_block_size) ∧
    (∀ e d, self.copy_slice_to dest sample_idx_from sample_idx_to samples_range =
        outcome.thrown e d → e = exception.samples_range_too_large ∧ d = dest) := by
  obtain ⟨hN, h16, _⟩ := hv
  have hst : audio_ring_buffer_storage self.m_block_count = none := by
    simp [audio_ring_buffer_storage, hN, h16]
  have hmin : min (self.m_block_count * sample_block_size)
      (dest.m_block_count * sample_block_size) =
      min self.m_block_count dest.m_block_count * sample_block_size := by
    simp only [sample_block_size]; omega
  by_cases h : samples_range > min self.m_block_count dest.m_block_count * sample_block_size
  · have e : self.copy_slice_to dest sample_idx_from sample_idx_to samples_range =
        outcome.thrown exception.samples_range_too_large dest := by
      unfold audio_ring_buffer.copy_slice_to
      simp only []
      rw [if_pos (by rw [hmin]; exact h)]
    rw [e]
    refine ⟨⟨fun _ => h, fun _ => ⟨_, _, rfl⟩⟩, ⟨fun _ => h, fun _ => rfl⟩, ?_⟩
    intro e' d' he
    cases he
    exact ⟨rfl, rfl⟩
  · have e : ∀ e d, self.copy_slice_to dest sample_idx_from sample_idx_to samples_range ≠
        outcome.thrown e d := by
      intro e' d'
      unfold audio_ring_buffer.copy_slice_to
      simp only []
      rw [if_neg (by rw [hmin]; exact h)]
      simp only [hst]
      split
      · intro hc; cases hc
      · split
        · intro hc; cases hc
        · intro hc; cases hc
    refine ⟨⟨fun ⟨e', d', he⟩ => absurd he (e e' d'), fun hh => absurd hh h⟩,
      ⟨fun he => absurd he (e _ _), fun hh => absurd hh h⟩, ?_⟩
    intro e' d' he
    exact absurd he (e e' d')

theorem copy_slice_to_range_error_witness :
    slice_source.valid ∧
    slice_source.copy_slice_to slice_dest 0 0 7681 =
      outcome.thrown exception.samples_range_too_large slice_dest :=
  ⟨by decide,
    (copy_slice_to_range_error slice_source slice_dest 0 0 7681 (by decide)).2.1.mpr
      (by decide)⟩

/-! ## The stage worker -/

theorem block_index_natCast (b : audio_ring_buffer) (n : Nat) :
    b.block_index (n : Int) = n % b.m_block_count := by
  unfold audio_ring_buffer.block_index
  rw [size_t_of_int_natCast]

/-- The match scan finds the lowest block holding `s` when that block lies below
`2 ^ 31`. -/
theorem get_first_match_idx_of_exists_low (b : audio_ring_buffer) (s : sample_state)
    (h16 : b.m_block_count % 16 = 0) (hN : b.m_block_count ≤ 2 ^ 64 - 2 ^ 31)
    (hex : ∃ i, i < b.m_block_count ∧ i < 2 ^ 31 ∧ b.states i = s) :
    ∃ i : Nat, b.get_first_match_idx s = (i : Int) ∧ i < b.m_block_count ∧ i < 2 ^ 31 ∧
      b.states i = s ∧ ∀ j, j < i → b.states j ≠ s := by
  rw [audio_ring_buffer.get_first_match_idx_eq_scalar_min b s h16 hN]
  rcases scalar_search_spec (fun i => decide (b.states i = s)) 0
      (min b.m_block_count (2 ^ 31))
    with ⟨_, h2⟩ | ⟨m, h1, _, h3, h4, h5⟩
  · obtain ⟨i, hi, hi31, hs⟩ := hex
    have := h2 i (by omega) (by omega)
    simp [hs] at this
  · exact ⟨m, h1, by omega, by omega, by simpa using h4,
      fun j hj => by simpa using h5 j (by omega) hj⟩

/-- The match scan returns `-1` when no block below `2 ^ 31` holds `s`. -/
theorem get_first_match_idx_of_none_low (b : audio_ring_buffer) (s : sample_state)
    (h16 : b.m_block_count % 16 = 0) (hN : b.m_block_count ≤ 2 ^ 64 - 2 ^ 31)
    (hno : ∀ i, i < b.m_block_count → i < 2 ^ 31 → b.states i ≠ s) :
    b.get_first_match_idx s = -1 := by
  rw [audio_ring_buffer.get_first_match_idx_eq_scalar_min b s h16 hN]
  rcases scalar_search_spec (fun i => decide (b.states i = s)) 0
      (min b.m_block_count (2 ^ 31))
    with ⟨h1, _⟩ | ⟨m, _, _, h3, h4, _⟩
  · exact h1
  · exact absurd (by simpa using h4) (hno m (by omega) (by omega))

/-- With at most `2 ^ 31` blocks the match scan finds the lowest block holding `s` when
there is one. -/
theorem get_first_match_idx_of_exists (b : audio_ring_buffer) (s : sample_state)
    (h16 : b.m_block_count % 16 = 0) (h31 : b.m_block_count ≤ 2 ^ 31)
    (hex : ∃ i, i < b.m_block_count ∧ b.states i = s) :
    ∃ i : Nat, b.get_first_match_idx s = (i : Int) ∧ i < b.m_block_count ∧ b.states i = s ∧
      ∀ j, j < i → b.states j ≠ s := by
  rw [audio_ring_buffer.get_first_match_idx_eq_scalar b s h16 h31]
  rcases scalar_search_spec (fun i => decide (b.states i = s)) 0 b.m_block_count
    with ⟨_, h2⟩ | ⟨m, h1, _, h3, h4, h5⟩
  · obtain ⟨i, hi, hs⟩ := hex
    have := h2 i (by omega) (by omega)
    simp [hs] at this
  · exact ⟨m, h1, by omega, by simpa using h4, fun j hj => by simpa using h5 j (by omega) hj⟩

/-- The match scan returns `-1` when no block holds `s`, whatever the block count. -/
theorem get_first_match_idx_of_none (b : audio_ring_buffer) (s : sample_state)
    (h16 : b.m_block_count % 16 = 0) (hno : ∀ i, i < b.m_block_count → b.states i ≠ s) :
    b.get_first_match_idx s = -1 :=
  audio_ring_buffer.get_first_match_idx_loop_of_none b s h16 hno b.m_block_count 0
    (by decide)

namespace audio_pipeline

theorem buffers_set_buffers (p : audio_pipeline) (g : stage_group)
    (v : List audio_ring_buffer) : (p.set_buffers g v).buffers g = v := by
  cases g <;> rfl

theorem get_block_store_block_state (b : audio_ring_buffer) (idx idx2 : Int)
    (s : sample_state) : (b.store_block_state idx s).get_block idx2 = b.get_block idx2 := rfl

/-- A worker iteration that finds a block in the entry state, written out: the stores it
performs, in order, on the buffers of its group. -/
theorem stage_worker_iteration_claim (p : audio_pipeline) (g : stage_group) (k : Nat)
    (stage : pipeline_stage) (from_b to_b gen_back : audio_ring_buffer) (i : Nat)
    (hstage : (p.stages g)[k]? = some stage)
    (hexec : p.m_state.execution_state = EXECUTING) (hfl : stage.m_flushing = false)
    (hfrom : (p.buffers g)[stage.m_in_buffer_idx]? = some from_b)
    (hto : (p.buffers g)[stage.m_out_buffer_idx]? = some to_b)
    (hgen : back p.m_generator_buffers = some gen_back)
    (hidx : from_b.get_first_match_idx stage.m_entry_block_state = (i : Int))
    (hi : i < from_b.m_block_count)
    (hs : from_b.states i = stage.m_entry_block_state)
    (hsum : i + stage.m_offset < 2 ^ 31) :
    ∃ p1 from1 to1,
      p.stage_worker_iteration g k = some p1 ∧
      (p1.buffers g)[stage.m_in_buffer_idx]? = some from1 ∧
      (p1.buffers g)[stage.m_out_buffer_idx]? = some to1 ∧
      from1.m_block_count = from_b.m_block_count ∧ to1.m_block_count = to_b.m_block_count ∧
      from1.states ((i + stage.m_offset) % from_b.m_block_count) =
        (stage.process_block p.m_state (from_b.get_block (i : Int))
          (to_b.get_block ((i + stage.m_offset : Nat) : Int))
          (int_of_uint64 ((p.m_state.generator_flush_count * gen_back.m_block_count +
            (i + stage.m_offset)) % 2 ^ 64))).1 ∧
      to1.states ((i + stage.m_offset) % to_b.m_block_count) =
        (stage.process_block p.m_state (from_b.get_block (i : Int))
          (to_b.get_block ((i + stage.m_offset : Nat) : Int))
          (int_of_uint64 ((p.m_state.generator_flush_count * gen_back.m_block_count +
            (i + stage.m_offset)) % 2 ^ 64))).1 ∧
      (∀ j, j < sample_block_size →
        to1.get_block ((i + stage.m_offset : Nat) : Int) j =
          (stage.process_block p.m_state (from_b.get_block (i : Int))
            (to_b.get_block ((i + stage.m_offset : Nat) : Int))
            (int_of_uint64 ((p.m_state.generator_flush_count * gen_back.m_block_count +
              (i + stage.m_offset)) % 2 ^ 64))).2 j) ∧
      (i ≠ (i + stage.m_offset) % from_b.m_block_count →
        from1.states i = sample_block_state_processing) := by
  have hin : stage.m_in_buffer_idx < (p.buffers g).length :=
    (List.getElem?_eq_some.mp hfrom).1
  have hout : stage.m_out_buffer_idx < (p.buffers g).length :=
    (List.getElem?_eq_some.mp hto).1
  have hcas : from_b.get_block_state (i : Int) = stage.m_entry_block_state := by
    unfold audio_ring_buffer.get_block_state
    rw [block_index_natCast, Nat.mod_eq_of_lt hi, hs]
  have hdst : int_add (i : Int) (stage.m_offset : Int) = ((i + stage.m_offset : Nat) : Int) :=
    int_add_natCast i stage.m_offset hsum
  have hbi : from_b.block_index (i : Int) = i := by
    rw [block_index_natCast, Nat.mod_eq_of_lt hi]
  unfold stage_worker_iteration
  simp only [hstage, hfrom, hto, hexec, hfl, hidx, hcas, hdst, Option.bind_eq_bind,
    Option.some_bind, Option.pure_def, and_self, if_true, decide_True, hgen,
    size_t_of_int_natCast]
  obtain ⟨R, hR⟩ : ∃ R, R = stage.process_block p.m_state (from_b.get_block (i : Int))
      (to_b.get_block ((i + stage.m_offset : Nat) : Int))
      (int_of_uint64 ((p.m_state.generator_flush_count * gen_back.m_block_count +
        (i + stage.m_offset)) % 2 ^ 64)) := ⟨_, rfl⟩
  simp only [← hR]
  by_cases e : stage.m_in_buffer_idx = stage.m_out_buffer_idx
  · have hft : from_b = to_b := by
      rw [e] at hfrom
      exact Option.some.inj (hfrom.symm.trans hto)
    subst hft
    simp only [← e, List.getElem?_set, List.length_set, hin, if_true, Option.some_bind,
      get_block_store_block_state, ← hR]
    have hget : ∀ (l : List audio_ring_buffer) (x : audio_ring_buffer),
        stage.m_in_buffer_idx < l.length →
        ((p.set_buffers g (l.set stage.m_in_buffer_idx x)).buffers g)[stage.m_in_buffer_idx]? =
          some x := by
      intro l x hl
      rw [buffers_set_buffers, List.getElem?_set, if_pos rfl, if_pos hl]
    refine ⟨_, _, _, rfl, hget _ _ (by simp only [List.length_set]; exact hin),
      hget _ _ (by simp only [List.length_set]; exact hin), rfl, rfl, ?_, ?_, ?_, ?_⟩
    · simp only [audio_ring_buffer.store_block_state, audio_ring_buffer.store_block,
        audio_ring_buffer.block_index, size_t_of_int_natCast, if_true]
    · simp only [audio_ring_buffer.store_block_state, audio_ring_buffer.store_block,
        audio_ring_buffer.block_index, size_t_of_int_natCast, if_true]
    · intro j hj
      simp only [audio_ring_buffer.get_block, audio_ring_buffer.store_block_state,
        audio_ring_buffer.store_block, audio_ring_buffer.block_index, size_t_of_int_natCast]
      rw [if_pos (by omega)]
      simp only [Nat.add_sub_cancel_left]
    · intro hne
      simp only [audio_ring_buffer.store_block_state, audio_ring_buffer.store_block,
        audio_ring_buffer.block_index, size_t_of_int_natCast]
      rw [if_neg hne, if_neg hne, Nat.mod_eq_of_lt hi]
      simp
  · have e2 : ¬ stage.m_out_buffer_idx = stage.m_in_buffer_idx := fun h => e h.symm
    simp only [List.getElem?_set, List.length_set, hin, hout, if_true, e, e2, if_false,
      Option.some_bind, hto, get_block_store_block_state, ← hR]
    refine ⟨_, (from_b.store_block_state (i : Int) sample_block_state_processing).store_block_state
        ((i + stage.m_offset : Nat) : Int) R.1,
      (to_b.store_block ((i + stage.m_offset : Nat) : Int) R.2).store_block_state
        ((i + stage.m_offset : Nat) : Int) R.1, rfl, ?_, ?_, rfl, rfl, ?_, ?_, ?_, ?_⟩
    · rw [buffers_set_buffers]
      simp only [List.getElem?_set, List.length_set, hin, hout, if_true, e, e2, if_false]
    · rw [buffers_set_buffers]
      simp only [List.getElem?_set, List.length_set, hin, hout, if_true, e, e2, if_false]
    · simp only [audio_ring_buffer.store_block_state, audio_ring_buffer.store_block,
        audio_ring_buffer.block_index, size_t_of_int_natCast, if_true]
    · simp only [audio_ring_buffer.store_block_state, audio_ring_buffer.store_block,
        audio_ring_buffer.block_index, size_t_of_int_natCast, if_true]
    · intro j hj
      simp only [audio_ring_buffer.get_block, audio_ring_buffer.store_block_state,
        audio_ring_buffer.store_block, audio_ring_buffer.block_index, size_t_of_int_natCast]
      rw [if_pos (by omega)]
      simp only [Nat.add_sub_cancel_left]
    · intro hne
      simp only [audio_ring_buffer.store_block_state, audio_ring_buffer.store_block,
        audio_ring_buffer.block_index, size_t_of_int_natCast]
      rw [if_neg hne, Nat.mod_eq_of_lt hi]
      simp

end audio_pipeline
/-! ## Worker contracts -/

/-- A worker iteration whose scan returns `-1` and whose compare-exchange, on the block
`get_block_state(-1)` addresses, finds another byte than the entry state, returns the
pipeline as it was. -/
theorem stage_worker_iteration_of_failed_exchange (p : audio_pipeline) (g : stage_group)
    (k : Nat) (stage : pipeline_stage) (from_b to_b : audio_ring_buffer)
    (hstage : (p.stages g)[k]? = some stage)
    (hfrom : (p.buffers g)[stage.m_in_buffer_idx]? = some from_b)
    (hto : (p.buffers g)[stage.m_out_buffer_idx]? = some to_b)
    (hidx : from_b.get_first_match_idx stage.m_entry_block_state = -1)
    (hne : from_b.get_block_state (-1) ≠ stage.m_entry_block_state) :
    p.stage_worker_iteration g k = some p := by
  unfold audio_pipeline.stage_worker_iteration
  simp only [hstage, hfrom, hto, hidx, Option.bind_eq_bind, Option.some_bind,
    Option.pure_def, hne, decide_False]
  split <;> rfl

/-- C5 (amended): a worker iteration run alone, the pipeline `EXECUTING` and the stage not flushing,
over an input and an output buffer of N blocks (N divisible by 16, `N + offset` at most
`2 ^ 31`, so that every index and the sum `idx + offset` are exact in an `int`) where some
block of the input buffer has the entry state: the scan returns the lowest such index i, the claim is
made on block i, `process_block` is called on input block i and output block
`d = (i + offset) % N`, the iteration returns, and afterwards the state at index d of the
input buffer and of the output buffer is the byte `process_block` returned, the samples of
output block d being those `process_block` left. -/
theorem stage_worker_claims_lowest (p : audio_pipeline) (g : stage_group) (k N : Nat)
    (stage : pipeline_stage) (from_b to_b : audio_ring_buffer)
    (hstage : (p.stages g)[k]? = some stage)
    (hexec : p.m_state.execution_state = EXECUTING) (hfl : stage.m_flushing = false)
    (hfrom : (p.buffers g)[stage.m_in_buffer_idx]? = some from_b)
    (hto : (p.buffers g)[stage.m_out_buffer_idx]? = some to_b)
    (hNf : from_b.m_block_count = N) (hNt : to_b.m_block_count = N) (h16 : N % 16 = 0)
    (h31 : N + stage.m_offset ≤ 2 ^ 31)
    (hgen : 0 < p.m_generator_buffers.length)
    (hex : ∃ i, i < N ∧ from_b.states i = stage.m_entry_block_state) :
    ∃ (i : Nat) (gen_back : audio_ring_buffer) (p1 : audio_pipeline)
      (from1 to1 : audio_ring_buffer),
      back p.m_generator_buffers = some gen_back ∧
      from_b.get_first_match_idx stage.m_entry_block_state = (i : Int) ∧
      i < N ∧ from_b.states i = stage.m_entry_block_state ∧
      (∀ j, j < i → from_b.states j ≠ stage.m_entry_block_state) ∧
      from_b.block_index (i : Int) = i ∧
      to_b.block_index ((i : Int) + (stage.m_offset : Int)) = (i + stage.m_offset) % N ∧
      p.stage_worker_iteration g k = some p1 ∧
      (p1.buffers g)[stage.m_in_buffer_idx]? = some from1 ∧
      (p1.buffers g)[stage.m_out_buffer_idx]? = some to1 ∧
      from1.m_block_count = N ∧ to1.m_block_count = N ∧
      from1.states ((i + stage.m_offset) % N) =
        (stage.process_block p.m_state (from_b.get_block (i : Int))
          (to_b.get_block ((i : Int) + (stage.m_offset : Int)))
          (int_of_uint64 ((p.m_state.generator_flush_count * gen_back.m_block_count +
            (i + stage.m_offset)) % 2 ^ 64))).1 ∧
      to1.states ((i + stage.m_offset) % N) =
        (stage.process_block p.m_state (from_b.get_block (i : Int))
          (to_b.get_block ((i : Int) + (stage.m_offset : Int)))
          (int_of_uint64 ((p.m_state.generator_flush_count * gen_back.m_block_count +
            (i + stage.m_offset)) % 2 ^ 64))).1 ∧
      (∀ j, j < sample_block_size →
        to1.samples ((i + stage.m_offset) % N * sample_block_size + j) =
          (stage.process_block p.m_state (from_b.get_block (i : Int))
            (to_b.get_block ((i : Int) + (stage.m_offset : Int)))
            (int_of_uint64 ((p.m_state.generator_flush_count * gen_back.m_block_count +
              (i + stage.m_offset)) % 2 ^ 64))).2 j) := by
  obtain ⟨gen_back, hgb⟩ := back_eq_some_of_ne_nil _ (List.length_pos.mp hgen)
  obtain ⟨i, hidx, hi, hs, hlow⟩ := get_first_match_idx_of_exists from_b
    stage.m_entry_block_state (by rw [hNf]; exact h16) (by rw [hNf]; omega)
    (by rw [hNf]; exact hex)
  have hsum : i + stage.m_offset < 2 ^ 31 := by
    rw [hNf] at hi
    omega
  obtain ⟨p1, from1, to1, h1, h2, h3, h4, h5, h6, h7, h8, _⟩ :=
    audio_pipeline.stage_worker_iteration_claim p g k stage from_b to_b gen_back i
      hstage hexec hfl hfrom hto hgb hidx hi hs hsum
  have hdst : ((i : Int) + (stage.m_offset : Int)) = ((i + stage.m_offset : Nat) : Int) := by
    push_cast; rfl
  refine ⟨i, gen_back, p1, from1, to1, ?_⟩
  rw [hdst]
  rw [hNf] at h6 hi
  rw [hNt] at h7
  refine ⟨hgb, hidx, hi, hs, hlow, ?_, ?_, h1, h2, h3,
    h4.trans hNf, h5.trans hNt, h6, h7, ?_⟩
  · rw [block_index_natCast, hNf, Nat.mod_eq_of_lt hi]
  · rw [block_index_natCast, hNt]
  · intro j hj
    have h := h8 j hj
    simp only [audio_ring_buffer.get_block, block_index_natCast, h5, hNt] at h
    exact h

theorem stage_worker_claims_lowest_witness :
    ∃ p1 from1, offset_example.stage_worker_iteration stage_group.generator 0 = some p1 ∧
      (p1.buffers stage_group.generator)[0]? = some from1 ∧ from1.states 1 = 2 := by
  obtain ⟨i, _, p1, from1, _, _, h1, _, _, hlow, _, _, h7, h8, _, _, _, h12, _⟩ :=
    stage_worker_claims_lowest offset_example stage_group.generator 0 16
      (example_stage 1 1 2) ⟨16, fun i => if i = 0 then 1 else 0, fun j => j⟩
      ⟨16, fun i => if i = 0 then 1 else 0, fun j => j⟩
      rfl rfl rfl rfl rfl rfl rfl (by decide) (by decide) (by decide) ⟨0, by decide, rfl⟩
  have hi : i = 0 := by
    by_contra hne
    exact hlow 0 (Nat.pos_of_ne_zero hne) rfl
  subst hi
  exact ⟨p1, from1, h7, h8, h12⟩

/-- C5 as stated fails for N = 2 ^ 31 + 16: the pipeline is `EXECUTING`, the stage is not
flushing and block `2 ^ 31` of the input buffer has the entry state 7, but the scan returns
`-1`, its `int` counter having wrapped before it reached the block; the compare-exchange
addresses block `(2 ^ 64 - 1) % N = 1023`, whose state is not 7, and fails; the iteration
claims nothing and returns the pipeline as it was. -/
theorem stage_worker_misses_wide_block :
    wide_claim_example.m_state.execution_state = EXECUTING ∧
    (wide_claim_example.stages stage_group.generator)[0]? = some (example_stage 7 0 2) ∧
    (example_stage 7 0 2).m_flushing = false ∧
    (wide_claim_example.buffers stage_group.generator)[0]? = some wide_scan_example ∧
    wide_scan_example.m_block_count % 16 = 0 ∧
    (∃ i, i < wide_scan_example.m_block_count ∧
      wide_scan_example.states i = (example_stage 7 0 2).m_entry_block_state) ∧
    wide_scan_example.get_first_match_idx (example_stage 7 0 2).m_entry_block_state = -1 ∧
    wide_scan_example.block_index (-1) = 1023 ∧
    wide_scan_example.get_block_state (-1) ≠ (example_stage 7 0 2).m_entry_block_state ∧
    wide_claim_example.stage_worker_iteration stage_group.generator 0 =
      some wide_claim_example := by
  have hidx : wide_scan_example.get_first_match_idx
      (example_stage 7 0 2).m_entry_block_state = -1 := by
    refine get_first_match_idx_of_none_low wide_scan_example _ (by decide) (by decide) ?_
    intro i _ hi
    have hne : ¬ i = 2 ^ 31 := by omega
    show (if i = 2 ^ 31 then 7 else 0) ≠ 7
    rw [if_neg hne]
    decide
  have hne : wide_scan_example.get_block_state (-1) ≠
      (example_stage 7 0 2).m_entry_block_state := by decide
  exact ⟨rfl, rfl, rfl, rfl, by decide, ⟨2 ^ 31, by decide, by decide⟩, hidx, by decide, hne,
    stage_worker_iteration_of_failed_exchange wide_claim_example
      stage_group.generator 0 (example_stage 7 0 2) wide_scan_example wide_scan_example
      rfl rfl rfl hidx hne⟩

/-- C6 at a failing input: a stage of offset 1 over a 16-block buffer claims block 0; when
the iteration has completed, the state of block 0 is still `PROCESSING` (0xFE) and not the
byte 2 that `process_block` returned, which was stored at index 1. -/
theorem stage_worker_leaves_claimed_block_processing :
    ∃ p1 from1, offset_example.stage_worker_iteration stage_group.generator 0 = some p1 ∧
      (p1.buffers stage_group.generator)[0]? = some from1 ∧
      from1.states 0 = sample_block_state_processing ∧
      from1.states 0 ≠ 2 ∧ from1.states 1 = 2 := by
  obtain ⟨p1, from1, _, h1, h2, _, _, _, h6, _, _, h9⟩ :=
    audio_pipeline.stage_worker_iteration_claim offset_example stage_group.generator 0
      (example_stage 1 1 2) ⟨16, fun i => if i = 0 then 1 else 0, fun j => j⟩
      ⟨16, fun i => if i = 0 then 1 else 0, fun j => j⟩
      ⟨16, fun i => if i = 0 then 1 else 0, fun j => j⟩ 0
      rfl rfl rfl rfl rfl rfl (by decide) (by decide) rfl (by decide)
  have h0 := h9 (by decide)
  exact ⟨p1, from1, h1, h2, h0, by rw [h0]; decide, h6⟩

/-! ## Construction -/

/-- The constructor returns the cleared buffer when the checks pass, the byte count fits
`size_t` and the allocator returns the storage. -/
theorem construct_ok (heap N : Nat) (raw_states : Nat → sample_state)
    (raw_samples : Nat → sample) (h0 : N ≠ 0) (h16 : N % 16 = 0)
    (hsz : allocation_size N < 2 ^ 64) (ha : allocate heap (allocation_size N) = true) :
    audio_ring_buffer.construct heap N raw_states raw_samples =
      some (Except.ok (audio_ring_buffer.clear ⟨N, raw_states, raw_samples⟩)) := by
  unfold audio_ring_buffer.construct audio_ring_buffer_storage
  rw [if_neg h0, if_neg (by omega)]
  simp only []
  rw [Nat.mod_eq_of_lt hsz, if_pos ha, if_pos hsz]

/-- C11 (amended): constructing a ring buffer with block count N throws one of the two
invalid-size errors exactly when `N = 0` or `N % 16 ≠ 0`, whatever the heap. For every
other N whose byte count `15 + N + N * 1920` is below `2 ^ 64`, the construction returns a
buffer whose block count is N when the allocator returns the storage, and throws
`std::bad_alloc` when it does not. -/
theorem construct_invalid_size_iff (heap N : Nat) (raw_states : Nat → sample_state)
    (raw_samples : Nat → sample) :
    ((∃ e, audio_ring_buffer.construct heap N raw_states raw_samples =
          some (Except.error e) ∧
        (e = exception.block_count_zero ∨ e = exception.block_count_not_multiple_of_16)) ↔
      (N = 0 ∨ N % 16 ≠ 0)) ∧
    (¬ (N = 0 ∨ N % 16 ≠ 0) → allocation_size N < 2 ^ 64 →
      (allocate heap (allocation_size N) = true →
        ∃ b, audio_ring_buffer.construct heap N raw_states raw_samples =
            some (Except.ok b) ∧ b.m_block_count = N ∧ b.valid) ∧
      (allocate heap (allocation_size N) = false →
        audio_ring_buffer.construct heap N raw_states raw_samples =
          some (Except.error exception.bad_alloc))) := by
  unfold audio_ring_buffer.construct audio_ring_buffer_storage
  by_cases h0 : N = 0
  · simp [h0]
  · by_cases h16 : N % 16 = 0
    · simp only [h0, h16, if_false, ne_eq, not_true_eq_false, or_self, not_false_eq_true,
        true_implies, iff_false, not_exists, not_and]
      refine ⟨?_, ?_⟩
      · intro e he
        split at he
        · split at he
          · cases he
          · cases he
        · cases he
          decide
      · intro hsz
        rw [Nat.mod_eq_of_lt hsz]
        refine ⟨fun ha => ?_, fun ha => ?_⟩
        · rw [if_pos ha, if_pos hsz]
          exact ⟨_, rfl, rfl, h0, h16, hsz⟩
        · rw [if_neg (by rw [ha]; decide)]
    · simp [h0, h16]

theorem construct_invalid_size_iff_witness :
    ∃ b, audio_ring_buffer.construct (2 ^ 20) 16 (fun i => i + 1) (fun j => j) =
      some (Except.ok b) ∧ b.m_block_count = 16 ∧ b.valid :=
  ((construct_invalid_size_iff (2 ^ 20) 16 (fun i => i + 1) (fun j => j)).2 (by decide)
    (by decide)).1 (by decide)

/-- C11 as stated fails for N = 2 ^ 63, which is neither 0 nor indivisible by 16: the byte
count `15 + N + N * 1920` wraps in `size_t` to `2 ^ 63 + 15`, more than any object may
hold, and the construction throws `std::bad_alloc` on every heap instead of returning a
buffer. The same happens for N = 16 on a heap that cannot hand out the 30751 bytes. -/
theorem construct_throws_bad_alloc :
    ¬ ((2 : Nat) ^ 63 = 0 ∨ 2 ^ 63 % 16 ≠ 0) ∧
    allocation_size (2 ^ 63) % 2 ^ 64 = 2 ^ 63 + 15 ∧
    (∀ (heap : Nat) (raw_states : Nat → sample_state) (raw_samples : Nat → sample),
      audio_ring_buffer.construct heap (2 ^ 63) raw_states raw_samples =
        some (Except.error exception.bad_alloc)) ∧
    allocation_size 16 = 30751 ∧
    (∀ (raw_states : Nat → sample_state) (raw_samples : Nat → sample),
      audio_ring_buffer.construct 30750 16 raw_states raw_samples =
        some (Except.error exception.bad_alloc)) := by
  refine ⟨by decide, by decide, ?_, by decide, ?_⟩
  · intro heap raw_states raw_samples
    have hst : audio_ring_buffer_storage (2 ^ 63) = none := by decide
    have hsz : allocation_size (2 ^ 63) % 2 ^ 64 = 2 ^ 63 + 15 := by decide
    have ha : ¬ allocate heap (2 ^ 63 + 15) = true := by
      unfold allocate ptrdiff_max
      simp
    unfold audio_ring_buffer.construct
    simp only [hst, hsz]
    rw [if_neg ha]
  · intro raw_states raw_samples
    rfl

/-- C17: after `clear()` every one of the N block states of a ring buffer is `DEFAULT` and
every one of its N * 480 samples is the all-zero pattern, the block count being unchanged;
a buffer the constructor returns is in this state, whatever its allocation held. -/
theorem clear_zeroes_buffer (b : audio_ring_buffer) :
    (b.clear.m_block_count = b.m_block_count ∧
      (∀ i, i < b.m_block_count → b.clear.states i = sample_block_state_default) ∧
      (∀ j, j < b.m_block_count * sample_block_size → b.clear.samples j = 0)) ∧
    (∀ (heap N : Nat) (raw_states : Nat → sample_state) (raw_samples : Nat → sample)
        (c : audio_ring_buffer),
      audio_ring_buffer.construct heap N raw_states raw_samples = some (Except.ok c) →
      c.m_block_count = N ∧
      (∀ i, i < N → c.states i = sample_block_state_default) ∧
      (∀ j, j < N * sample_block_size → c.samples j = 0)) := by
  refine ⟨⟨rfl, (cleared_clear b).1, (cleared_clear b).2⟩, ?_⟩
  intro heap N raw_states raw_samples c hc
  unfold audio_ring_buffer.construct at hc
  split at hc
  · cases hc
  · split at hc
    · split at hc
      · cases hc
        exact ⟨rfl, (cleared_clear ⟨N, raw_states, raw_samples⟩).1,
          (cleared_clear ⟨N, raw_states, raw_samples⟩).2⟩
      · cases hc
    · cases hc

theorem clear_zeroes_buffer_witness :
    (audio_ring_buffer.clear ⟨16, fun i => i + 1, fun j => j⟩).states 3 =
      sample_block_state_default :=
  ((clear_zeroes_buffer ⟨16, fun i => i + 1, fun j => j⟩).2 (2 ^ 20) 16 (fun i => i + 1)
    (fun j => j) (audio_ring_buffer.clear ⟨16, fun i => i + 1, fun j => j⟩)
    (construct_ok (2 ^ 20) 16 (fun i => i + 1) (fun j => j) (by decide) (by decide)
      (by decide) (by decide))).2.1 3 (by decide)

/-- C19: the default block count is `48000 / 480 = 100`, which is not divisible by 16;
the buffer constructor with its default argument throws the not-a-multiple-of-16 error
whatever the allocation would hold, and so does the three-argument pipeline constructor
for every three lists of stages. -/
theorem default_construction_throws :
    audio_ring_buffer.default_block_count = 100 ∧ 100 % 16 ≠ 0 ∧
    (∀ (heap : Nat) (raw_states : Nat → sample_state) (raw_samples : Nat → sample),
      audio_ring_buffer.construct heap audio_ring_buffer.default_block_count raw_states
        raw_samples = some (Except.error exception.block_count_not_multiple_of_16)) ∧
    (∀ (generator_stages processing_stages output_stages : List pipeline_stage)
        (heap : Nat → Nat) (raw_states : Nat → Nat → sample_state)
        (raw_samples : Nat → Nat → sample),
      audio_pipeline.construct_default generator_stages processing_stages output_stages
        heap raw_states raw_samples =
          some (Except.error exception.block_count_not_multiple_of_16)) := by
  have h : ∀ (heap : Nat) (raw_states : Nat → sample_state) (raw_samples : Nat → sample),
      audio_ring_buffer.construct heap audio_ring_buffer.default_block_count raw_states
        raw_samples = some (Except.error exception.block_count_not_multiple_of_16) := by
    intro heap raw_states raw_samples
    rfl
  refine ⟨by decide, by decide, h, ?_⟩
  intro gs ps os heap raw_states raw_samples
  simp only [audio_pipeline.construct_default, audio_pipeline.default_buffers, h]

/-! ## Flush counters -/

theorem flush_body_thrown_count (v v1 : flush_view) (e : exception)
    (h : flush_body v = outcome.thrown e v1) : v1.flush_count = v.flush_count + 1 := by
  unfold flush_body at h
  simp only [] at h
  split at h
  · split at h
    · cases h
    · cases h
      rfl
    · split at h
      · cases h
      · split at h
        · split at h
          · cases h
          · cases h
        · cases h
  · cases h

theorem flush_step_count (v v1 : flush_view) :
    (flush_step v = outcome.ok v1 → v.flush_count ≤ v1.flush_count) ∧
    (∀ e, flush_step v = outcome.thrown e v1 → v.flush_count ≤ v1.flush_count) := by
  unfold flush_step
  split
  · exact ⟨(fun h => by cases h), (fun e h => by cases h)⟩
  · exact ⟨(fun h => by rw [flush_body_count v v1 h]; omega),
      (fun e h => by rw [flush_body_thrown_count v v1 e h]; omega)⟩
  · exact ⟨(fun h => by cases h; exact le_refl _), (fun e h => by cases h)⟩

theorem counters_le_refl (p : audio_pipeline) : counters_le p p :=
  ⟨le_refl _, le_refl _, le_refl _⟩

theorem counters_le_trans {p q r : audio_pipeline} (h1 : counters_le p q)
    (h2 : counters_le q r) : counters_le p r :=
  ⟨le_trans h1.1 h2.1, le_trans h1.2.1 h2.2.1, le_trans h1.2.2 h2.2.2⟩

theorem generator_flush_step_counters (p p1 : audio_pipeline) :
    (p.generator_flush_step = outcome.ok p1 → counters_le p p1) ∧
    (∀ e, p.generator_flush_step = outcome.thrown e p1 → counters_le p p1) := by
  unfold audio_pipeline.generator_flush_step
  cases hs : flush_step p.generator_view with
  | ok v1 =>
    simp only [audio_pipeline.with_view]
    refine ⟨fun h => ?_, (fun e h => by cases h)⟩
    cases h
    exact ⟨(flush_step_count _ _).1 hs, le_refl _, le_refl _⟩
  | thrown e0 v1 =>
    simp only [audio_pipeline.with_view]
    refine ⟨(fun h => by cases h), fun e h => ?_⟩
    cases h
    exact ⟨(flush_step_count _ _).2 _ hs, le_refl _, le_refl _⟩
  | undefined =>
    simp only [audio_pipeline.with_view]
    exact ⟨(fun h => by cases h), (fun e h => by cases h)⟩

theorem processing_flush_step_counters (p p1 : audio_pipeline) :
    (p.processing_flush_step = outcome.ok p1 → counters_le p p1) ∧
    (∀ e, p.processing_flush_step = outcome.thrown e p1 → counters_le p p1) := by
  unfold audio_pipeline.processing_flush_step
  cases hs : flush_step p.processing_view with
  | ok v1 =>
    simp only [audio_pipeline.with_view]
    refine ⟨fun h => ?_, (fun e h => by cases h)⟩
    cases h
    exact ⟨le_refl _, (flush_step_count _ _).1 hs, le_refl _⟩
  | thrown e0 v1 =>
    simp only [audio_pipeline.with_view]
    refine ⟨(fun h => by cases h), fun e h => ?_⟩
    cases h
    exact ⟨le_refl _, (flush_step_count _ _).2 _ hs, le_refl _⟩
  | undefined =>
    simp only [audio_pipeline.with_view]
    exact ⟨(fun h => by cases h), (fun e h => by cases h)⟩

theorem set_buffers_m_state (p : audio_pipeline) (g : stage_group)
    (v : List audio_ring_buffer) : (p.set_buffers g v).m_state = p.m_state := by
  cases g <;> rfl

theorem stage_worker_iteration_m_state (p p1 : audio_pipeline) (g : stage_group) (k : Nat)
    (h : p.stage_worker_iteration g k = some p1) : p1.m_state = p.m_state := by
  unfold audio_pipeline.stage_worker_iteration at h
  simp only [Option.bind_eq_bind, Option.pure_def, Option.bind_eq_some] at h
  obtain ⟨_, _, _, _, _, _, h⟩ := h
  split at h
  · split at h
    · simp only [Option.bind_eq_some] at h
      obtain ⟨_, _, _, _, _, _, _, _, _, _, h⟩ := h
      cases h
      exact set_buffers_m_state _ _ _
    · cases h; rfl
  · cases h; rfl

/-- C16: across a supervisor iteration (returning normally, with or without a flush, or
leaving by an exception), a worker iteration, `stop` and `pause`, each of the
generator-flush, processing-flush and output-flush counters is at least its value before
the step. -/
theorem counters_monotone (p : audio_pipeline) :
    (∀ p1, p.run_iteration = outcome.ok p1 → counters_le p p1) ∧
    (∀ e p1, p.run_iteration = outcome.thrown e p1 → counters_le p p1) ∧
    (∀ g k p1, p.stage_worker_iteration g k = some p1 → counters_le p p1) ∧
    counters_le p p.stop ∧ counters_le p p.pause := by
  refine ⟨?_, ?_, ?_, counters_le_refl p, counters_le_refl p⟩
  · intro p1 h
    unfold audio_pipeline.run_iteration at h
    cases hg : p.generator_flush_step with
    | ok q =>
      rw [hg] at h
      exact counters_le_trans ((generator_flush_step_counters p q).1 hg)
        ((processing_flush_step_counters q p1).1 h)
    | thrown e q => rw [hg] at h; cases h
    | undefined => rw [hg] at h; cases h
  · intro e p1 h
    unfold audio_pipeline.run_iteration at h
    cases hg : p.generator_flush_step with
    | ok q =>
      rw [hg] at h
      exact counters_le_trans ((generator_flush_step_counters p q).1 hg)
        ((processing_flush_step_counters q p1).2 e h)
    | thrown e0 q =>
      rw [hg] at h
      cases h
      exact (generator_flush_step_counters p p1).2 e hg
    | undefined => rw [hg] at h; cases h
  · intro g k p1 h
    have hm := stage_worker_iteration_m_state p p1 g k h
    unfold counters_le
    rw [hm]
    exact ⟨le_refl _, le_refl _, le_refl _⟩

theorem counters_monotone_witness :
    ∃ p1, offset_example.stage_worker_iteration stage_group.generator 0 = some p1 ∧
      counters_le offset_example p1 := by
  obtain ⟨p1, _, _, h1, _⟩ :=
    audio_pipeline.stage_worker_iteration_claim offset_example stage_group.generator 0
      (example_stage 1 1 2) ⟨16, fun i => if i = 0 then 1 else 0, fun j => j⟩
      ⟨16, fun i => if i = 0 then 1 else 0, fun j => j⟩
      ⟨16, fun i => if i = 0 then 1 else 0, fun j => j⟩ 0
      rfl rfl rfl rfl rfl rfl (by decide) (by decide) rfl (by decide)
  exact ⟨p1, h1, (counters_monotone offset_example).2.2.1 _ _ p1 h1⟩

/-- C14 at its failing input: a delay stage constructed with 100 ms has offset 192, not
10: the constructor passes the delay in samples, 4800, to a `uint8_t` parameter. The
silence `init` seeds is 4800 samples, that is 10 blocks; a block claimed at input index i
is written at output index `(i + 192) % N`, which is i itself in a buffer of 96 blocks. -/
theorem delay_stage_offset_wraps :
    (delay_stage 100).m_offset = 192 ∧ (delay_stage 100).m_offset ≠ 10 ∧
    duration_cast_sample_duration 100 = 4800 ∧ 4800 = 10 * sample_block_size ∧
    (∀ (b : audio_ring_buffer) (i : Nat),
      b.block_index ((i : Int) + ((delay_stage 100).m_offset : Int)) =
        (i + 192) % b.m_block_count) ∧
    (∀ (b : audio_ring_buffer) (i : Nat), b.m_block_count = 96 →
      b.block_index ((i : Int) + ((delay_stage 100).m_offset : Int)) = i % 96) ∧
    (∀ (b : audio_ring_buffer) (rest : List audio_ring_buffer),
      4800 ≤ b.m_block_count * sample_block_size →
      ∃ c, delay_stage_init 100 (b :: rest) = some (c :: rest) ∧
        c.m_block_count = b.m_block_count ∧
        (∀ j, j < 10 * sample_block_size → c.samples j = 0) ∧
        (∀ j, 10 * sample_block_size ≤ j → j < b.m_block_count * sample_block_size →
          c.samples j = nanf_1) ∧
        (∀ i, i < b.m_block_count → c.states i = 2)) := by
  have hoff : (delay_stage 100).m_offset = 192 := by decide
  refine ⟨hoff, by decide, by decide, by decide, ?_, ?_, ?_⟩
  · intro b i
    rw [hoff]
    have e : ((i : Int) + ((192 : Nat) : Int)) = ((i + 192 : Nat) : Int) := by push_cast; rfl
    rw [e, block_index_natCast]
  · intro b i hb
    rw [hoff]
    have e : ((i : Int) + ((192 : Nat) : Int)) = ((i + 192 : Nat) : Int) := by push_cast; rfl
    rw [e, block_index_natCast, hb]
    omega
  · intro b rest hb
    have hd : duration_cast_sample_duration 100 = 4800 := by decide
    simp only [sample_block_size] at hb ⊢
    refine ⟨{ m_block_count := b.m_block_count,
              states := fun i => if i < b.m_block_count then 2 else b.states i,
              samples := fun j => if j < 4800 then 0
                else if j < b.m_block_count * 480 then nanf_1 else b.samples j },
      ?_, rfl, ?_, ?_, ?_⟩
    · simp only [delay_stage_init, front, hd, sample_block_size, List.getElem?_cons_zero,
        set_front, List.set_cons_zero]
      rw [if_pos hb]
    · intro j hj
      show (if j < 4800 then 0 else if j < b.m_block_count * 480 then nanf_1
        else b.samples j) = 0
      rw [if_pos (by omega)]
    · intro j hj1 hj2
      show (if j < 4800 then 0 else if j < b.m_block_count * 480 then nanf_1
        else b.samples j) = nanf_1
      rw [if_neg (by omega), if_pos hj2]
    · intro i hi
      show (if i < b.m_block_count then 2 else b.states i) = 2
      rw [if_pos hi]

/-! ## Shutdown -/

theorem count_cleanup_group (g g2 : stage_group) (k n : Nat) :
    List.count (pipeline_event.cleanup g k) (cleanup_group g2 n) =
      if g = g2 ∧ k < n then 1 else 0 := by
  unfold cleanup_group
  induction n with
  | zero => simp
  | succ n ih =>
    rw [List.range_succ, List.map_append, List.count_append, ih]
    simp only [List.map_cons, List.map_nil, List.count_cons, List.count_nil, Nat.zero_add,
      beq_iff_eq, pipeline_event.cleanup.injEq]
    by_cases hg : g = g2
    · by_cases hk : k < n
      · have : ¬ n = k := by omega
        simp [hg, hk, this, Nat.lt_succ_of_lt hk]
      · by_cases hk2 : k = n
        · simp [hg, hk2]
        · have h3 : ¬ k < n + 1 := by omega
          have h4 : ¬ n = k := fun h => hk2 h.symm
          simp [hg, hk, h3, h4]
    · have h5 : ¬ g2 = g := fun h => hg h.symm
      simp [hg, h5]

theorem count_cleanup_stages (p : audio_pipeline) (g : stage_group) (k : Nat)
    (hk : k < (p.stages g).length) :
    List.count (pipeline_event.cleanup g k) (cleanup_stages p) = 1 := by
  unfold cleanup_stages
  rw [List.count_append, List.count_append, count_cleanup_group, count_cleanup_group,
    count_cleanup_group]
  cases g
  · have : k < p.m_generator_stages.length := hk
    simp [this]
  · have : k < p.m_processing_stages.length := hk
    simp [this]
  · have : k < p.m_output_stages.length := hk
    simp [this]

/-- C15: over the events of construct, run, stop, return of `run`, destroy, `cleanup` of
every stage is called twice and not once: one call at the end of `run`, after
`m_threads.clear()` has joined the workers, and one call in the destructor. -/
theorem cleanup_called_twice (p : audio_pipeline) (g : stage_group) (k : Nat)
    (hk : k < (p.stages g).length) :
    List.count (pipeline_event.cleanup g k) p.lifecycle = 2 ∧
    List.count (pipeline_event.cleanup g k) p.run_shutdown = 1 ∧
    List.count (pipeline_event.cleanup g k) p.destructor = 1 ∧
    p.lifecycle.head? = some pipeline_event.join_workers := by
  have h := count_cleanup_stages p g k hk
  have h1 : List.count (pipeline_event.cleanup g k) p.run_shutdown = 1 := by
    unfold audio_pipeline.run_shutdown
    rw [List.count_cons, h]
    simp
  have h2 : List.count (pipeline_event.cleanup g k) p.destructor = 1 := by
    unfold audio_pipeline.destructor
    rw [List.count_append, h]
    simp
  refine ⟨?_, h1, h2, rfl⟩
  unfold audio_pipeline.lifecycle
  rw [List.count_append, h1, h2]

theorem cleanup_called_twice_witness :
    List.count (pipeline_event.cleanup stage_group.generator 0) flush_example.lifecycle = 2 ∧
    List.count (pipeline_event.cleanup stage_group.generator 0) flush_example.lifecycle ≠ 1 :=
  ⟨(cleanup_called_twice flush_example stage_group.generator 0 (by decide)).1, by decide⟩

/-! ## Block numbers -/

theorem int_of_uint64_of_lt (x : Nat) (h : x < 2 ^ 31) : int_of_uint64 x = (x : Int) := by
  unfold int_of_uint64
  have e : x % 2 ^ 32 = x := Nat.mod_eq_of_lt (by omega)
  rw [e, if_pos h]

/-- C12 (amended): for a pipeline whose buffers all have N blocks (N divisible by 16,
`N + offset` at most `2 ^ 31`, so that every index and the sum `idx + offset` are exact in
an `int`), the block number a worker passes to `process_block` for the claimed input index i is
`flush_count * N + (i + offset)` converted to `int`, with the destination index
`i + offset` not wrapped; it is that number itself while it is below `2 ^ 31`. The state
and the samples the iteration publishes at index `(i + offset) % N` are those
`process_block` returns for this argument, whatever `process_block` is. -/
theorem stage_worker_block_number (p : audio_pipeline) (g : stage_group) (k N : Nat)
    (stage : pipeline_stage) (from_b to_b gen_back : audio_ring_buffer)
    (hstage : (p.stages g)[k]? = some stage)
    (hexec : p.m_state.execution_state = EXECUTING) (hfl : stage.m_flushing = false)
    (hfrom : (p.buffers g)[stage.m_in_buffer_idx]? = some from_b)
    (hto : (p.buffers g)[stage.m_out_buffer_idx]? = some to_b)
    (hgen : back p.m_generator_buffers = some gen_back)
    (hNf : from_b.m_block_count = N) (hNt : to_b.m_block_count = N)
    (hNg : gen_back.m_block_count = N) (h16 : N % 16 = 0)
    (h31 : N + stage.m_offset ≤ 2 ^ 31)
    (hex : ∃ i, i < N ∧ from_b.states i = stage.m_entry_block_state) :
    ∃ (i : Nat) (p1 : audio_pipeline) (to1 : audio_ring_buffer),
      from_b.get_first_match_idx stage.m_entry_block_state = (i : Int) ∧ i < N ∧
      p.stage_worker_iteration g k = some p1 ∧
      (p1.buffers g)[stage.m_out_buffer_idx]? = some to1 ∧
      to1.states ((i + stage.m_offset) % N) =
        (stage.process_block p.m_state (from_b.get_block (i : Int))
          (to_b.get_block ((i : Int) + (stage.m_offset : Int)))
          (int_of_uint64 ((p.m_state.generator_flush_count * N +
            (i + stage.m_offset)) % 2 ^ 64))).1 ∧
      (∀ j, j < sample_block_size →
        to1.samples ((i + stage.m_offset) % N * sample_block_size + j) =
          (stage.process_block p.m_state (from_b.get_block (i : Int))
            (to_b.get_block ((i : Int) + (stage.m_offset : Int)))
            (int_of_uint64 ((p.m_state.generator_flush_count * N +
              (i + stage.m_offset)) % 2 ^ 64))).2 j) ∧
      (p.m_state.generator_flush_count * N + (i + stage.m_offset) < 2 ^ 31 →
        int_of_uint64 ((p.m_state.generator_flush_count * N +
            (i + stage.m_offset)) % 2 ^ 64) =
          ((p.m_state.generator_flush_count * N + (i + stage.m_offset) : Nat) : Int)) := by
  obtain ⟨i, hidx, hi, hs, _⟩ := get_first_match_idx_of_exists from_b
    stage.m_entry_block_state (by rw [hNf]; exact h16) (by rw [hNf]; omega)
    (by rw [hNf]; exact hex)
  have hsum : i + stage.m_offset < 2 ^ 31 := by
    rw [hNf] at hi
    omega
  obtain ⟨p1, from1, to1, h1, _, h3, _, h5, _, h7, h8, _⟩ :=
    audio_pipeline.stage_worker_iteration_claim p g k stage from_b to_b gen_back i
      hstage hexec hfl hfrom hto hgen hidx hi hs hsum
  have hdst : ((i : Int) + (stage.m_offset : Int)) = ((i + stage.m_offset : Nat) : Int) := by
    push_cast; rfl
  refine ⟨i, p1, to1, ?_⟩
  rw [hdst]
  rw [hNt, hNg] at h7
  rw [hNg] at h8
  refine ⟨hidx, by rw [← hNf]; exact hi, h1, h3, h7, ?_, ?_⟩
  · intro j hj
    have h := h8 j hj
    simp only [audio_ring_buffer.get_block, block_index_natCast, h5, hNt] at h
    exact h
  · intro hlt
    rw [Nat.mod_eq_of_lt (by omega)]
    exact int_of_uint64_of_lt _ hlt

theorem stage_worker_block_number_witness :
    ∃ p1 to1, numbering_example.stage_worker_iteration stage_group.generator 0 = some p1 ∧
      (p1.buffers stage_group.generator)[0]? = some to1 ∧ to1.states 0 = 16 := by
  obtain ⟨i, p1, to1, h1, hi, h3, h4, h5, _, _⟩ :=
    stage_worker_block_number numbering_example stage_group.generator 0 16
      (numbering_stage 1 1) ⟨16, fun i => if i = 15 then 1 else 0, fun j => j⟩
      ⟨16, fun i => if i = 15 then 1 else 0, fun j => j⟩
      ⟨16, fun i => if i = 15 then 1 else 0, fun j => j⟩
      rfl rfl rfl rfl rfl rfl rfl rfl rfl (by decide) (by decide) ⟨15, by decide, rfl⟩
  have hscan : (audio_ring_buffer.mk 16 (fun i => if i = 15 then 1 else 0)
      (fun j => j)).get_first_match_idx (numbering_stage 1 1).m_entry_block_state =
      ((15 : Nat) : Int) := by decide
  have e : i = 15 := by
    have := h1.symm.trans hscan
    omega
  subst e
  exact ⟨p1, to1, h3, h4, h5⟩

/-- C12 as stated fails: with N = 16, offset 1, no flush so far and block 15 claimed, a
stage that returns its block number publishes 16, which is `0 * 16 + (15 + 1)`, and not
`0 * 16 + (15 + 1) % 16 = 0`. -/
theorem stage_worker_passes_unwrapped_block_number :
    ∃ p1 to1, numbering_example.stage_worker_iteration stage_group.generator 0 = some p1 ∧
      (p1.buffers stage_group.generator)[0]? = some to1 ∧
      to1.states ((15 + 1) % 16) = (0 * 16 + (15 + 1)) % 256 ∧
      to1.states ((15 + 1) % 16) ≠ (0 * 16 + (15 + 1) % 16) % 256 := by
  obtain ⟨p1, from1, to1, h1, _, h3, _, _, _, h7, _⟩ :=
    audio_pipeline.stage_worker_iteration_claim numbering_example stage_group.generator 0
      (numbering_stage 1 1) ⟨16, fun i => if i = 15 then 1 else 0, fun j => j⟩
      ⟨16, fun i => if i = 15 then 1 else 0, fun j => j⟩
      ⟨16, fun i => if i = 15 then 1 else 0, fun j => j⟩ 15
      rfl rfl rfl rfl rfl rfl (by decide) (by decide) rfl (by decide)
  have h : to1.states ((15 + 1) % 16) = 16 := h7
  exact ⟨p1, to1, h1, h3, by rw [h], by rw [h]; decide⟩

/-! ## Worker iterations without and with a claim -/

theorem size_t_of_int_neg_one : size_t_of_int (-1) = 2 ^ 64 - 1 := by decide

/-- C18: a worker iteration run alone over an input buffer of N blocks (N > 0 and
divisible by 16) none of which has the entry state: the scan returns `-1`, the
compare-exchange addresses block `(2 ^ 64 - 1) % N`, which is below N, the byte there is
not the entry state, so the exchange fails, and the iteration returns the pipeline as it
was: `process_block` is not called and no state or sample of any buffer changes. -/
theorem stage_worker_no_match (p : audio_pipeline) (g : stage_group) (k N : Nat)
    (stage : pipeline_stage) (from_b to_b : audio_ring_buffer)
    (hstage : (p.stages g)[k]? = some stage)
    (hfrom : (p.buffers g)[stage.m_in_buffer_idx]? = some from_b)
    (hto : (p.buffers g)[stage.m_out_buffer_idx]? = some to_b)
    (hNf : from_b.m_block_count = N) (hN : 0 < N) (h16 : N % 16 = 0)
    (hno : ∀ i, i < N → from_b.states i ≠ stage.m_entry_block_state) :
    from_b.get_first_match_idx stage.m_entry_block_state = -1 ∧
    from_b.block_index (-1) = (2 ^ 64 - 1) % N ∧
    from_b.block_index (-1) < N ∧
    from_b.get_block_state (-1) ≠ stage.m_entry_block_state ∧
    p.stage_worker_iteration g k = some p := by
  have hidx : from_b.get_first_match_idx stage.m_entry_block_state = -1 :=
    get_first_match_idx_of_none from_b _ (by rw [hNf]; exact h16) (by rw [hNf]; exact hno)
  have hbi : from_b.block_index (-1) = (2 ^ 64 - 1) % N := by
    unfold audio_ring_buffer.block_index
    rw [size_t_of_int_neg_one, hNf]
  have hlt : from_b.block_index (-1) < N := by
    rw [hbi]; exact Nat.mod_lt _ hN
  have hne : from_b.get_block_state (-1) ≠ stage.m_entry_block_state := by
    unfold audio_ring_buffer.get_block_state
    exact hno _ hlt
  refine ⟨hidx, hbi, hlt, hne, ?_⟩
  unfold audio_pipeline.stage_worker_iteration
  simp only [hstage, hfrom, hto, hidx, Option.bind_eq_bind, Option.some_bind,
    Option.pure_def, hne, decide_False]
  split <;> rfl

theorem stage_worker_no_match_witness :
    flush_example.stage_worker_iteration stage_group.generator 0 = some flush_example :=
  (stage_worker_no_match flush_example stage_group.generator 0 16
    (example_stage 0 0 255) ⟨16, fun _ => 255, fun j => j + 1⟩
    ⟨16, fun _ => 255, fun j => j + 1⟩ rfl rfl rfl rfl (by decide) (by decide)
    (fun _ _ => show (255 : Nat) ≠ 0 by decide)).2.2.2.2

/-! ## Repeating a slice copy -/

namespace audio_ring_buffer

theorem copy_range_idem {α : Type} (x S T : Nat → α) (a n1 s2 n2 : Nat) :
    copy_range (copy_range (copy_range (copy_range x a S 0 n1) 0 T s2 n2) a S 0 n1) 0 T s2 n2 =
      copy_range (copy_range x a S 0 n1) 0 T s2 n2 := by
  funext i
  simp only [copy_range]
  split_ifs <;> rfl

/-- A slice copy of at least one sample repeated on its own result returns that result. -/
theorem copy_slice_to_twice (self dest : audio_ring_buffer)
    (sample_idx_from sample_idx_to samples_range : Nat)
    (hv : self.valid)
    (hfrom : sample_idx_from < self.m_block_count * 480)
    (hto : sample_idx_to < dest.m_block_count * 480)
    (h1 : 1 ≤ samples_range)
    (hr : samples_range ≤ self.m_block_count * 480)
    (hr2 : samples_range ≤ dest.m_block_count * 480)
    (hr32 : samples_range < 2 ^ 32) :
    ∃ d, copy_slice_to self dest sample_idx_from sample_idx_to samples_range = outcome.ok d ∧
      copy_slice_to self d sample_idx_from sample_idx_to samples_range = outcome.ok d := by
  have h := copy_slice_to_ok self dest sample_idx_from sample_idx_to samples_range _ _
    hv hfrom hto h1 hr hr2 hr32 rfl rfl
  have key : ∀ d, copy_slice_to self dest sample_idx_from sample_idx_to samples_range =
      outcome.ok d →
      copy_slice_to self d sample_idx_from sample_idx_to samples_range = outcome.ok d := by
    intro d hd
    have hcount : d.m_block_count = dest.m_block_count := by
      rw [h] at hd
      injection hd with hd
      rw [← hd]
    have h2 := copy_slice_to_ok self d sample_idx_from sample_idx_to samples_range _ _
      hv hfrom (by rw [hcount]; exact hto) h1 hr (by rw [hcount]; exact hr2) hr32 rfl rfl
    rw [h2]
    rw [h] at hd
    injection hd with hd
    subst hd
    dsimp only
    rw [copy_range_idem, copy_range_idem]
  exact ⟨_, h, key _ h⟩

end audio_ring_buffer

/-- C13 at a failing input: range 0 is a multiple of 480, and copying 0 samples from
position 0 of a 16-block source to position 0 of a 16-block destination does not return a
destination: `samples_range - 1` wraps to `2 ^ 32 - 1`, the unwrap size becomes 4096 and the
wrap size `2 ^ 32 - 4096`, and the second `memcpy` leaves the scratch storage. For every
range of at least one sample, a multiple of 480 or not, the copy returns a destination `d`
and the same copy into `d` returns `d` again. The source is a `const` argument of both
calls. -/
theorem copy_slice_to_zero_range_undefined :
    slice_source.valid ∧ slice_dest.valid ∧ 0 % 480 = 0 ∧
    (uint32_sub 0 1 % size_t_sub (slice_source.m_block_count * sample_block_size) 0 + 1)
      % 2 ^ 32 = 4096 ∧
    uint32_sub 0 4096 = 2 ^ 32 - 4096 ∧
    slice_source.copy_slice_to slice_dest 0 0 0 = outcome.undefined ∧
    (∀ d, slice_source.copy_slice_to slice_dest 0 0 0 ≠ outcome.ok d) ∧
    ∀ (self dest : audio_ring_buffer) (sample_idx_from sample_idx_to samples_range : Nat),
      self.valid → sample_idx_from < self.m_block_count * 480 →
      sample_idx_to < dest.m_block_count * 480 → 1 ≤ samples_range →
      samples_range ≤ self.m_block_count * 480 → samples_range ≤ dest.m_block_count * 480 →
      samples_range < 2 ^ 32 →
      ∃ d, self.copy_slice_to dest sample_idx_from sample_idx_to samples_range =
          outcome.ok d ∧
        self.copy_slice_to d sample_idx_from sample_idx_to samples_range = outcome.ok d :=
  ⟨by decide, by decide, by decide, by decide, by decide, rfl,
    (fun d h => by
      have e : slice_source.copy_slice_to slice_dest 0 0 0 = outcome.undefined := rfl
      rw [e] at h
      cases h),
    fun self dest sample_idx_from sample_idx_to samples_range hv hfrom hto h1 hr hr2 hr32 =>
      audio_ring_buffer.copy_slice_to_twice self dest sample_idx_from sample_idx_to
        samples_range hv hfrom hto h1 hr hr2 hr32⟩

/-! ## A single worker filling a buffer -/

namespace audio_pipeline

/-- A worker iteration of a stage whose input and output buffer are the same element of
the group, when the scan finds block `i`: the pipeline it returns. -/
theorem stage_worker_iteration_in_place (p : audio_pipeline) (g : stage_group) (k : Nat)
    (stage : pipeline_stage) (from_b gen_back : audio_ring_buffer) (i : Nat)
    (hstage : (p.stages g)[k]? = some stage)
    (hexec : p.m_state.execution_state = EXECUTING) (hfl : stage.m_flushing = false)
    (hfrom : (p.buffers g)[stage.m_in_buffer_idx]? = some from_b)
    (hio : stage.m_out_buffer_idx = stage.m_in_buffer_idx)
    (hgen : back p.m_generator_buffers = some gen_back)
    (hidx : from_b.get_first_match_idx stage.m_entry_block_state = (i : Int))
    (hi : i < from_b.m_block_count)
    (hs : from_b.states i = stage.m_entry_block_state)
    (hsum : i + stage.m_offset < 2 ^ 31) :
    p.stage_worker_iteration g k = some (p.set_buffers g
      ((p.buffers g).set stage.m_in_buffer_idx
        ((((from_b.store_block_state (i : Int) sample_block_state_processing).store_block
            ((i + stage.m_offset : Nat) : Int)
            (stage.process_block p.m_state (from_b.get_block (i : Int))
              (from_b.get_block ((i + stage.m_offset : Nat) : Int))
              (int_of_uint64 ((p.m_state.generator_flush_count * gen_back.m_block_count +
                (i + stage.m_offset)) % 2 ^ 64))).2).store_block_state
          ((i + stage.m_offset : Nat) : Int)
          (stage.process_block p.m_state (from_b.get_block (i : Int))
            (from_b.get_block ((i + stage.m_offset : Nat) : Int))
            (int_of_uint64 ((p.m_state.generator_flush_count * gen_back.m_block_count +
              (i + stage.m_offset)) % 2 ^ 64))).1).store_block_state
          ((i + stage.m_offset : Nat) : Int)
          (stage.process_block p.m_state (from_b.get_block (i : Int))
            (from_b.get_block ((i + stage.m_offset : Nat) : Int))
            (int_of_uint64 ((p.m_state.generator_flush_count * gen_back.m_block_count +
              (i + stage.m_offset)) % 2 ^ 64))).1))) := by
  have hin : stage.m_in_buffer_idx < (p.buffers g).length :=
    (List.getElem?_eq_some.mp hfrom).1
  have hcas : from_b.get_block_state (i : Int) = stage.m_entry_block_state := by
    unfold audio_ring_buffer.get_block_state
    rw [block_index_natCast, Nat.mod_eq_of_lt hi, hs]
  have hdst : int_add (i : Int) (stage.m_offset : Int) = ((i + stage.m_offset : Nat) : Int) :=
    int_add_natCast i stage.m_offset hsum
  unfold stage_worker_iteration
  simp only [hstage, hfrom, hio, hexec, hfl, hidx, hcas, hdst, Option.bind_eq_bind,
    Option.some_bind, Option.pure_def, and_self, if_true, decide_True, hgen,
    size_t_of_int_natCast, List.getElem?_set, List.length_set, hin,
    get_block_store_block_state, List.set_set]

/-- The same for a stage of offset 0: only the state of block `i` changes, to the state
`process_block` returns. -/
theorem stage_worker_iteration_in_place_states (p : audio_pipeline) (g : stage_group)
    (k : Nat) (stage : pipeline_stage) (from_b gen_back : audio_ring_buffer) (i : Nat)
    (hstage : (p.stages g)[k]? = some stage)
    (hexec : p.m_state.execution_state = EXECUTING) (hfl : stage.m_flushing = false)
    (hfrom : (p.buffers g)[stage.m_in_buffer_idx]? = some from_b)
    (hio : stage.m_out_buffer_idx = stage.m_in_buffer_idx)
    (hoff : stage.m_offset = 0)
    (hgen : back p.m_generator_buffers = some gen_back)
    (hidx : from_b.get_first_match_idx stage.m_entry_block_state = (i : Int))
    (hi : i < from_b.m_block_count)
    (hs : from_b.states i = stage.m_entry_block_state)
    (h31 : i < 2 ^ 31) :
    ∃ B1, p.stage_worker_iteration g k = some (p.set_buffers g
        ((p.buffers g).set stage.m_in_buffer_idx B1)) ∧
      B1.m_block_count = from_b.m_block_count ∧
      ∀ j, B1.states j =
        if j = i then
          (stage.process_block p.m_state (from_b.get_block (i : Int))
            (from_b.get_block (i : Int))
            (int_of_uint64 ((p.m_state.generator_flush_count * gen_back.m_block_count +
              i) % 2 ^ 64))).1
        else from_b.states j := by
  refine ⟨_, stage_worker_iteration_in_place p g k stage from_b gen_back i hstage hexec hfl
    hfrom hio hgen hidx hi hs (by rw [hoff]; exact h31), rfl, ?_⟩
  intro j
  simp only [audio_ring_buffer.store_block_state, audio_ring_buffer.store_block,
    audio_ring_buffer.block_index, size_t_of_int_natCast, hoff, Nat.add_zero,
    Nat.mod_eq_of_lt hi]
  by_cases hji : j = i
  · rw [if_pos hji, if_pos hji]
  · rw [if_neg hji, if_neg hji, if_neg hji, if_neg hji]

theorem stages_set_buffers (p : audio_pipeline) (g g2 : stage_group)
    (v : List audio_ring_buffer) : (p.set_buffers g v).stages g2 = p.stages g2 := by
  cases g <;> cases g2 <;> rfl

theorem generator_buffers_set_buffers (p : audio_pipeline) (g : stage_group)
    (v : List audio_ring_buffer) (h : v.length = (p.buffers g).length) :
    (p.set_buffers g v).m_generator_buffers.length = p.m_generator_buffers.length := by
  cases g
  · exact h
  · rfl
  · rfl

end audio_pipeline

/-- The iterations of a single worker of a stage with offset 0 over a buffer whose states
are all the entry state e, as long as the blocks claimed lie below `2 ^ 31`: after k
iterations the blocks below k hold the returned state r and the others e. -/
theorem stage_worker_iterations_fill (p : audio_pipeline) (g : stage_group) (s N e r : Nat)
    (stage : pipeline_stage) (B0 : audio_ring_buffer)
    (hstage : (p.stages g)[s]? = some stage)
    (hexec : p.m_state.execution_state = EXECUTING) (hfl : stage.m_flushing = false)
    (hB : (p.buffers g)[stage.m_in_buffer_idx]? = some B0)
    (hio : stage.m_out_buffer_idx = stage.m_in_buffer_idx)
    (hoff : stage.m_offset = 0) (he : stage.m_entry_block_state = e)
    (hr : ∀ st a b n, (stage.process_block st a b n).1 = r) (hre : r ≠ e)
    (hN : B0.m_block_count = N) (h16 : N % 16 = 0) (h64 : N ≤ 2 ^ 64 - 2 ^ 31)
    (hall : ∀ j, j < N → B0.states j = e)
    (hgen : 0 < p.m_generator_buffers.length) :
    ∀ k, k ≤ N → k ≤ 2 ^ 31 →
      ∃ q B, p.stage_worker_iterations g s k = some q ∧
        (q.buffers g)[stage.m_in_buffer_idx]? = some B ∧ B.m_block_count = N ∧
        (∀ j, j < k → B.states j = r) ∧ (∀ j, k ≤ j → j < N → B.states j = e) ∧
        q.m_state = p.m_state ∧ q.stages g = p.stages g ∧
        0 < q.m_generator_buffers.length := by
  intro k
  induction k with
  | zero =>
    intro _ _
    exact ⟨p, B0, rfl, hB, hN, fun j hj => by omega, fun j _ hj => hall j hj, rfl, rfl, hgen⟩
  | succ k ih =>
    intro hk hk31
    obtain ⟨q, B, hq, hqB, hBN, hlow, hhigh, hqs, hqst, hqg⟩ := ih (by omega) (by omega)
    obtain ⟨gen_back, hgb⟩ := back_eq_some_of_ne_nil _ (List.length_pos.mp hqg)
    obtain ⟨i, hidx, hi, hi31, his, himin⟩ := get_first_match_idx_of_exists_low B
      stage.m_entry_block_state (by rw [hBN]; exact h16) (by rw [hBN]; exact h64)
      ⟨k, by rw [hBN]; omega, by omega, by rw [he]; exact hhigh k (le_refl _) (by omega)⟩
    have hik : i = k := by
      rcases Nat.lt_trichotomy i k with h | h | h
      · exact absurd ((hlow i h).symm.trans (his.trans he)) hre
      · exact h
      · exact absurd (by rw [he]; exact hhigh k (le_refl _) (by omega)) (himin k h)
    subst hik
    obtain ⟨B1, hstep, hB1N, hB1s⟩ :=
      audio_pipeline.stage_worker_iteration_in_place_states q g s stage B gen_back i
        (by rw [hqst]; exact hstage) (by rw [hqs]; exact hexec) hfl hqB hio hoff hgb
        hidx hi his hi31
    have hin : stage.m_in_buffer_idx < (q.buffers g).length :=
      (List.getElem?_eq_some.mp hqB).1
    refine ⟨q.set_buffers g ((q.buffers g).set stage.m_in_buffer_idx B1), B1,
      ?_, ?_, ?_, ?_, ?_, ?_, ?_, ?_⟩
    · simp only [audio_pipeline.stage_worker_iterations, hq]
      exact hstep
    · rw [audio_pipeline.buffers_set_buffers, List.getElem?_set, if_pos rfl, if_pos hin]
    · rw [hB1N]; exact hBN
    · intro j hj
      rw [hB1s j]
      by_cases hji : j = i
      · rw [if_pos hji]; exact hr _ _ _ _
      · rw [if_neg hji]
        exact hlow j (by omega)
    · intro j hj1 hj2
      have hji : ¬ j = i := by omega
      rw [hB1s j, if_neg hji]
      exact hhigh j (by omega) hj2
    · rw [set_buffers_m_state]; exact hqs
    · rw [audio_pipeline.stages_set_buffers]; exact hqst
    · rw [audio_pipeline.generator_buffers_set_buffers _ _ _ (List.length_set _ _ _)]
      exact hqg

theorem stage_worker_iterations_succ (p : audio_pipeline) (g : stage_group) (s n : Nat)
    (q : audio_pipeline) (h : p.stage_worker_iterations g s n = some q) :
    p.stage_worker_iterations g s (n + 1) = q.stage_worker_iteration g s := by
  simp only [audio_pipeline.stage_worker_iterations, h]

/-- C20 (amended): a single worker of a stage with offset 0 whose input and output buffer
are the same N-block buffer (N divisible by 16 and at most `2 ^ 31`, so that every index is
exact in an `int`) and whose `process_block` always returns a state
r other than the entry state e, started on a buffer whose N states are all e: for every
`k ≤ N`, k iterations return, and after them the blocks below k have state r and the
blocks from k to N - 1 still have state e; when `k < N` the scan of the next iteration,
the (k+1)-th, returns k, so that iteration claims block k. With `k = N` every state
is r. -/
theorem single_worker_fills_in_order (p : audio_pipeline) (g : stage_group) (s N e r : Nat)
    (stage : pipeline_stage) (B0 : audio_ring_buffer)
    (hstage : (p.stages g)[s]? = some stage)
    (hexec : p.m_state.execution_state = EXECUTING) (hfl : stage.m_flushing = false)
    (hB : (p.buffers g)[stage.m_in_buffer_idx]? = some B0)
    (hio : stage.m_out_buffer_idx = stage.m_in_buffer_idx)
    (hoff : stage.m_offset = 0) (he : stage.m_entry_block_state = e)
    (hr : ∀ st a b n, (stage.process_block st a b n).1 = r) (hre : r ≠ e)
    (hN : B0.m_block_count = N) (h16 : N % 16 = 0) (h31 : N ≤ 2 ^ 31)
    (hall : ∀ j, j < N → B0.states j = e)
    (hgen : 0 < p.m_generator_buffers.length) :
    ∀ k, k ≤ N →
      ∃ q B, p.stage_worker_iterations g s k = some q ∧
        (q.buffers g)[stage.m_in_buffer_idx]? = some B ∧ B.m_block_count = N ∧
        (∀ j, j < k → B.states j = r) ∧ (∀ j, k ≤ j → j < N → B.states j = e) ∧
        (k < N → B.get_first_match_idx e = (k : Int)) := by
  intro k hk
  obtain ⟨q, B, hq, hqB, hBN, hlow, hhigh, _, _, _⟩ :=
    stage_worker_iterations_fill p g s N e r stage B0 hstage hexec hfl hB hio hoff he hr hre
      hN h16 (by omega) hall hgen k hk (by omega)
  refine ⟨q, B, hq, hqB, hBN, hlow, hhigh, ?_⟩
  intro hkN
  obtain ⟨i, hidx, hi, his, himin⟩ := get_first_match_idx_of_exists B e
    (by rw [hBN]; exact h16) (by rw [hBN]; exact h31)
    ⟨k, by rw [hBN]; exact hkN, hhigh k (le_refl _) hkN⟩
  have hik : i = k := by
    rcases Nat.lt_trichotomy i k with h | h | h
    · exact absurd ((hlow i h).symm.trans his) hre
    · exact h
    · exact absurd (hhigh k (le_refl _) hkN) (himin k h)
  rw [hidx, hik]

theorem single_worker_fills_in_order_witness :
    ∃ q B, fill_example.stage_worker_iterations stage_group.generator 0 3 = some q ∧
      (q.buffers stage_group.generator)[0]? = some B ∧ B.m_block_count = 16 ∧
      (∀ j, j < 3 → B.states j = 1) ∧ (∀ j, 3 ≤ j → j < 16 → B.states j = 0) ∧
      (3 < 16 → B.get_first_match_idx 0 = ((3 : Nat) : Int)) :=
  single_worker_fills_in_order fill_example stage_group.generator 0 16 0 1
    (example_stage 0 0 1) ⟨16, fun _ => 0, fun j => j⟩ rfl rfl rfl rfl rfl rfl rfl
    (fun _ _ _ _ => rfl) (by decide) rfl (by decide) (by decide) (fun _ _ => rfl)
    (by decide) 3 (by decide)

/-- C20 as stated fails for N = 2 ^ 31 + 16: the first `2 ^ 31` iterations fill the blocks
below `2 ^ 31`; the scan of the next iteration returns `-1`, its `int` counter having
wrapped, although the blocks from `2 ^ 31` on still have the entry state; the
compare-exchange addresses block 1023, which holds the returned state, and fails; after
`2 ^ 31 + 1` iterations the buffers are as after `2 ^ 31`, and block `2 ^ 31` still has the
entry state. -/
theorem single_worker_stops_at_wide_block :
    (2 : Nat) ^ 31 + 1 ≤ 2 ^ 31 + 16 ∧
    ∃ q B, wide_fill_example.stage_worker_iterations stage_group.generator 0 (2 ^ 31) =
        some q ∧
      (q.buffers stage_group.generator)[0]? = some B ∧ B.m_block_count = 2 ^ 31 + 16 ∧
      (∀ j, j < 2 ^ 31 → B.states j = 1) ∧
      (∀ j, 2 ^ 31 ≤ j → j < 2 ^ 31 + 16 → B.states j = 0) ∧
      B.get_first_match_idx 0 = -1 ∧ B.block_index (-1) = 1023 ∧
      wide_fill_example.stage_worker_iterations stage_group.generator 0 (2 ^ 31 + 1) =
        some q := by
  obtain ⟨q, B, hq, hqB, hBN, hlow, hhigh, _, hqst, _⟩ :=
    stage_worker_iterations_fill wide_fill_example stage_group.generator 0 (2 ^ 31 + 16) 0 1
      (example_stage 0 0 1) ⟨2 ^ 31 + 16, fun _ => 0, fun j => j⟩ rfl rfl rfl rfl rfl rfl rfl
      (fun _ _ _ _ => rfl) (by decide) rfl (by decide) (by decide) (fun _ _ => rfl)
      (by decide) (2 ^ 31) (by decide) (le_refl _)
  have hqB0 : (q.buffers stage_group.generator)[0]? = some B := hqB
  have hidx : B.get_first_match_idx 0 = -1 := by
    refine get_first_match_idx_of_none_low B 0 (by rw [hBN]; decide) (by rw [hBN]; decide) ?_
    intro i _ hi
    rw [hlow i hi]
    decide
  have hbi : B.block_index (-1) = 1023 := by
    unfold audio_ring_buffer.block_index
    rw [hBN]
    decide
  have hne : B.get_block_state (-1) ≠ (example_stage 0 0 1).m_entry_block_state := by
    unfold audio_ring_buffer.get_block_state
    rw [hbi, hlow 1023 (by decide)]
    decide
  have hstep : q.stage_worker_iteration stage_group.generator 0 = some q :=
    stage_worker_iteration_of_failed_exchange q stage_group.generator 0
      (example_stage 0 0 1) B B (by rw [hqst]; rfl) hqB0 hqB0 hidx hne
  refine ⟨by decide, q, B, hq, hqB0, hBN, hlow, hhigh, hidx, hbi, ?_⟩
  rw [stage_worker_iterations_succ _ _ _ _ q hq]
  exact hstep

/-! ## Interleaved workers -/

namespace running_pipeline

theorem set_pc_getElem (r : running_pipeline) (w : Nat) (t : worker) (pc : worker_pc)
    (hw : w < r.m_threads.length) :
    (r.set_pc w t pc)[w]? = some { t with pc := pc } := by
  unfold set_pc
  rw [List.getElem?_set, if_pos rfl, if_pos hw]

theorem set_pc_length (r : running_pipeline) (w : Nat) (t : worker) (pc : worker_pc) :
    (r.set_pc w t pc).length = r.m_threads.length := by
  unfold set_pc
  rw [List.length_set]

/-- The piece at the head of the loop. -/
theorem worker_step_loop_head (r : running_pipeline) (w : Nat) (g : stage_group) (s : Nat)
    (stage : pipeline_stage) (from_b to_b : audio_ring_buffer)
    (ht : r.m_threads[w]? = some ⟨g, s, worker_pc.loop_head⟩)
    (hstage : (r.pipeline.stages g)[s]? = some stage)
    (hfrom : (r.pipeline.buffers g)[stage.m_in_buffer_idx]? = some from_b)
    (hto : (r.pipeline.buffers g)[stage.m_out_buffer_idx]? = some to_b) :
    r.worker_step w =
      if r.pipeline.m_state.execution_state = EXECUTING ∧ stage.m_flushing = false then
        some { r with m_threads := (r.set_pc w ⟨g, s, worker_pc.loop_head⟩
          (worker_pc.before_exchange (from_b.get_first_match_idx stage.m_entry_block_state)
            r.pipeline.m_state.generator_flush_count
            (int_add (from_b.get_first_match_idx stage.m_entry_block_state)
              (stage.m_offset : Int)))) }
      else some r := by
  unfold worker_step
  simp only [ht, hstage, hfrom, hto, Option.bind_eq_bind, Option.some_bind, Option.pure_def]

/-- The compare-exchange. -/
theorem worker_step_before_exchange (r : running_pipeline) (w : Nat) (g : stage_group)
    (s : Nat) (stage : pipeline_stage) (from_b to_b : audio_ring_buffer) (idx : Int)
    (flush_count : Nat) (dst_idx : Int)
    (ht : r.m_threads[w]? = some ⟨g, s, worker_pc.before_exchange idx flush_count dst_idx⟩)
    (hstage : (r.pipeline.stages g)[s]? = some stage)
    (hfrom : (r.pipeline.buffers g)[stage.m_in_buffer_idx]? = some from_b)
    (hto : (r.pipeline.buffers g)[stage.m_out_buffer_idx]? = some to_b) :
    r.worker_step w =
      if from_b.get_block_state idx = stage.m_entry_block_state then
        some { pipeline := (r.pipeline.set_buffers g
                 ((r.pipeline.buffers g).set stage.m_in_buffer_idx
                   (from_b.store_block_state idx sample_block_state_processing))),
               m_threads := (r.set_pc w
                 ⟨g, s, worker_pc.before_exchange idx flush_count dst_idx⟩
                 (worker_pc.exchanged idx flush_count dst_idx)) }
      else some { r with m_threads := (r.set_pc w
        ⟨g, s, worker_pc.before_exchange idx flush_count dst_idx⟩ worker_pc.loop_head) } := by
  unfold worker_step
  simp only [ht, hstage, hfrom, hto, Option.bind_eq_bind, Option.some_bind, Option.pure_def]

/-- The call of `process_block`. -/
theorem worker_step_exchanged (r : running_pipeline) (w : Nat) (g : stage_group)
    (s : Nat) (stage : pipeline_stage) (from_b to_b gen_back : audio_ring_buffer) (idx : Int)
    (flush_count : Nat) (dst_idx : Int)
    (ht : r.m_threads[w]? = some ⟨g, s, worker_pc.exchanged idx flush_count dst_idx⟩)
    (hstage : (r.pipeline.stages g)[s]? = some stage)
    (hfrom : (r.pipeline.buffers g)[stage.m_in_buffer_idx]? = some from_b)
    (hto : (r.pipeline.buffers g)[stage.m_out_buffer_idx]? = some to_b)
    (hgen : back r.pipeline.m_generator_buffers = some gen_back) :
    r.worker_step w =
      some { pipeline := (r.pipeline.set_buffers g
               ((r.pipeline.buffers g).set stage.m_out_buffer_idx
                 (to_b.store_block dst_idx
                   (stage.process_block r.pipeline.m_state (from_b.get_block idx)
                     (to_b.get_block dst_idx)
                     (int_of_uint64 ((flush_count * gen_back.m_block_count +
                       size_t_of_int dst_idx) % 2 ^ 64))).2))),
             m_threads := (r.set_pc w ⟨g, s, worker_pc.exchanged idx flush_count dst_idx⟩
               (worker_pc.before_store_from idx dst_idx
                 (stage.process_block r.pipeline.m_state (from_b.get_block idx)
                   (to_b.get_block dst_idx)
                   (int_of_uint64 ((flush_count * gen_back.m_block_count +
                     size_t_of_int dst_idx) % 2 ^ 64))).1)) } := by
  unfold worker_step
  simp only [ht, hstage, hfrom, hto, hgen, Option.bind_eq_bind, Option.some_bind,
    Option.pure_def]

/-- The store through `from_buffer`. -/
theorem worker_step_before_store_from (r : running_pipeline) (w : Nat) (g : stage_group)
    (s : Nat) (stage : pipeline_stage) (from_b to_b : audio_ring_buffer) (idx dst_idx : Int)
    (out_state : sample_state)
    (ht : r.m_threads[w]? = some ⟨g, s, worker_pc.before_store_from idx dst_idx out_state⟩)
    (hstage : (r.pipeline.stages g)[s]? = some stage)
    (hfrom : (r.pipeline.buffers g)[stage.m_in_buffer_idx]? = some from_b)
    (hto : (r.pipeline.buffers g)[stage.m_out_buffer_idx]? = some to_b) :
    r.worker_step w =
      some { pipeline := (r.pipeline.set_buffers g
               ((r.pipeline.buffers g).set stage.m_in_buffer_idx
                 (from_b.store_block_state dst_idx out_state))),
             m_threads := (r.set_pc w
               ⟨g, s, worker_pc.before_store_from idx dst_idx out_state⟩
               (worker_pc.before_store_to idx dst_idx out_state)) } := by
  unfold worker_step
  simp only [ht, hstage, hfrom, hto, Option.bind_eq_bind, Option.some_bind, Option.pure_def]

/-- The store through `to_buffer`. -/
theorem worker_step_before_store_to (r : running_pipeline) (w : Nat) (g : stage_group)
    (s : Nat) (stage : pipeline_stage) (from_b to_b : audio_ring_buffer) (idx dst_idx : Int)
    (out_state : sample_state)
    (ht : r.m_threads[w]? = some ⟨g, s, worker_pc.before_store_to idx dst_idx out_state⟩)
    (hstage : (r.pipeline.stages g)[s]? = some stage)
    (hfrom : (r.pipeline.buffers g)[stage.m_in_buffer_idx]? = some from_b)
    (hto : (r.pipeline.buffers g)[stage.m_out_buffer_idx]? = some to_b) :
    r.worker_step w =
      some { pipeline := (r.pipeline.set_buffers g
               ((r.pipeline.buffers g).set stage.m_out_buffer_idx
                 (to_b.store_block_state dst_idx out_state))),
             m_threads := (r.set_pc w
               ⟨g, s, worker_pc.before_store_to idx dst_idx out_state⟩
               worker_pc.loop_head) } := by
  unfold worker_step
  simp only [ht, hstage, hfrom, hto, Option.bind_eq_bind, Option.some_bind, Option.pure_def]

end running_pipeline

theorem back_set_block_count (l : List audio_ring_buffer) (i : Nat)
    (fb X gb : audio_ring_buffer) (hgb : back l = some gb) (hfb : l[i]? = some fb)
    (hX : X.m_block_count = fb.m_block_count) :
    ∃ gb2, back (l.set i X) = some gb2 ∧ gb2.m_block_count = gb.m_block_count := by
  unfold back at hgb ⊢
  rw [List.length_set]
  split at hgb
  · cases hgb
  · rename_i hl
    rw [if_neg hl, List.getElem?_set]
    by_cases e : i = l.length - 1
    · rw [if_pos e, if_pos (by omega)]
      refine ⟨X, rfl, ?_⟩
      rw [e] at hfb
      rw [hX, Option.some.inj (hfb.symm.trans hgb)]
    · rw [if_neg e]
      exact ⟨gb, hgb, rfl⟩

namespace audio_pipeline

theorem set_buffers_set_buffers (p : audio_pipeline) (g : stage_group)
    (a b : List audio_ring_buffer) :
    (p.set_buffers g a).set_buffers g b = p.set_buffers g b := by
  cases g <;> rfl

/-- The last generator buffer keeps its block count when a buffer of a group is replaced
by one of the same block count. -/
theorem back_generator_set_buffers (p : audio_pipeline) (g : stage_group) (i : Nat)
    (fb X gb : audio_ring_buffer) (hgb : back p.m_generator_buffers = some gb)
    (hfb : (p.buffers g)[i]? = some fb) (hX : X.m_block_count = fb.m_block_count) :
    ∃ gb2, back (p.set_buffers g ((p.buffers g).set i X)).m_generator_buffers = some gb2 ∧
      gb2.m_block_count = gb.m_block_count := by
  cases g
  · exact back_set_block_count p.m_generator_buffers i fb X gb hgb hfb hX
  · exact ⟨gb, hgb, rfl⟩
  · exact ⟨gb, hgb, rfl⟩

end audio_pipeline

namespace running_pipeline

/-- A worker at the head of its loop whose stage is not to work stays there. -/
theorem worker_steps_idle (r : running_pipeline) (w : Nat) (g : stage_group) (s : Nat)
    (stage : pipeline_stage) (from_b to_b : audio_ring_buffer)
    (ht : r.m_threads[w]? = some ⟨g, s, worker_pc.loop_head⟩)
    (hstage : (r.pipeline.stages g)[s]? = some stage)
    (hfrom : (r.pipeline.buffers g)[stage.m_in_buffer_idx]? = some from_b)
    (hto : (r.pipeline.buffers g)[stage.m_out_buffer_idx]? = some to_b)
    (hcond : ¬ (r.pipeline.m_state.execution_state = EXECUTING ∧ stage.m_flushing = false)) :
    r.run_schedule [thread.worker w, thread.worker w, thread.worker w, thread.worker w,
      thread.worker w] = some r := by
  have h := worker_step_loop_head r w g s stage from_b to_b ht hstage hfrom hto
  rw [if_neg hcond] at h
  simp only [run_schedule, step, h, Option.some_bind]

/-- A worker whose compare-exchange fails is back at the head of its loop, the pipeline
unchanged. -/
theorem worker_steps_failed_exchange (r : running_pipeline) (w : Nat) (g : stage_group)
    (s : Nat) (stage : pipeline_stage) (from_b to_b : audio_ring_buffer)
    (ht : r.m_threads[w]? = some ⟨g, s, worker_pc.loop_head⟩)
    (hstage : (r.pipeline.stages g)[s]? = some stage)
    (hfrom : (r.pipeline.buffers g)[stage.m_in_buffer_idx]? = some from_b)
    (hto : (r.pipeline.buffers g)[stage.m_out_buffer_idx]? = some to_b)
    (hcond : r.pipeline.m_state.execution_state = EXECUTING ∧ stage.m_flushing = false)
    (hcas : ¬ from_b.get_block_state
      (from_b.get_first_match_idx stage.m_entry_block_state) = stage.m_entry_block_state) :
    ∃ r2, r.run_schedule [thread.worker w, thread.worker w] = some r2 ∧
      r2.pipeline = r.pipeline ∧ r2.m_threads[w]? = some ⟨g, s, worker_pc.loop_head⟩ := by
  have hw : w < r.m_threads.length := (List.getElem?_eq_some.mp ht).1
  have h1 := worker_step_loop_head r w g s stage from_b to_b ht hstage hfrom hto
  rw [if_pos hcond] at h1
  obtain ⟨r1, hr1⟩ : ∃ r1 : running_pipeline, r1 = { r with m_threads :=
      (r.set_pc w ⟨g, s, worker_pc.loop_head⟩
        (worker_pc.before_exchange (from_b.get_first_match_idx stage.m_entry_block_state)
          r.pipeline.m_state.generator_flush_count
          (int_add (from_b.get_first_match_idx stage.m_entry_block_state)
            (stage.m_offset : Int)))) } := ⟨_, rfl⟩
  rw [← hr1] at h1
  have hp1 : r1.pipeline = r.pipeline := by rw [hr1]
  have ht1 : r1.m_threads[w]? = some ⟨g, s, worker_pc.before_exchange
      (from_b.get_first_match_idx stage.m_entry_block_state)
      r.pipeline.m_state.generator_flush_count
      (int_add (from_b.get_first_match_idx stage.m_entry_block_state)
        (stage.m_offset : Int))⟩ := by
    rw [hr1]
    exact set_pc_getElem r w _ _ hw
  have hw1 : w < r1.m_threads.length := (List.getElem?_eq_some.mp ht1).1
  have h2 := worker_step_before_exchange r1 w g s stage from_b to_b _ _ _ ht1
    (by rw [hp1]; exact hstage) (by rw [hp1]; exact hfrom) (by rw [hp1]; exact hto)
  rw [if_neg hcas] at h2
  refine ⟨{ r1 with m_threads := (r1.set_pc w ⟨g, s, worker_pc.before_exchange
      (from_b.get_first_match_idx stage.m_entry_block_state)
      r.pipeline.m_state.generator_flush_count
      (int_add (from_b.get_first_match_idx stage.m_entry_block_state)
        (stage.m_offset : Int))⟩ worker_pc.loop_head) }, ?_, hp1, ?_⟩
  · simp only [run_schedule, step, h1, h2, Option.some_bind]
  · exact set_pc_getElem r1 w _ _ hw1

end running_pipeline

namespace running_pipeline

/-- A worker at the head of its loop whose compare-exchange succeeds: its five pieces, run
one after the other with no other thread interleaved, leave the pipeline that one pass
through the loop body gives, and the worker is back at the head of its loop. -/
theorem worker_steps_claim (r : running_pipeline) (w : Nat) (g : stage_group)
    (s : Nat) (stage : pipeline_stage) (from_b to_b gen_back : audio_ring_buffer)
    (ht : r.m_threads[w]? = some ⟨g, s, worker_pc.loop_head⟩)
    (hstage : (r.pipeline.stages g)[s]? = some stage)
    (hfrom : (r.pipeline.buffers g)[stage.m_in_buffer_idx]? = some from_b)
    (hto : (r.pipeline.buffers g)[stage.m_out_buffer_idx]? = some to_b)
    (hgen : back r.pipeline.m_generator_buffers = some gen_back)
    (hcond : r.pipeline.m_state.execution_state = EXECUTING ∧ stage.m_flushing = false)
    (hcas : from_b.get_block_state
      (from_b.get_first_match_idx stage.m_entry_block_state) = stage.m_entry_block_state) :
    ∃ r5, r.run_schedule [thread.worker w, thread.worker w, thread.worker w,
        thread.worker w, thread.worker w] = some r5 ∧
      r.pipeline.stage_worker_iteration g s = some r5.pipeline ∧
      r5.m_threads[w]? = some ⟨g, s, worker_pc.loop_head⟩ := by
  have hw : w < r.m_threads.length := (List.getElem?_eq_some.mp ht).1
  have hi : stage.m_in_buffer_idx < (r.pipeline.buffers g).length :=
    (List.getElem?_eq_some.mp hfrom).1
  have ho : stage.m_out_buffer_idx < (r.pipeline.buffers g).length :=
    (List.getElem?_eq_some.mp hto).1
  obtain ⟨idx, hidx⟩ : ∃ idx, idx = from_b.get_first_match_idx stage.m_entry_block_state :=
    ⟨_, rfl⟩
  obtain ⟨dst, hdst⟩ : ∃ dst, dst = int_add idx (stage.m_offset : Int) := ⟨_, rfl⟩
  obtain ⟨fc, hfc⟩ : ∃ fc, fc = r.pipeline.m_state.generator_flush_count := ⟨_, rfl⟩
  rw [← hidx] at hcas
  -- the scan and the loads
  have h1 := worker_step_loop_head r w g s stage from_b to_b ht hstage hfrom hto
  rw [if_pos hcond, ← hidx, ← hdst, ← hfc] at h1
  obtain ⟨r1, hr1⟩ : ∃ r1 : running_pipeline, r1 = ⟨r.pipeline,
      r.set_pc w ⟨g, s, worker_pc.loop_head⟩ (worker_pc.before_exchange idx fc dst)⟩ :=
    ⟨_, rfl⟩
  have h1b : r.worker_step w = some r1 := by rw [hr1]; exact h1
  have hp1 : r1.pipeline = r.pipeline := by rw [hr1]
  have ht1 : r1.m_threads[w]? = some ⟨g, s, worker_pc.before_exchange idx fc dst⟩ := by
    rw [hr1]; exact set_pc_getElem r w _ _ hw
  have hw1 : w < r1.m_threads.length := (List.getElem?_eq_some.mp ht1).1
  -- the compare-exchange
  have h2 := worker_step_before_exchange r1 w g s stage from_b to_b idx fc dst ht1
    (by rw [hp1]; exact hstage) (by rw [hp1]; exact hfrom) (by rw [hp1]; exact hto)
  rw [if_pos hcas, hp1] at h2
  obtain ⟨bufs1, hbufs1⟩ : ∃ l, l = (r.pipeline.buffers g).set stage.m_in_buffer_idx
      (from_b.store_block_state idx sample_block_state_processing) := ⟨_, rfl⟩
  rw [← hbufs1] at h2
  have hl1 : bufs1.length = (r.pipeline.buffers g).length := by
    rw [hbufs1, List.length_set]
  obtain ⟨r2, hr2⟩ : ∃ r2 : running_pipeline, r2 = ⟨r.pipeline.set_buffers g bufs1,
      r1.set_pc w ⟨g, s, worker_pc.before_exchange idx fc dst⟩
        (worker_pc.exchanged idx fc dst)⟩ := ⟨_, rfl⟩
  have h2b : r1.worker_step w = some r2 := by rw [hr2]; exact h2
  have hp2 : r2.pipeline = r.pipeline.set_buffers g bufs1 := by rw [hr2]
  have ht2 : r2.m_threads[w]? = some ⟨g, s, worker_pc.exchanged idx fc dst⟩ := by
    rw [hr2]; exact set_pc_getElem r1 w _ _ hw1
  have hw2 : w < r2.m_threads.length := (List.getElem?_eq_some.mp ht2).1
  have hfrom2 : bufs1[stage.m_in_buffer_idx]? =
      some (from_b.store_block_state idx sample_block_state_processing) := by
    rw [hbufs1, List.getElem?_set, if_pos rfl, if_pos hi]
  obtain ⟨to2, hto2⟩ : ∃ x, bufs1[stage.m_out_buffer_idx]? = some x :=
    ⟨bufs1[stage.m_out_buffer_idx], List.getElem?_eq_getElem (by omega)⟩
  obtain ⟨gb2, hgb2, hgbN⟩ := audio_pipeline.back_generator_set_buffers r.pipeline g
    stage.m_in_buffer_idx from_b
    (from_b.store_block_state idx sample_block_state_processing) gen_back hgen hfrom rfl
  rw [← hbufs1] at hgb2
  -- `process_block`
  have h3 := worker_step_exchanged r2 w g s stage
    (from_b.store_block_state idx sample_block_state_processing) to2 gb2 idx fc dst ht2
    (by rw [hp2, audio_pipeline.stages_set_buffers]; exact hstage)
    (by rw [hp2, audio_pipeline.buffers_set_buffers]; exact hfrom2)
    (by rw [hp2, audio_pipeline.buffers_set_buffers]; exact hto2)
    (by rw [hp2]; exact hgb2)
  rw [hp2, audio_pipeline.buffers_set_buffers, audio_pipeline.set_buffers_set_buffers,
    set_buffers_m_state, hgbN] at h3
  obtain ⟨R, hR⟩ : ∃ R, R = stage.process_block r.pipeline.m_state
      ((from_b.store_block_state idx sample_block_state_processing).get_block idx)
      (to2.get_block dst)
      (int_of_uint64 ((fc * gen_back.m_block_count + size_t_of_int dst) % 2 ^ 64)) :=
    ⟨_, rfl⟩
  rw [← hR] at h3
  obtain ⟨bufs2, hbufs2⟩ : ∃ l, l = bufs1.set stage.m_out_buffer_idx
      (to2.store_block dst R.2) := ⟨_, rfl⟩
  rw [← hbufs2] at h3
  have hl2 : bufs2.length = (r.pipeline.buffers g).length := by
    rw [hbufs2, List.length_set, hl1]
  obtain ⟨r3, hr3⟩ : ∃ r3 : running_pipeline, r3 = ⟨r.pipeline.set_buffers g bufs2,
      r2.set_pc w ⟨g, s, worker_pc.exchanged idx fc dst⟩
        (worker_pc.before_store_from idx dst R.1)⟩ := ⟨_, rfl⟩
  have h3b : r2.worker_step w = some r3 := by rw [hr3]; exact h3
  have hp3 : r3.pipeline = r.pipeline.set_buffers g bufs2 := by rw [hr3]
  have ht3 : r3.m_threads[w]? = some ⟨g, s, worker_pc.before_store_from idx dst R.1⟩ := by
    rw [hr3]; exact set_pc_getElem r2 w _ _ hw2
  have hw3 : w < r3.m_threads.length := (List.getElem?_eq_some.mp ht3).1
  obtain ⟨from3, hfrom3⟩ : ∃ x, bufs2[stage.m_in_buffer_idx]? = some x :=
    ⟨bufs2[stage.m_in_buffer_idx], List.getElem?_eq_getElem (by omega)⟩
  obtain ⟨to3, hto3⟩ : ∃ x, bufs2[stage.m_out_buffer_idx]? = some x :=
    ⟨bufs2[stage.m_out_buffer_idx], List.getElem?_eq_getElem (by omega)⟩
  -- the store through `from_buffer`
  have h4 := worker_step_before_store_from r3 w g s stage from3 to3 idx dst R.1 ht3
    (by rw [hp3, audio_pipeline.stages_set_buffers]; exact hstage)
    (by rw [hp3, audio_pipeline.buffers_set_buffers]; exact hfrom3)
    (by rw [hp3, audio_pipeline.buffers_set_buffers]; exact hto3)
  rw [hp3, audio_pipeline.buffers_set_buffers, audio_pipeline.set_buffers_set_buffers]
    at h4
  obtain ⟨bufs3, hbufs3⟩ : ∃ l, l = bufs2.set stage.m_in_buffer_idx
      (from3.store_block_state dst R.1) := ⟨_, rfl⟩
  rw [← hbufs3] at h4
  have hl3 : bufs3.length = (r.pipeline.buffers g).length := by
    rw [hbufs3, List.length_set, hl2]
  obtain ⟨r4, hr4⟩ : ∃ r4 : running_pipeline, r4 = ⟨r.pipeline.set_buffers g bufs3,
      r3.set_pc w ⟨g, s, worker_pc.before_store_from idx dst R.1⟩
        (worker_pc.before_store_to idx dst R.1)⟩ := ⟨_, rfl⟩
  have h4b : r3.worker_step w = some r4 := by rw [hr4]; exact h4
  have hp4 : r4.pipeline = r.pipeline.set_buffers g bufs3 := by rw [hr4]
  have ht4 : r4.m_threads[w]? = some ⟨g, s, worker_pc.before_store_to idx dst R.1⟩ := by
    rw [hr4]; exact set_pc_getElem r3 w _ _ hw3
  have hw4 : w < r4.m_threads.length := (List.getElem?_eq_some.mp ht4).1
  obtain ⟨from4, hfrom4⟩ : ∃ x, bufs3[stage.m_in_buffer_idx]? = some x :=
    ⟨bufs3[stage.m_in_buffer_idx], List.getElem?_eq_getElem (by omega)⟩
  obtain ⟨to4, hto4⟩ : ∃ x, bufs3[stage.m_out_buffer_idx]? = some x :=
    ⟨bufs3[stage.m_out_buffer_idx], List.getElem?_eq_getElem (by omega)⟩
  -- the store through `to_buffer`
  have h5 := worker_step_before_store_to r4 w g s stage from4 to4 idx dst R.1 ht4
    (by rw [hp4, audio_pipeline.stages_set_buffers]; exact hstage)
    (by rw [hp4, audio_pipeline.buffers_set_buffers]; exact hfrom4)
    (by rw [hp4, audio_pipeline.buffers_set_buffers]; exact hto4)
  rw [hp4, audio_pipeline.buffers_set_buffers, audio_pipeline.set_buffers_set_buffers]
    at h5
  refine ⟨⟨r.pipeline.set_buffers g (bufs3.set stage.m_out_buffer_idx
      (to4.store_block_state dst R.1)),
    r4.set_pc w ⟨g, s, worker_pc.before_store_to idx dst R.1⟩ worker_pc.loop_head⟩,
    ?_, ?_, ?_⟩
  · simp only [run_schedule, step, h1b, h2b, h3b, h4b, h5, Option.some_bind]
  · unfold audio_pipeline.stage_worker_iteration
    simp only [hstage, hfrom, hto, hcond, ← hidx, ← hdst, ← hfc, hcas, Option.bind_eq_bind,
      Option.some_bind, Option.pure_def, and_self, if_true, decide_True, hgen,
      ← hbufs1, hfrom2, hto2, ← hR, ← hbufs2, hfrom3, ← hbufs3, hto4]
  · exact set_pc_getElem r4 w _ _ hw4

end running_pipeline

namespace running_pipeline

theorem run_schedule_append (r : running_pipeline) (a b : List thread) :
    r.run_schedule (a ++ b) = (r.run_schedule a).bind (fun r1 => r1.run_schedule b) := by
  induction a generalizing r with
  | nil => rfl
  | cons t a ih =>
    simp only [List.cons_append, run_schedule]
    cases r.step t with
    | none => rfl
    | some r1 => exact ih r1

/-- Five consecutive pieces of a worker that stands at the head of its loop, with no other
thread interleaved, leave the pipeline that `stage_worker_iteration`, one pass through the
loop body, gives. -/
theorem worker_steps_eq_iteration (r : running_pipeline) (w : Nat) (g : stage_group)
    (s : Nat) (stage : pipeline_stage) (from_b to_b gen_back : audio_ring_buffer)
    (ht : r.m_threads[w]? = some ⟨g, s, worker_pc.loop_head⟩)
    (hstage : (r.pipeline.stages g)[s]? = some stage)
    (hfrom : (r.pipeline.buffers g)[stage.m_in_buffer_idx]? = some from_b)
    (hto : (r.pipeline.buffers g)[stage.m_out_buffer_idx]? = some to_b)
    (hgen : back r.pipeline.m_generator_buffers = some gen_back) :
    (r.run_schedule [thread.worker w, thread.worker w, thread.worker w, thread.worker w,
      thread.worker w]).map (fun r5 => r5.pipeline) =
      r.pipeline.stage_worker_iteration g s := by
  by_cases hcond : r.pipeline.m_state.execution_state = EXECUTING ∧ stage.m_flushing = false
  · by_cases hcas : from_b.get_block_state
        (from_b.get_first_match_idx stage.m_entry_block_state) = stage.m_entry_block_state
    · obtain ⟨r5, h1, h2, _⟩ := worker_steps_claim r w g s stage from_b to_b gen_back ht
        hstage hfrom hto hgen hcond hcas
      rw [h1, h2]
      rfl
    · obtain ⟨r2, h2, hp2, ht2⟩ := worker_steps_failed_exchange r w g s stage from_b to_b ht
        hstage hfrom hto hcond hcas
      obtain ⟨r4, h4, hp4, ht4⟩ := worker_steps_failed_exchange r2 w g s stage from_b to_b
        ht2 (by rw [hp2]; exact hstage) (by rw [hp2]; exact hfrom) (by rw [hp2]; exact hto)
        (by rw [hp2]; exact hcond) hcas
      have h5 := worker_step_loop_head r4 w g s stage from_b to_b ht4
        (by rw [hp4, hp2]; exact hstage) (by rw [hp4, hp2]; exact hfrom)
        (by rw [hp4, hp2]; exact hto)
      rw [if_pos (by rw [hp4, hp2]; exact hcond)] at h5
      have hrun : r.run_schedule ([thread.worker w, thread.worker w] ++
          ([thread.worker w, thread.worker w] ++ [thread.worker w])) =
          some { r4 with m_threads := (r4.set_pc w ⟨g, s, worker_pc.loop_head⟩
            (worker_pc.before_exchange
              (from_b.get_first_match_idx stage.m_entry_block_state)
              r4.pipeline.m_state.generator_flush_count
              (int_add (from_b.get_first_match_idx stage.m_entry_block_state)
                (stage.m_offset : Int)))) } := by
        rw [run_schedule_append, h2, Option.some_bind, run_schedule_append, h4,
          Option.some_bind]
        simp only [run_schedule, step, h5, Option.some_bind]
      have hlist : [thread.worker w, thread.worker w, thread.worker w, thread.worker w,
          thread.worker w] = [thread.worker w, thread.worker w] ++
          ([thread.worker w, thread.worker w] ++ [thread.worker w]) := rfl
      rw [hlist, hrun]
      unfold audio_pipeline.stage_worker_iteration
      simp only [hstage, hfrom, hto, hcond, hcas, Option.bind_eq_bind, Option.some_bind,
        Option.pure_def, and_self, if_true, decide_False, Option.map_some', hp4, hp2]
      rfl
  · rw [worker_steps_idle r w g s stage from_b to_b ht hstage hfrom hto hcond]
    unfold audio_pipeline.stage_worker_iteration
    simp only [hstage, hfrom, hto, hcond, Option.bind_eq_bind, Option.some_bind,
      Option.pure_def, if_false, Option.map_some']

end running_pipeline

/-- C7 at a failing schedule: a generator buffer of sixteen blocks with blocks 0 and 1 in
state 1, a stage of two workers (entry state 1, offset 1, returned state 2) and a stage of
one worker (entry state 2) over it. Worker 0 claims block 0 and worker 1 claims block 1,
so that the states are `0xFE, 0xFE`; worker 0 then processes and stores the state it
returns at index `0 + 1`, the block worker 1 holds, so that the states are `0xFE, 2`; the
scan of worker 2 now finds block 1 in its entry state and its compare-exchange succeeds.
Workers 1 and 2 have both had their claim on block 1 of the buffer succeed and neither
has stored a state yet. -/
theorem two_workers_claim_one_block :
    (claim_example.run_start.m_threads.map (fun t => (t.group, t.stage))) =
      [(stage_group.generator, 0), (stage_group.generator, 0), (stage_group.generator, 1),
       (stage_group.processing, 0), (stage_group.output, 0)] ∧
    (claim_example.run_start.run_schedule (claim_schedule.take 4)).map
      (fun r => r.pipeline.m_generator_buffers.map (fun b => (b.states 0, b.states 1))) =
      some [(sample_block_state_processing, sample_block_state_processing)] ∧
    (claim_example.run_start.run_schedule (claim_schedule.take 7)).map
      (fun r => r.pipeline.m_generator_buffers.map (fun b => (b.states 0, b.states 1))) =
      some [(sample_block_state_processing, 2)] ∧
    ∃ r, claim_example.run_start.run_schedule claim_schedule = some r ∧
      r.m_threads.map worker.pc =
        [worker_pc.loop_head, worker_pc.exchanged 1 0 2, worker_pc.exchanged 1 0 1,
         worker_pc.loop_head, worker_pc.loop_head] ∧
      claim_of r 1 = some (stage_group.generator, 0, 1) ∧
      claim_of r 2 = some (stage_group.generator, 0, 1) ∧
      ¬ at_most_one_claim r := by
  have hsome : (claim_example.run_start.run_schedule claim_schedule).isSome = true := by
    decide
  obtain ⟨r, hr⟩ := Option.isSome_iff_exists.mp hsome
  have h1 : (claim_example.run_start.run_schedule claim_schedule).map
      (fun r => r.m_threads.map worker.pc) =
      some [worker_pc.loop_head, worker_pc.exchanged 1 0 2, worker_pc.exchanged 1 0 1,
        worker_pc.loop_head, worker_pc.loop_head] := by decide
  have h2 : (claim_example.run_start.run_schedule claim_schedule).bind
      (fun r => claim_of r 1) = some (stage_group.generator, 0, 1) := by decide
  have h3 : (claim_example.run_start.run_schedule claim_schedule).bind
      (fun r => claim_of r 2) = some (stage_group.generator, 0, 1) := by decide
  rw [hr] at h1 h2 h3
  have h1b : r.m_threads.map worker.pc =
      [worker_pc.loop_head, worker_pc.exchanged 1 0 2, worker_pc.exchanged 1 0 1,
        worker_pc.loop_head, worker_pc.loop_head] := Option.some.inj h1
  have h2b : claim_of r 1 = some (stage_group.generator, 0, 1) := h2
  have h3b : claim_of r 2 = some (stage_group.generator, 0, 1) := h3
  refine ⟨by decide, by decide, by decide, r, hr, h1b, h2b, h3b, ?_⟩
  intro h
  exact absurd (h 1 2 _ h2b h3b) (by decide)

end audio_engine
